import Mathlib

/-!
# Infinite-Puppeteers marketplace backend: order pricing

A shallow embedding of the `POST /api/orders` handler of `backend/index.js`
(lines 751-798), of the `POST /api/coupons` handler (lines 807-817), and of
the product and discount-rule queries, the category deletion, the analytics
guard and the commission lifecycle handlers (payment simulation, Stripe
webhook, admin pay), together with the parts of the JSON database they read
and write, followed by theorems about subtotal, coupon discount, total,
category-weighted commission, the coupon checks, the effect of requests on the
database and the status of commissions.

## Modelling conventions

* A JavaScript number is a `JSNum`: a finite value, `NaN`, `+Infinity` or
  `-Infinity`.  Finite values are rationals.  The sign of zero is not tracked
  (a zero divisor is `+0`, which is the only zero the handler's divisor
  `subtotal` can be, since the sum starts from `+0`).
* The order handler is embedded twice.  `postOrders` computes with exact
  rational arithmetic (`JSNum.add`, `JSNum.mul`, ...): it serves the claims on
  the checks of the handler, on its effect on the database and on sequences of
  requests, and the divergences that show on inputs computed without rounding.
  `Binary64.postOrders` computes with IEEE-754 binary64 arithmetic, every
  operation being the exact one followed by rounding to the nearest double
  (ties to even, overflow to an infinity): it serves the claims on the values
  of discount, total and commission, whose examples it reproduces digit for
  digit.
* `x.toFixed(2)` followed by unary `+` is `JSNum.toFixed2`: ECMAScript picks
  the integer `n` with `n / 100` nearest to `|x|`, the larger `n` on a tie, and
  keeps the sign; `NaN` and the infinities print and parse back as themselves.
  (For `|x| >= 1e21` the built-in prints `x` itself; every double that large is
  an integer, so rounding to two decimals gives the same number.)  On doubles
  (`Binary64.toFixed2`) the decimal `n / 100` is parsed to the nearest double.
* An absent (`undefined`) property is `none`.  Fields are typed: prices,
  quantities, amounts and rates are numbers or absent, identifiers and codes
  are strings.
* A stored date bound (`startAt`, `endAt`) is abstracted to `none` when the
  stored value is falsy and to `some t` when it is truthy, `t` being
  `new Date(value).getTime()` (`NaN` for an unparseable date).
* The clock is read once per request (`now`, in milliseconds).
* An exception thrown inside the request handler is caught by the server's
  `try/catch` (line 990), which answers `500 server_error`.
* Token verification is not modelled: a handler that calls `getAuthUser(req)`
  takes the user it returns (or nothing) as an argument, and `getAuthUser`
  itself takes `verifyToken` as a parameter. The verification of a Stripe
  event is likewise outside: the webhook takes the verified event.
* A request URL is the list `req.url.split('/')` of its segments; the tests
  `startsWith` and `endsWith` of the routes are tests on the segments.
-/

namespace Puppeteers

/-! ## JavaScript numbers -/

/-- A JavaScript number: finite (exact rational), `NaN`, `+Infinity`, `-Infinity`. -/
inductive JSNum where
  | fin (q : ℚ)
  | nan
  | pinf
  | ninf
  deriving DecidableEq

namespace JSNum

/-- JavaScript truthiness of a number: `0` and `NaN` are falsy. -/
def truthy : JSNum → Bool
  | fin q => decide (q ≠ 0)
  | nan => false
  | pinf => true
  | ninf => true

/-- Unary minus. -/
def neg : JSNum → JSNum
  | fin q => fin (-q)
  | nan => nan
  | pinf => ninf
  | ninf => pinf

/-- JavaScript `a + b`. -/
def add : JSNum → JSNum → JSNum
  | fin a, fin b => fin (a + b)
  | nan, _ => nan
  | _, nan => nan
  | pinf, ninf => nan
  | ninf, pinf => nan
  | pinf, _ => pinf
  | ninf, _ => ninf
  | fin _, pinf => pinf
  | fin _, ninf => ninf

/-- JavaScript `a - b`. -/
def sub (a b : JSNum) : JSNum := add a (neg b)

/-- The product of an infinity of the given sign (`true` is `+Infinity`) with a finite value. -/
def infTimes (positive : Bool) (q : ℚ) : JSNum :=
  if q = 0 then nan
  else if (0 < q) = positive then pinf else ninf

/-- JavaScript `a * b`. -/
def mul : JSNum → JSNum → JSNum
  | fin a, fin b => fin (a * b)
  | nan, _ => nan
  | _, nan => nan
  | pinf, pinf => pinf
  | ninf, ninf => pinf
  | pinf, ninf => ninf
  | ninf, pinf => ninf
  | pinf, fin b => infTimes true b
  | ninf, fin b => infTimes false b
  | fin a, pinf => infTimes true a
  | fin a, ninf => infTimes false a

/-- JavaScript `a / b` (a zero divisor is `+0`). -/
def div : JSNum → JSNum → JSNum
  | fin a, fin b =>
    if b = 0 then
      (if a = 0 then nan else if 0 < a then pinf else ninf)
    else fin (a / b)
  | nan, _ => nan
  | _, nan => nan
  | fin _, pinf => fin 0
  | fin _, ninf => fin 0
  | pinf, fin b => if 0 ≤ b then pinf else ninf
  | ninf, fin b => if 0 ≤ b then ninf else pinf
  | pinf, pinf => nan
  | pinf, ninf => nan
  | ninf, pinf => nan
  | ninf, ninf => nan

/-- JavaScript `a < b`. -/
def lt : JSNum → JSNum → Bool
  | fin a, fin b => decide (a < b)
  | nan, _ => false
  | _, nan => false
  | ninf, ninf => false
  | pinf, _ => false
  | _, ninf => false
  | ninf, _ => true
  | fin _, pinf => true

/-- JavaScript `a > b`. -/
def gt (a b : JSNum) : Bool := lt b a

/-- JavaScript `a >= b`. -/
def ge : JSNum → JSNum → Bool
  | nan, _ => false
  | _, nan => false
  | a, b => !lt a b

/-- The integer `n` with `n / 100` nearest to the non-negative `x`, the larger one on a tie. -/
def nearestCents (x : ℚ) : ℤ := ⌊x * 100 + 1 / 2⌋

/-- The number `+x.toFixed(2)`. -/
def toFixed2 : JSNum → JSNum
  | fin q => if q < 0 then fin (-((nearestCents (-q) : ℤ) : ℚ) / 100)
             else fin ((nearestCents q : ℤ) / 100)
  | nan => nan
  | pinf => pinf
  | ninf => ninf

/-- The number a possibly absent value converts to (`undefined` gives `NaN`). -/
def ofOption : Option JSNum → JSNum
  | some x => x
  | none => nan

/-- The expression `v || d` for a numeric or absent `v`. -/
def orElse (v : Option JSNum) (d : JSNum) : JSNum :=
  match v with
  | some x => if x.truthy then x else d
  | none => d

/-- Truthiness of a numeric or absent value. -/
def optTruthy : Option JSNum → Bool
  | some x => x.truthy
  | none => false

end JSNum

open JSNum

/-! ## Data model -/

/-- A line item of an order request. -/
structure Item where
  productId : Option String := none
  price : Option JSNum := none
  qty : Option JSNum := none
  deriving DecidableEq

/-- A catalog product (the fields the handlers read, and its price). `nicheId` is the
property the product handlers write; `nichId` is the property `GET /api/products` reads
(line 165), which no handler writes. -/
structure Product where
  id : String
  categoryId : Option String := none
  price : Option JSNum := none
  nicheId : Option String := none
  nichId : Option String := none
  deriving DecidableEq

/-- A category; `commissionRate` is `none` when the stored value is not a number. -/
structure Category where
  id : String
  commissionRate : Option JSNum := none
  deriving DecidableEq

/-- A niche of a category. -/
structure Niche where
  id : String
  categoryId : Option String := none
  deriving DecidableEq

/-- A category discount rule; the date bounds are abstracted as for coupons. -/
structure DiscountRule where
  id : String
  categoryId : String
  discountPercent : JSNum
  active : Bool := true
  startAt : Option JSNum := none
  endAt : Option JSNum := none
  deriving DecidableEq

/-- A user record as far as the handlers look at it. -/
structure User where
  id : String
  role : String
  deriving DecidableEq

/-- The `config` object of the database. -/
structure Config where
  commissionRate : Option JSNum := none
  deriving DecidableEq

/-- A coupon as stored by `POST /api/coupons`. -/
structure Coupon where
  id : String := ""
  code : String
  discountType : String
  amount : JSNum
  usageLimit : Option JSNum := none
  usedCount : Option JSNum := some (fin 0)
  startAt : Option JSNum := none
  endAt : Option JSNum := none
  deriving DecidableEq

/-- An order as built by `POST /api/orders`. -/
structure Order where
  id : String
  buyer : Option String
  items : List Item
  subtotal : JSNum
  discount : JSNum
  total : JSNum
  commissionAmount : JSNum
  createdAt : Int
  paymentStatus : Option String := none
  status : Option String := none
  paidAt : Option Int := none
  deriving DecidableEq

/-- A commission record. -/
structure Commission where
  id : String
  orderId : String
  amount : JSNum
  status : String
  createdAt : Int
  vendorId : Option String
  payableAt : Option Int := none
  paidAt : Option Int := none
  deriving DecidableEq

/-- A payout record. -/
structure Payout where
  id : String
  vendorId : Option String
  commissionId : String
  amount : JSNum
  createdAt : Int
  status : String
  deriving DecidableEq

/-- The JSON database; `coupons`, `categories`, `niches`, `payouts` and `discountRules`
are absent from a fresh database. -/
structure DB where
  products : List Product := []
  orders : List Order := []
  commissions : List Commission := []
  config : Option Config := none
  coupons : Option (List Coupon) := none
  categories : Option (List Category) := none
  users : List User := []
  niches : Option (List Niche) := none
  payouts : Option (List Payout) := none
  discountRules : Option (List DiscountRule) := none
  deriving DecidableEq

/-- The database `loadDB` creates when `db.json` cannot be read (line 14). -/
def loadDBInitial : DB :=
  { products := [], orders := [], commissions := [],
    config := some { commissionRate := some (fin (1 / 10)) } }

/-- The JSON body of an order request. -/
structure OrderBody where
  buyer : Option String := none
  items : Option (List Item) := none
  couponCode : Option String := none
  vendorId : Option String := none
  deriving DecidableEq

/-- What the server answers. -/
inductive Response where
  | created (order : Order)
  | failure (status : Nat) (error : String)
  deriving DecidableEq

/-- HTTP status of a response. -/
def Response.status : Response → Nat
  | .created _ => 201
  | .failure s _ => s

/-! ## The order handler (`POST /api/orders`, lines 751-798) -/

/-- The expression `v || null` for a string or absent `v`: the empty string is falsy. -/
def orNull (v : Option String) : Option String :=
  if v = some "" then none else v

/-- The value `(it.price || 0) * (it.qty || 1)` (lines 755 and 788). -/
def itemTotal (it : Item) : JSNum :=
  (orElse it.price (fin 0)).mul (orElse it.qty (fin 1))

/-- The value `items.reduce((s, it) => s + (it.price || 0) * (it.qty || 1), 0)` (line 755). -/
def subtotal (items : List Item) : JSNum :=
  items.foldl (fun s it => s.add (itemTotal it)) (fin 0)

/-- The check `coupon.startAt && new Date(coupon.startAt).getTime() > now` (line 764). -/
def couponNotStarted (coupon : Coupon) (now : Int) : Bool :=
  match coupon.startAt with
  | some t => t.gt (fin now)
  | none => false

/-- The check `coupon.endAt && new Date(coupon.endAt).getTime() < now` (line 765). -/
def couponExpired (coupon : Coupon) (now : Int) : Bool :=
  match coupon.endAt with
  | some t => t.lt (fin now)
  | none => false

/-- The check `coupon.usageLimit && coupon.usedCount >= coupon.usageLimit` (line 766). -/
def couponUsageExhausted (coupon : Coupon) : Bool :=
  match coupon.usageLimit with
  | some l => l.truthy && (ofOption coupon.usedCount).ge l
  | none => false

/-- The discount of an accepted coupon on a subtotal (lines 767-773). -/
def couponDiscount (coupon : Coupon) (subtotal : JSNum) : JSNum :=
  let discount :=
    if coupon.discountType = "percentage" then
      (subtotal.mul (coupon.amount.div (fin 100))).toFixed2
    else
      coupon.amount.toFixed2
  if discount.gt subtotal then subtotal else discount

/-- The assignment `coupon.usedCount = (coupon.usedCount || 0) + 1` (line 775). -/
def incrementUsedCount (coupon : Coupon) : Coupon :=
  { coupon with usedCount := some ((orElse coupon.usedCount (fin 0)).add (fin 1)) }

/-- Replace the first element satisfying `p` by its image under `f`: the effect of
mutating the object that `Array.prototype.find` returned. -/
def updateFirst {α : Type} (p : α → Bool) (f : α → α) : List α → List α
  | [] => []
  | x :: xs => if p x then f x :: xs else x :: updateFirst p f xs

/-- The commission rate of a line item (lines 782-787). -/
def rate (db : DB) (item : Item) : JSNum :=
  let product := db.products.find? (fun p => decide (some p.id = item.productId))
  let rate :=
    match db.config with
    | some config => if optTruthy config.commissionRate then ofOption config.commissionRate
                     else fin (1 / 10)
    | none => fin (1 / 10)
  match product, db.categories with
  | some product, some categories =>
    match product.categoryId with
    | some categoryId =>
      if categoryId ≠ "" then
        match categories.find? (fun c => decide (c.id = categoryId)) with
        | some cat =>
          match cat.commissionRate with
          | some r => r
          | none => rate
        | none => rate
      else rate
    | none => rate
  | _, _ => rate

/-- One iteration of the `items.forEach` commission loop (lines 781-792). -/
def commissionStep (db : DB) (discount subtotal : JSNum) (commissionAmount : JSNum)
    (item : Item) : JSNum :=
  let rate := rate db item
  let itemTotal := itemTotal item
  let itemDiscount := (discount.div subtotal).mul itemTotal
  let itemNetTotal := itemTotal.sub itemDiscount
  commissionAmount.add (itemNetTotal.mul rate)

/-- The order's `commissionAmount` (lines 780-793). -/
def commissionAmount (db : DB) (items : List Item) (discount subtotal : JSNum) : JSNum :=
  (items.foldl (commissionStep db discount subtotal) (fin 0)).toFixed2

/-- Outcome of the coupon block (lines 758-776): a rejection, or the database after
the `usedCount` increment together with the discount. -/
def applyCoupon (db : DB) (body : OrderBody) (subtotal : JSNum) (now : Int) :
    Except Response (DB × JSNum) :=
  match body.couponCode with
  | none => .ok (db, fin 0)
  | some code =>
    if code = "" then .ok (db, fin 0)
    else
      match db.coupons with
      | none => .error (.failure 500 "server_error")
      | some coupons =>
        match coupons.find? (fun c => decide (c.code = code)) with
        | none => .error (.failure 400 "invalid_coupon")
        | some coupon =>
          if couponNotStarted coupon now then .error (.failure 400 "coupon_not_started")
          else if couponExpired coupon now then .error (.failure 400 "coupon_expired")
          else if couponUsageExhausted coupon then
            .error (.failure 400 "coupon_usage_exhausted")
          else
            .ok ({ db with coupons := some (updateFirst (fun c => decide (c.code = code))
                                              incrementUsedCount coupons) },
                 couponDiscount coupon subtotal)

/-- The handler of `POST /api/orders`: the database after the request and the response. -/
def postOrders (db : DB) (body : OrderBody) (now : Int) : DB × Response :=
  let id := toString now
  let items := body.items.getD []
  let subtotal := subtotal items
  match applyCoupon db body subtotal now with
  | .error response => (db, response)
  | .ok (db, discount) =>
    let total := (subtotal.sub discount).toFixed2
    let commissionAmount := commissionAmount db items discount subtotal
    let order : Order :=
      { id := id, buyer := orNull body.buyer, items := items, subtotal := subtotal,
        discount := discount, total := total, commissionAmount := commissionAmount,
        createdAt := now }
    let commission : Commission :=
      { id := "c_" ++ id, orderId := id, amount := commissionAmount, status := "pending",
        createdAt := now, vendorId := orNull body.vendorId }
    ({ db with orders := db.orders ++ [order], commissions := db.commissions ++ [commission] },
     .created order)

/-! ## The order handler in binary64 arithmetic

A JavaScript number is an IEEE-754 binary64 value: the result of `+`, `-`, `*` and `/` is
the exact result rounded to the nearest double, a tie going to the double with the even
significand, and a result that rounds to `2 ^ 1024` or beyond is an infinity. The
definitions of this section are the pricing code of `POST /api/orders` with that arithmetic:
every operation is the exact operation followed by `JSNum.round`. A finite `JSNum` carries
the rational value of the double (the sign of zero is not tracked: no expression of the
handler tells the two zeros apart). -/

/-- The integer part of the binary logarithm of `n`, for `0 < n <= fuel`. -/
def log2Fuel : ℕ → ℕ → ℕ
  | 0, _ => 0
  | fuel + 1, n => if n < 2 then 0 else log2Fuel fuel (n / 2) + 1

/-- The integer part of the binary logarithm of the absolute value of a rational other
than zero. -/
def floorLog2 (x : ℚ) : ℤ :=
  let l : ℤ := (log2Fuel x.num.natAbs x.num.natAbs : ℤ) - (log2Fuel x.den x.den : ℤ)
  if (2 : ℚ) ^ l ≤ |x| then l else l - 1

/-- The exponent of the binade of `x`: normal doubles have exponents from -1022 on, and the
subnormal ones share the exponent -1022. -/
def binade (x : ℚ) : ℤ := max (floorLog2 x) (-1022)

/-- The distance between neighbouring doubles in the binade of `x` (52 fraction bits). -/
def ulp (x : ℚ) : ℚ := (2 : ℚ) ^ (binade x - 52)

/-- The integer nearest to `y`, the even one on a tie. -/
def roundHalfEven (y : ℚ) : ℤ :=
  if y - ⌊y⌋ < 1 / 2 then ⌊y⌋
  else if 1 / 2 < y - ⌊y⌋ then ⌊y⌋ + 1
  else if ⌊y⌋ % 2 = 0 then ⌊y⌋ else ⌊y⌋ + 1

/-- Rounding to the nearest multiple of the unit in the last place, ties to even: the
binary64 rounding before the overflow test. -/
def roundNearest (x : ℚ) : ℚ := roundHalfEven (x / ulp x) * ulp x

/-- The double nearest to a rational, an infinity when the rounded value reaches
`2 ^ 1024`. -/
def round64 (x : ℚ) : JSNum :=
  if (2 : ℚ) ^ (1024 : ℕ) ≤ roundNearest x then pinf
  else if roundNearest x ≤ -(2 : ℚ) ^ (1024 : ℕ) then ninf
  else fin (roundNearest x)

/-- The rounding of an exact result to binary64. -/
def JSNum.round : JSNum → JSNum
  | fin q => round64 q
  | nan => nan
  | pinf => pinf
  | ninf => ninf

namespace Binary64

/-- The double that a numeric literal or a JSON number denotes. -/
def num (q : ℚ) : JSNum := round64 q

/-- JavaScript `a + b` on doubles. -/
def add (a b : JSNum) : JSNum := (JSNum.add a b).round

/-- JavaScript `a - b` on doubles. -/
def sub (a b : JSNum) : JSNum := (JSNum.sub a b).round

/-- JavaScript `a * b` on doubles. -/
def mul (a b : JSNum) : JSNum := (JSNum.mul a b).round

/-- JavaScript `a / b` on doubles. -/
def div (a b : JSNum) : JSNum := (JSNum.div a b).round

/-- The number `+x.toFixed(2)` on doubles: `toFixed` picks the integer `n` with `n / 100`
nearest to the exact value of the double, and unary `+` parses the decimal string to the
nearest double. -/
def toFixed2 (a : JSNum) : JSNum := (JSNum.toFixed2 a).round

/-- The value `(it.price || 0) * (it.qty || 1)` (lines 755 and 788). -/
def itemTotal (it : Item) : JSNum :=
  Binary64.mul (orElse it.price (fin 0)) (orElse it.qty (fin 1))

/-- The value `items.reduce((s, it) => s + (it.price || 0) * (it.qty || 1), 0)` (line 755). -/
def subtotal (items : List Item) : JSNum :=
  items.foldl (fun s it => Binary64.add s (Binary64.itemTotal it)) (fin 0)

/-- The discount of an accepted coupon on a subtotal (lines 767-773). -/
def couponDiscount (coupon : Coupon) (subtotal : JSNum) : JSNum :=
  let discount :=
    if coupon.discountType = "percentage" then
      Binary64.toFixed2 (Binary64.mul subtotal (Binary64.div coupon.amount (fin 100)))
    else
      Binary64.toFixed2 coupon.amount
  if discount.gt subtotal then subtotal else discount

/-- The assignment `coupon.usedCount = (coupon.usedCount || 0) + 1` (line 775). -/
def incrementUsedCount (coupon : Coupon) : Coupon :=
  { coupon with usedCount := some (Binary64.add (orElse coupon.usedCount (fin 0)) (fin 1)) }

/-- The commission rate of a line item (lines 782-787); the literal `0.1` is a double. -/
def rate (db : DB) (item : Item) : JSNum :=
  let product := db.products.find? (fun p => decide (some p.id = item.productId))
  let rate :=
    match db.config with
    | some config => if optTruthy config.commissionRate then ofOption config.commissionRate
                     else Binary64.num (1 / 10)
    | none => Binary64.num (1 / 10)
  match product, db.categories with
  | some product, some categories =>
    match product.categoryId with
    | some categoryId =>
      if categoryId ≠ "" then
        match categories.find? (fun c => decide (c.id = categoryId)) with
        | some cat =>
          match cat.commissionRate with
          | some r => r
          | none => rate
        | none => rate
      else rate
    | none => rate
  | _, _ => rate

/-- One iteration of the `items.forEach` commission loop (lines 781-792). -/
def commissionStep (db : DB) (discount subtotal : JSNum) (commissionAmount : JSNum)
    (item : Item) : JSNum :=
  let rate := Binary64.rate db item
  let itemTotal := Binary64.itemTotal item
  let itemDiscount := Binary64.mul (Binary64.div discount subtotal) itemTotal
  let itemNetTotal := Binary64.sub itemTotal itemDiscount
  Binary64.add commissionAmount (Binary64.mul itemNetTotal rate)

/-- The order's `commissionAmount` (lines 780-793). -/
def commissionAmount (db : DB) (items : List Item) (discount subtotal : JSNum) : JSNum :=
  Binary64.toFixed2 (items.foldl (Binary64.commissionStep db discount subtotal) (fin 0))

/-- Outcome of the coupon block (lines 758-776): a rejection, or the database after
the `usedCount` increment together with the discount. -/
def applyCoupon (db : DB) (body : OrderBody) (subtotal : JSNum) (now : Int) :
    Except Response (DB × JSNum) :=
  match body.couponCode with
  | none => .ok (db, fin 0)
  | some code =>
    if code = "" then .ok (db, fin 0)
    else
      match db.coupons with
      | none => .error (.failure 500 "server_error")
      | some coupons =>
        match coupons.find? (fun c => decide (c.code = code)) with
        | none => .error (.failure 400 "invalid_coupon")
        | some coupon =>
          if couponNotStarted coupon now then .error (.failure 400 "coupon_not_started")
          else if couponExpired coupon now then .error (.failure 400 "coupon_expired")
          else if couponUsageExhausted coupon then
            .error (.failure 400 "coupon_usage_exhausted")
          else
            .ok ({ db with coupons := some (updateFirst (fun c => decide (c.code = code))
                                              Binary64.incrementUsedCount coupons) },
                 Binary64.couponDiscount coupon subtotal)

/-- The handler of `POST /api/orders` on doubles: the database after the request and the
response. -/
def postOrders (db : DB) (body : OrderBody) (now : Int) : DB × Response :=
  let id := toString now
  let items := body.items.getD []
  let subtotal := Binary64.subtotal items
  match Binary64.applyCoupon db body subtotal now with
  | .error response => (db, response)
  | .ok (db, discount) =>
    let total := Binary64.toFixed2 (Binary64.sub subtotal discount)
    let commissionAmount := Binary64.commissionAmount db items discount subtotal
    let order : Order :=
      { id := id, buyer := orNull body.buyer, items := items, subtotal := subtotal,
        discount := discount, total := total, commissionAmount := commissionAmount,
        createdAt := now }
    let commission : Commission :=
      { id := "c_" ++ id, orderId := id, amount := commissionAmount, status := "pending",
        createdAt := now, vendorId := orNull body.vendorId }
    ({ db with orders := db.orders ++ [order], commissions := db.commissions ++ [commission] },
     .created order)

end Binary64

/-! ## Coupon creation (`POST /api/coupons`, lines 807-817) and request sequences -/

/-- The JSON body of a coupon creation request. The date bounds are abstracted as in
`Coupon`: `none` for a falsy value, the parsed timestamp otherwise. -/
structure CouponBody where
  code : Option String := none
  discountType : Option String := none
  amount : Option JSNum := none
  usageLimit : Option JSNum := none
  startAt : Option JSNum := none
  endAt : Option JSNum := none
  deriving DecidableEq

/-- What the server answers to a coupon creation request. -/
inductive CouponResponse where
  | created (coupon : Coupon)
  | failure (status : Nat) (error : String)
  deriving DecidableEq

/-- The coupon object built at line 813 from a body whose `code`, `discountType` and
`amount` are present. -/
def newCoupon (body : CouponBody) (code discountType : String) (amount : JSNum) (now : Int) :
    Coupon :=
  { id := "cp_" ++ toString now, code := code, discountType := discountType,
    amount := amount,
    usageLimit := if optTruthy body.usageLimit then body.usageLimit else none,
    usedCount := some (fin 0), startAt := body.startAt, endAt := body.endAt }

/-- The handler of `POST /api/coupons`: the database after the request and the response.
`admin` is the result of `getAuthUser(req)`. -/
def postCoupons (db : DB) (admin : Option User) (body : CouponBody) (now : Int) :
    DB × CouponResponse :=
  match admin with
  | none => (db, .failure 403 "forbidden")
  | some admin =>
    if admin.role ≠ "admin" then (db, .failure 403 "forbidden")
    else
      match body.code, body.discountType, body.amount with
      | some code, some discountType, some amount =>
        if code = "" ∨ discountType = "" then (db, .failure 400 "invalid_payload")
        else
          let coupon := newCoupon body code discountType amount now
          match db.coupons with
          | none => (db, .failure 500 "server_error")
          | some coupons => ({ db with coupons := some (coupons ++ [coupon]) }, .created coupon)
      | _, _, _ => (db, .failure 400 "invalid_payload")

/-- Order requests handled one after the other, each with its clock reading: the final
database and the responses in order. -/
def runOrders (db : DB) : List (OrderBody × Int) → DB × List Response
  | [] => (db, [])
  | request :: rest =>
    ((runOrders (postOrders db request.1 request.2).1 rest).1,
     (postOrders db request.1 request.2).2 :: (runOrders (postOrders db request.1 request.2).1 rest).2)

/-- A request to one of the two handlers that touch coupons. -/
inductive Request where
  | createCoupon (admin : Option User) (body : CouponBody)
  | placeOrder (body : OrderBody)
  deriving DecidableEq

/-- The database after a request. -/
def handle (db : DB) (request : Request) (now : Int) : DB :=
  match request with
  | .createCoupon admin body => (postCoupons db admin body now).1
  | .placeOrder body => (postOrders db body now).1

/-! ## Catalog queries, category deletion and the commission lifecycle

A request URL is represented by the list `req.url.split('/')` of its segments, so that
`'/api/admin/commissions/c_5/pay'` is `["", "api", "admin", "commissions", "c_5", "pay"]`. -/

/-- A reply reduced to its status and error code. -/
structure Reply where
  status : Nat
  error : Option String := none
  deriving DecidableEq

/-- The handler of `GET /api/products` (lines 154-168); `category` and `niche` are the
query parameters, `none` when absent. -/
def getProducts (db : DB) (category niche : Option String) : List Product :=
  let filtered := db.products
  let filtered :=
    match category with
    | some category =>
      if category ≠ "" then filtered.filter (fun p => decide (p.categoryId = some category))
      else filtered
    | none => filtered
  match niche with
  | some niche =>
    if niche ≠ "" then filtered.filter (fun p => decide (p.nichId = some niche))
    else filtered
  | none => filtered

/-- The handler of `DELETE /api/admin/categories/:id` (lines 300-311); `admin` is the result
of `getAuthUser(req)` and `parts` is `req.url.split('/')`. -/
def deleteCategory (db : DB) (admin : Option User) (parts : List String) : DB × Reply :=
  match admin with
  | none => (db, { status := 403, error := some "forbidden" })
  | some admin =>
    if admin.role ≠ "admin" then (db, { status := 403, error := some "forbidden" })
    else
      let id := parts[3]?
      ({ db with
         categories := some ((db.categories.getD []).filter (fun c => decide (some c.id ≠ id))),
         niches := some ((db.niches.getD []).filter (fun n => decide (n.categoryId ≠ id))),
         products := db.products.map
           (fun p => if p.categoryId = id then { p with categoryId := none } else p) },
       { status := 200 })

/-- The filter of `GET /api/discount-rules/category/:id` on one rule (lines 477-482). -/
def ruleApplies (catId : Option String) (now : Int) (r : DiscountRule) : Bool :=
  if !r.active || decide (some r.categoryId ≠ catId) then false
  else if (match r.startAt with
           | some t => t.gt (fin now)
           | none => false) then false
  else if (match r.endAt with
           | some t => t.lt (fin now)
           | none => false) then false
  else true

/-- The handler of `GET /api/discount-rules/category/:id` (lines 474-484); `parts` is
`req.url.split('/')`. -/
def getDiscountRulesByCategory (db : DB) (parts : List String) (now : Int) : List DiscountRule :=
  let catId := parts[4]?
  (db.discountRules.getD []).filter (ruleApplies catId now)

/-- The payload of a verified token, as far as `getAuthUser` reads it. -/
structure TokenPayload where
  id : Option String := none
  deriving DecidableEq

/-- The function `getAuthUser` (lines 114-124) on the `Authorization` header. The HMAC check
and expiry test of `verifyToken` are a parameter. -/
def getAuthUser (verifyToken : String → Option TokenPayload) (db : DB)
    (authorization : Option String) : Option User :=
  match authorization with
  | none => none
  | some ah =>
    if ah = "" then none
    else
      let parts := ah.splitOn " "
      if parts.length ≠ 2 then none
      else
        match verifyToken (parts.getD 1 "") with
        | none => none
        | some payload =>
          match payload.id with
          | none => none
          | some id =>
            if id = "" then none
            else db.users.find? (fun u => decide (u.id = id))

/-- One entry of the analytics object of `GET /api/admin/analytics/categories`; the category
name and the display string of the rate are left out. -/
structure CategoryAnalytics where
  categoryId : String
  products : Nat
  orders : Nat
  totalRevenue : JSNum
  totalCommission : JSNum
  avgOrderValue : JSNum
  avgCommission : JSNum
  deriving DecidableEq

/-- The analytics entry of one category (lines 360-378). -/
def categoryAnalytics (db : DB) (cat : Category) : CategoryAnalytics :=
  let catProducts := db.products.filter (fun p => decide (p.categoryId = some cat.id))
  let catOrders := db.orders.filter (fun o => o.items.any (fun it =>
    match db.products.find? (fun p => decide (some p.id = it.productId)) with
    | some prod => decide (prod.categoryId = some cat.id)
    | none => false))
  let totalRevenue := catOrders.foldl (fun sum o => sum.add (orElse (some o.subtotal) (fin 0))) (fin 0)
  let totalCommission :=
    catOrders.foldl (fun sum o => sum.add (orElse (some o.commissionAmount) (fin 0))) (fin 0)
  let avgOrderValue :=
    if 0 < catOrders.length then (totalRevenue.div (fin catOrders.length)).toFixed2 else fin 0
  let avgCommission :=
    if 0 < catOrders.length then (totalCommission.div (fin catOrders.length)).toFixed2 else fin 0
  { categoryId := cat.id, products := catProducts.length, orders := catOrders.length,
    totalRevenue := totalRevenue.toFixed2, totalCommission := totalCommission.toFixed2,
    avgOrderValue := avgOrderValue, avgCommission := avgCommission }

/-- The handler of `GET /api/admin/analytics/categories` (lines 354-381): the database
after the request, the reply, and the analytics entries in category order. -/
def getAnalyticsCategories (db : DB) (admin : Option User) :
    DB × Reply × List CategoryAnalytics :=
  match admin with
  | none => (db, { status := 403, error := some "forbidden" }, [])
  | some admin =>
    if admin.role ≠ "admin" then (db, { status := 403, error := some "forbidden" }, [])
    else
      let db := { db with categories := some (db.categories.getD []) }
      (db, { status := 200 }, (db.categories.getD []).map (categoryAnalytics db))

/-- The assignments of lines 855-857 and 941-943 to a paid order. -/
def markOrderPaid (now : Int) (order : Order) : Order :=
  { order with paymentStatus := some "paid", status := some "paid", paidAt := some now }

/-- The assignments of lines 951-952 to an order whose payment failed. -/
def markOrderFailed (order : Order) : Order :=
  { order with paymentStatus := some "failed", status := some "failed" }

/-- The assignments of lines 862-863 and 944 to the commission of a paid order. -/
def markCommissionPayable (now : Int) (comm : Commission) : Commission :=
  { comm with status := "payable", payableAt := some now }

/-- The assignments of lines 839-840 to a commission that is paid out. -/
def markCommissionPaid (now : Int) (comm : Commission) : Commission :=
  { comm with status := "paid", paidAt := some now }

/-- The handler of `POST /api/payments/simulate` (lines 849-868); `orderId` is
`body.orderId`. -/
def simulatePayment (db : DB) (orderId : Option String) (now : Int) : DB × Reply :=
  match orderId with
  | none => (db, { status := 400, error := some "orderId_required" })
  | some orderId =>
    if orderId = "" then (db, { status := 400, error := some "orderId_required" })
    else
      match db.orders.find? (fun o => decide (o.id = orderId)) with
      | none => (db, { status := 404, error := some "order_not_found" })
      | some _ =>
        ({ db with
           orders := updateFirst (fun o => decide (o.id = orderId)) (markOrderPaid now) db.orders,
           commissions := updateFirst (fun c => decide (c.orderId = orderId))
             (markCommissionPayable now) db.commissions },
         { status := 200 })

/-- A verified Stripe event, as far as the webhook reads it: `event.type` and
`event.data.object.metadata.orderId`. -/
structure StripeEvent where
  type : String
  orderId : Option String := none
  deriving DecidableEq

/-- The test `req.url.startsWith('/api/')` of line 150 on the segments of the URL: the
first segment is empty, the second is `api` and a third one follows. -/
def inApiBlock (parts : List String) : Bool :=
  match parts with
  | first :: second :: _ :: _ => decide (first = "") && decide (second = "api")
  | _ => false

/-- The segments of `'/webhooks/stripe'`. -/
def webhookUrl : List String := ["", "webhooks", "stripe"]

/-- The branch for `POST /webhooks/stripe` (lines 928-967) as the server reaches it. The
branch stands inside the block `if (req.url.startsWith('/api/'))` opened at line 150, so its
body runs for a URL that passes both tests; a URL that no route matches is answered 404
(line 980 inside the block, lines 987-988 outside it). `parts` is `req.url.split('/')` and
`event` is the result of `stripeHelpers.handleWebhook(raw, sig)`, `none` when it throws. -/
def stripeWebhook (db : DB) (parts : List String) (event : Option StripeEvent) (now : Int) :
    DB × Reply :=
  if inApiBlock parts && decide (parts = webhookUrl) then
    match event with
    | none => (db, { status := 400 })
    | some event =>
      if event.type = "payment_intent.succeeded" ∨ event.type = "payment_intent.payment_failed" then
        match event.orderId with
        | none => (db, { status := 200 })
        | some orderId =>
          if orderId = "" then (db, { status := 200 })
          else
            match db.orders.find? (fun o => decide (o.id = orderId)) with
            | none => (db, { status := 200 })
            | some _ =>
              if event.type = "payment_intent.succeeded" then
                ({ db with
                   orders := updateFirst (fun o => decide (o.id = orderId)) (markOrderPaid now)
                     db.orders,
                   commissions := updateFirst (fun c => decide (c.orderId = orderId))
                     (markCommissionPayable now) db.commissions },
                 { status := 200 })
              else
                ({ db with
                   orders := updateFirst (fun o => decide (o.id = orderId)) markOrderFailed
                     db.orders },
                 { status := 200 })
      else (db, { status := 200 })
  else (db, { status := 404, error := some "Not Found" })

/-- The route test of line 832 on the segments of the URL:
`req.url.startsWith('/api/admin/commissions/') && req.url.endsWith('/pay')`. -/
def isAdminPayUrl (parts : List String) : Bool :=
  match parts with
  | first :: second :: third :: fourth :: segment :: rest =>
    decide (first = "") && decide (second = "api") && decide (third = "admin")
      && decide (fourth = "commissions") && decide ((segment :: rest).getLast? = some "pay")
  | _ => false

/-- The handler of `POST /api/admin/commissions/:id/pay` (lines 832-845); `admin` is the
result of `getAuthUser(req)` and `parts` is `req.url.split('/')`. When `db.payouts` is
absent the `push` throws after the commission has been marked paid. -/
def adminPay (db : DB) (admin : Option User) (parts : List String) (now : Int) : DB × Reply :=
  match admin with
  | none => (db, { status := 403, error := some "forbidden" })
  | some admin =>
    if admin.role ≠ "admin" then (db, { status := 403, error := some "forbidden" })
    else
      let cid := parts[3]?
      match db.commissions.find? (fun c => decide (some c.id = cid)) with
      | none => (db, { status := 404, error := some "not_found" })
      | some comm =>
        let commissions :=
          updateFirst (fun c => decide (some c.id = cid)) (markCommissionPaid now) db.commissions
        let payout : Payout :=
          { id := "p_" ++ toString now, vendorId := orNull comm.vendorId, commissionId := comm.id,
            amount := comm.amount, createdAt := now, status := "processed" }
        match db.payouts with
        | none => ({ db with commissions := commissions },
                   { status := 500, error := some "server_error" })
        | some payouts =>
          ({ db with commissions := commissions, payouts := some (payouts ++ [payout]) },
           { status := 200 })

/-- A request to one of the four handlers that create commissions or change their status:
`POST /api/orders`, `POST /api/payments/simulate`, `POST /webhooks/stripe`, and a `POST`
to a URL with the given segments for the admin pay action. -/
inductive LifecycleRequest where
  | placeOrder (body : OrderBody)
  | simulatePayment (orderId : Option String)
  | stripeWebhook (event : Option StripeEvent)
  | adminPay (admin : Option User) (parts : List String)
  deriving DecidableEq

/-- The database after a lifecycle request. The admin pay handler runs for a URL that
passes the route test of line 832; a URL that does not is no admin pay request and leaves
the database as it is. -/
def lifecycleStep (db : DB) (request : LifecycleRequest) (now : Int) : DB :=
  match request with
  | .placeOrder body => (postOrders db body now).1
  | .simulatePayment orderId => (simulatePayment db orderId now).1
  | .stripeWebhook event => (stripeWebhook db webhookUrl event now).1
  | .adminPay admin parts => if isAdminPayUrl parts then (adminPay db admin parts now).1 else db

/-- The database after a sequence of lifecycle requests, each with its clock reading. -/
def runLifecycle (db : DB) : List (LifecycleRequest × Int) → DB
  | [] => db
  | request :: rest => runLifecycle (lifecycleStep db request.1 request.2) rest

/-- The database after a sequence of coupon and order requests. -/
def runRequests (db : DB) : List (Request × Int) → DB
  | [] => db
  | request :: rest => runRequests (handle db request.1 request.2) rest


/-! ## Specification-side definitions and test fixtures -/

/-- The rational value of a finite number (`0` for `NaN` and the infinities). -/
def JSNum.toRat : JSNum → ℚ
  | fin q => q
  | _ => 0

/-- Rounding to two decimals, half-up: the spec's "standard rounding (half-up on the 3rd decimal)". -/
def halfUp2 (x : ℚ) : ℚ := (⌊x * 100 + 1 / 2⌋ : ℤ) / 100

/-- The "valid coupon" of the claims: the coupon an order request names, when it is found
(line 761), inside its window (lines 764-765) and not exhausted (line 766). It is the
success path of `applyCoupon` (`applyCoupon_of_valid`, `applyCoupon_ok`). -/
def validCoupon (db : DB) (body : OrderBody) (now : Int) : Option Coupon :=
  match body.couponCode, db.coupons with
  | some code, some coupons =>
    if code = "" then none
    else
      match coupons.find? (fun c => decide (c.code = code)) with
      | some coupon =>
        if couponNotStarted coupon now || couponExpired coupon now
            || couponUsageExhausted coupon then none
        else some coupon
      | none => none
  | _, _ => none

/-- The order carried by a `201` response. -/
def Response.order? : Response → Option Order
  | .created o => some o
  | .failure _ _ => none

/-- Spec (claims C1, C6): the item total "unit price times quantity". -/
def specItemTotal (it : Item) : JSNum := (ofOption it.price).mul (ofOption it.qty)

/-- Spec (claim C1): "Subtotal = sum over items of (unitPrice x quantity)". -/
def specSubtotal (items : List Item) : JSNum :=
  (items.map specItemTotal).foldl JSNum.add (fin 0)

/-- Spec (claim C6): the sum over the line items of
`(itemTotal - (discount / subtotal) * itemTotal) * rate(item)`, rounded once at the end,
with `itemTotal` the unit price times the quantity. -/
def specCommissionAmount (db : DB) (items : List Item) (discount subtotal : JSNum) : JSNum :=
  ((items.map (fun it =>
      ((specItemTotal it).sub ((discount.div subtotal).mul (specItemTotal it))).mul
        (rate db it))).foldl JSNum.add (fin 0)).toFixed2

/-- A line item with a product id, a finite price and a finite quantity. -/
def lineItem (productId : String) (price qty : ℚ) : Item :=
  { productId := some productId, price := some (fin price), qty := some (fin qty) }

/-- A stored coupon without window or usage limit. -/
def plainCoupon (code discountType : String) (amount : ℚ) : Coupon :=
  { code := code, discountType := discountType, amount := fin amount }

/-- The catalog of the repository's tests: Electronics at 0.10 and Fashion at 0.12, with the
coupons the examples below use. -/
def testDB : DB :=
  { loadDBInitial with
    products := [{ id := "p_1", categoryId := some "electronics" },
                 { id := "p_2", categoryId := some "fashion" }],
    categories := some [{ id := "electronics", commissionRate := some (fin (1 / 10)) },
                        { id := "fashion", commissionRate := some (fin (12 / 100)) }],
    coupons := some [plainCoupon "TEST10" "percentage" 10,
                     plainCoupon "ALL" "percentage" 100,
                     plainCoupon "MINUS5" "fixed" (-5),
                     plainCoupon "BIG" "fixed" 1000] }

/-- The test catalog with one more coupon: a fixed amount of 10.00390625. -/
def nearDB : DB :=
  { testDB with coupons := some [plainCoupon "NEAR" "fixed" (2561 / 256)] }

/-- An order request with the given items and coupon code. -/
def orderBody (items : List Item) (couponCode : Option String) : OrderBody :=
  { buyer := some "test_buyer", items := some items, couponCode := couponCode }

/-- The pricing fields of the order a response carries. -/
def Response.pricing? (r : Response) : Option (JSNum × JSNum × JSNum × JSNum) :=
  r.order?.map (fun o => (o.subtotal, o.discount, o.total, o.commissionAmount))

/-- The order the handler builds for the coupon test of `test-categories.js` at time 5. -/
def testOrder : Order :=
  { id := "5", buyer := some "test_buyer", items := [lineItem "p_1" (49999 / 100) 1],
    subtotal := fin (49999 / 100), discount := fin 50, total := fin (44999 / 100),
    commissionAmount := fin 45, createdAt := 5 }

/-- Whether a number is finite (neither `NaN` nor an infinity). -/
def JSNum.isFinite : JSNum → Bool
  | fin _ => true
  | _ => false

/-- A coupon with a validity window and a usage limit, for the examples. -/
def windowCoupon (code : String) (startAt endAt usageLimit : Option ℚ) (usedCount : ℚ) :
    Coupon :=
  { code := code, discountType := "percentage", amount := fin 10,
    usageLimit := usageLimit.map fin, usedCount := some (fin usedCount),
    startAt := startAt.map fin, endAt := endAt.map fin }

/-- The test catalog with the coupons of the window and usage examples. -/
def windowDB : DB :=
  { testDB with
    coupons := some [windowCoupon "SPRING" (some 1000) (some 2000) (some 3) 3,
                     windowCoupon "INVERTED" (some 2000) (some 500) none 0,
                     windowCoupon "ZERO" none none (some 0) 0] }

/-- A product with its `price` field blanked. -/
def Product.erasePrice (p : Product) : Product := { p with price := none }

/-- A database with the `price` field of every product blanked: two databases differ only
in product prices exactly when their images are equal. -/
def DB.erasePrices (db : DB) : DB := { db with products := db.products.map Product.erasePrice }

/-- The test catalog with catalog prices that differ from what the caller sends. -/
def pricedDB : DB :=
  { testDB with
    products := [{ id := "p_1", categoryId := some "electronics", price := some (fin 999) },
                 { id := "p_2", categoryId := some "fashion", price := some (fin 1) }] }

/-- Whether a number is a natural number. -/
def JSNum.isCount : JSNum → Bool
  | fin q => decide (q = ((q.num.toNat : ℕ) : ℚ))
  | _ => false

/-- Spec (claim C15): "usedCount <= usageLimit when usageLimit set", for one coupon. -/
def usedCountWithinLimit (c : Coupon) : Bool :=
  match c.usageLimit with
  | none => true
  | some l => l.ge (ofOption c.usedCount)

/-- Spec (claim C15): the invariant of the database, over all stored coupons. -/
def usageInvariant (db : DB) : Bool :=
  match db.coupons with
  | none => true
  | some coupons => coupons.all usedCountWithinLimit

/-- The strengthening of the C15 invariant that the handlers do preserve, for one coupon: a
set usageLimit is a positive integer and usedCount is a natural number not above it. -/
def usageCounted (c : Coupon) : Bool :=
  match c.usageLimit with
  | none => true
  | some l => l.isCount && l.truthy && (ofOption c.usedCount).isCount
      && l.ge (ofOption c.usedCount)

/-- The strengthened invariant over all stored coupons. -/
def countedInvariant (db : DB) : Bool :=
  match db.coupons with
  | none => true
  | some coupons => coupons.all usageCounted

/-- Whether the usageLimit a request asks for, when truthy, is a natural number. -/
def Request.limitIsCount : Request → Bool
  | .createCoupon _ body => !optTruthy body.usageLimit || (ofOption body.usageLimit).isCount
  | .placeOrder _ => true

/-- An administrator, as `getAuthUser` returns it for a valid admin token. -/
def adminUser : User := { id := "u_admin", role := "admin" }

/-- A coupon creation body with a usage limit and no window. -/
def limitedCouponBody (code : String) (usageLimit : ℚ) : CouponBody :=
  { code := some code, discountType := some "fixed", amount := some (fin 1),
    usageLimit := some (fin usageLimit) }

/-- A database with an empty `coupons` array. -/
def emptyCouponsDB : DB := { testDB with coupons := some [] }

/-- The segments of `'/api/admin/commissions/' + id + '/pay'`. -/
def payUrl (id : String) : List String := ["", "api", "admin", "commissions", id, "pay"]

/-- The segments of `'/api/admin/categories/' + id`. -/
def categoryUrl (id : String) : List String := ["", "api", "admin", "categories", id]

/-- The segments of `'/api/discount-rules/category/' + id`. -/
def rulesUrl (id : String) : List String := ["", "api", "discount-rules", "category", id]

/-- Spec (claim C27): a rule is returned when it is active, has the category id, has no
startAt later than now and no endAt earlier than now. -/
def specRuleReturned (catId : String) (now : Int) (r : DiscountRule) : Prop :=
  r.active = true ∧ r.categoryId = catId ∧
  (∀ t, r.startAt = some t → t.gt (fin now) = false) ∧
  (∀ t, r.endAt = some t → t.lt (fin now) = false)

/-- The test catalog with a niche on its first product, a category whose rate differs from
the default, and an empty payout list. -/
def shopDB : DB :=
  { testDB with
    products := [{ id := "p_1", categoryId := some "electronics", nicheId := some "smartphones" },
                 { id := "p_2", categoryId := some "fashion", nicheId := some "shoes" }],
    niches := some [{ id := "smartphones", categoryId := some "electronics" },
                    { id := "shoes", categoryId := some "fashion" }],
    payouts := some [] }

/-- An order of 100.00 for product p_2 placed at time 5 and its commission, as `POST
/api/orders` stores them on `shopDB`. -/
def paidOrder : Order :=
  { id := "5", buyer := some "test_buyer", items := [lineItem "p_2" 100 1],
    subtotal := fin 100, discount := fin 0, total := fin 100, commissionAmount := fin 12,
    createdAt := 5 }

/-- The commission of `paidOrder` with a given id and status. -/
def commissionOf (id status : String) : Commission :=
  { id := id, orderId := "5", amount := fin 12, status := status, createdAt := 5,
    vendorId := none }

/-- The database `shopDB` holding `paidOrder` and its commission in a given status. -/
def lifecycleDB (commissionId status : String) : DB :=
  { shopDB with orders := [paidOrder], commissions := [commissionOf commissionId status] }

/-- A number of the binary64 grid with unbounded exponent: an integer of at most 53 bits
times a power of two not below `2 ^ -1074`. -/
def Representable (q : ℚ) : Prop :=
  ∃ m k : ℤ, |m| ≤ 2 ^ 53 ∧ -1074 ≤ k ∧ q = m * (2 : ℚ) ^ k

/-- A line item whose price and quantity are the doubles nearest to the given decimals. -/
def Binary64.lineItem (productId : String) (price qty : ℚ) : Item :=
  { productId := some productId, price := some (Binary64.num price),
    qty := some (Binary64.num qty) }

/-- The catalog of the binary64 examples: the category Electronics at the rate 0.1 (the
double nearest to it), a category charging the full amount (rate 1), a 10% coupon, a 100%
coupon and a fixed coupon of 0.06. -/
def Binary64.shop : DB :=
  { products := [{ id := "p_1", categoryId := some "electronics" },
                 { id := "p_3", categoryId := some "full" }],
    config := some { commissionRate := some (Binary64.num (1 / 10)) },
    categories := some [{ id := "electronics", commissionRate := some (Binary64.num (1 / 10)) },
                        { id := "full", commissionRate := some (fin 1) }],
    coupons := some [plainCoupon "TEN" "percentage" 10,
                     plainCoupon "ALL" "percentage" 100,
                     { code := "SIX", discountType := "fixed", amount := Binary64.num (6 / 100) }] }

/-- The value one iteration of the commission loop adds for an item total `t` at the rate
`r`, `q` being the double `discount / subtotal`: the three roundings of lines 789-791. -/
def Binary64.stepTerm (q t r : ℚ) : ℚ :=
  roundNearest (roundNearest (t - roundNearest (q * t)) * r)

/-- The order the handler on doubles builds at time 5 for one line of 499.99 with the 10%
coupon, on the catalog of the examples: discount 50.00, total 449.99, commission 45.00. -/
def Binary64.exampleOrder : Order :=
  { id := "5", buyer := some "test_buyer", items := [Binary64.lineItem "p_1" (49999 / 100) 1],
    subtotal := Binary64.num (49999 / 100), discount := fin 50,
    total := Binary64.num (44999 / 100), commissionAmount := fin 45, createdAt := 5 }

/-- A commission as the order handler creates it (line 796) and the payment simulation
leaves it: its id is `'c_' + orderId` and its status is pending or payable. -/
def Commission.fromOrder (c : Commission) : Bool :=
  decide (c.id = "c_" ++ c.orderId) && (decide (c.status = "pending") || decide (c.status = "payable"))

/-- Every stored commission is as the order handler creates it and the payment simulation
leaves it. This holds for the database `loadDB` creates and is preserved by every lifecycle
request (`lifecycleStep_fromOrders`). -/
def commissionsFromOrders (db : DB) : Bool := db.commissions.all Commission.fromOrder

/-- A database whose `coupons` array already holds an unlimited coupon with the code ONCE. -/
def storedOnceDB : DB := { testDB with coupons := some [plainCoupon "ONCE" "fixed" 1] }

/-- The codes of the stored coupons, in stored order. -/
def couponCodes (db : DB) : List String := (db.coupons.getD []).map (fun c => c.code)

/-- The codes that the coupon creation requests of a sequence ask for. -/
def requestedCodes : List (Request × Int) → List String
  | [] => []
  | (.createCoupon _ body, _) :: rest => (body.code.toList) ++ requestedCodes rest
  | (.placeOrder _, _) :: rest => requestedCodes rest

/-- A database with five discount rules: one active and in its window at time 1000, one
inactive, one starting later, one expired, and one of another category. -/
def rulesDB : DB :=
  { testDB with
    discountRules := some
      [{ id := "rule_1", categoryId := "fashion", discountPercent := fin 5,
         startAt := some (fin 1000), endAt := some (fin 1000) },
       { id := "rule_2", categoryId := "fashion", discountPercent := fin 5, active := false },
       { id := "rule_3", categoryId := "fashion", discountPercent := fin 10,
         startAt := some (fin 1001) },
       { id := "rule_4", categoryId := "fashion", discountPercent := fin 15,
         startAt := some (fin 0), endAt := some (fin 999) },
       { id := "rule_5", categoryId := "sports", discountPercent := fin 10 }] }


/-! ## Lemmas on numbers -/

theorem JSNum.add_eq_fin {a b : JSNum} {c : ℚ} (h : a.add b = fin c) :
    ∃ x y, a = fin x ∧ b = fin y ∧ c = x + y := by
  cases a <;> cases b <;> simp [JSNum.add] at h
  exact ⟨_, _, rfl, rfl, h.symm⟩

theorem JSNum.toFixed2_fin_nonneg {q : ℚ} (h : 0 ≤ q) :
    (fin q).toFixed2 = fin (halfUp2 q) := by
  simp [JSNum.toFixed2, halfUp2, nearestCents, not_lt.mpr h]

theorem halfUp2_nonneg {q : ℚ} (h : 0 ≤ q) : 0 ≤ halfUp2 q := by
  unfold halfUp2
  have : (0 : ℤ) ≤ ⌊q * 100 + 1 / 2⌋ := Int.floor_nonneg.mpr (by positivity)
  have h2 : (0 : ℚ) ≤ ((⌊q * 100 + 1 / 2⌋ : ℤ) : ℚ) := by exact_mod_cast this
  positivity

theorem halfUp2_zero : halfUp2 0 = 0 := by
  simp [halfUp2]
  norm_num

theorem halfUp2_mono {a b : ℚ} (h : a ≤ b) : halfUp2 a ≤ halfUp2 b := by
  unfold halfUp2
  have : ⌊a * 100 + 1 / 2⌋ ≤ ⌊b * 100 + 1 / 2⌋ := Int.floor_le_floor (by linarith)
  have h2 : ((⌊a * 100 + 1 / 2⌋ : ℤ) : ℚ) ≤ ((⌊b * 100 + 1 / 2⌋ : ℤ) : ℚ) := by exact_mod_cast this
  linarith

theorem halfUp2_of_int_cents (k : ℤ) : halfUp2 ((k : ℚ) / 100) = (k : ℚ) / 100 := by
  unfold halfUp2
  have : ⌊(k : ℚ) / 100 * 100 + 1 / 2⌋ = k := by
    rw [Int.floor_eq_iff]
    constructor <;> norm_num
  rw [this]

theorem halfUp2_near (q : ℚ) : |halfUp2 q - q| ≤ 1 / 200 := by
  unfold halfUp2
  have h1 := Int.floor_le (q * 100 + 1 / 2)
  have h2 := Int.lt_floor_add_one (q * 100 + 1 / 2)
  rw [abs_le]
  constructor <;> linarith

/-! ## Lemmas on the handler -/

theorem JSNum.toRat_fin (q : ℚ) : (fin q).toRat = q := rfl

theorem JSNum.add_fin_fin (a b : ℚ) : (fin a).add (fin b) = fin (a + b) := rfl

theorem foldl_add_eq_fin (f : Item → JSNum) (items : List Item) :
    ∀ (acc : JSNum) (S : ℚ), items.foldl (fun s it => s.add (f it)) acc = fin S →
      ∃ a, acc = fin a ∧ (∀ it ∈ items, f it = fin (f it).toRat) ∧
        S = a + (items.map (fun it => (f it).toRat)).sum := by
  induction items with
  | nil =>
    intro acc S h
    exact ⟨S, by simpa using h, by simp, by simp⟩
  | cons x xs ih =>
    intro acc S h
    rw [List.foldl_cons] at h
    obtain ⟨a', ha', hfin, hS⟩ := ih _ _ h
    obtain ⟨a, t, hacc, ht, hsum⟩ := JSNum.add_eq_fin ha'
    refine ⟨a, hacc, ?_, ?_⟩
    · intro it hit
      rcases List.mem_cons.mp hit with rfl | hmem
      · rw [ht]; rfl
      · exact hfin it hmem
    · rw [List.map_cons, List.sum_cons, ht, JSNum.toRat_fin, hS, hsum]; ring

theorem subtotal_eq_fin {items : List Item} {S : ℚ} (h : subtotal items = fin S) :
    (∀ it ∈ items, itemTotal it = fin (itemTotal it).toRat) ∧
      S = (items.map (fun it => (itemTotal it).toRat)).sum := by
  obtain ⟨a, ha, hfin, hS⟩ := foldl_add_eq_fin itemTotal items (fin 0) S h
  have : a = 0 := by cases ha; rfl
  subst this
  exact ⟨hfin, by simpa using hS⟩

theorem foldl_add_fin (f : Item → JSNum) (items : List Item)
    (hfin : ∀ it ∈ items, f it = fin (f it).toRat) :
    ∀ a : ℚ, items.foldl (fun s it => s.add (f it)) (fin a)
      = fin (a + (items.map (fun it => (f it).toRat)).sum) := by
  induction items with
  | nil => intro a; simp
  | cons x xs ih =>
    intro a
    have hx := hfin x (List.mem_cons_self _ _)
    rw [List.foldl_cons, hx, JSNum.add_fin_fin,
      ih (fun it hit => hfin it (List.mem_cons_of_mem _ hit)), List.map_cons, List.sum_cons]
    congr 1; ring

theorem commissionStep_fin (db : DB) {d S a t r : ℚ} (hS : S ≠ 0) {x : Item}
    (ht : itemTotal x = fin t) (hr : rate db x = fin r) :
    commissionStep db (fin d) (fin S) (fin a) x = fin (a + (t - d / S * t) * r) := by
  unfold commissionStep
  rw [ht, hr]
  simp only [JSNum.div, JSNum.mul, JSNum.sub, JSNum.add, JSNum.neg, hS, if_false]
  congr 1; ring

/-- With a finite discount, a finite non-zero subtotal, finite item totals and finite rates,
the commission loop accumulates the exact sum of the net item totals times their rates. -/
theorem commission_foldl_fin (db : DB) (d S : ℚ) (hS : S ≠ 0) (items : List Item)
    (hT : ∀ it ∈ items, itemTotal it = fin (itemTotal it).toRat)
    (hR : ∀ it ∈ items, rate db it = fin (rate db it).toRat) :
    ∀ a : ℚ, items.foldl (commissionStep db (fin d) (fin S)) (fin a)
      = fin (a + (items.map (fun it =>
          ((itemTotal it).toRat - d / S * (itemTotal it).toRat) * (rate db it).toRat)).sum) := by
  induction items with
  | nil => intro a; simp
  | cons x xs ih =>
    intro a
    have hx := hT x (List.mem_cons_self _ _)
    have hr := hR x (List.mem_cons_self _ _)
    rw [List.foldl_cons]
    rw [commissionStep_fin db hS hx hr, ih (fun it hit => hT it (List.mem_cons_of_mem _ hit))
      (fun it hit => hR it (List.mem_cons_of_mem _ hit))]
    simp only [List.map_cons, List.sum_cons]
    congr 1; ring

theorem rate_congr {db db1 : DB} (hp : db1.products = db.products) (hc : db1.config = db.config)
    (hk : db1.categories = db.categories) (item : Item) : rate db1 item = rate db item := by
  unfold rate
  rw [hp, hc, hk]

theorem commissionAmount_congr {db db1 : DB} (hp : db1.products = db.products)
    (hc : db1.config = db.config) (hk : db1.categories = db.categories)
    (items : List Item) (discount subtotal : JSNum) :
    commissionAmount db1 items discount subtotal = commissionAmount db items discount subtotal := by
  have : commissionStep db1 discount subtotal = commissionStep db discount subtotal := by
    funext acc item
    simp only [commissionStep, rate_congr hp hc hk]
  simp only [commissionAmount, this]

theorem applyCoupon_of_valid {db : DB} {body : OrderBody} {now : Int} {coupon : Coupon}
    (h : validCoupon db body now = some coupon) (s : JSNum) :
    ∃ db1, applyCoupon db body s now = .ok (db1, couponDiscount coupon s) ∧
      db1.products = db.products ∧ db1.config = db.config ∧ db1.categories = db.categories := by
  unfold validCoupon at h
  unfold applyCoupon
  split at h
  · next code coupons hcode hcoupons =>
    rw [hcode, hcoupons]
    simp only
    split at h
    · simp at h
    · next hne =>
      simp only [hne, if_false]
      split at h
      · next c hfind =>
        rw [hfind]
        simp only
        split at h
        · simp at h
        · next hchk =>
          simp only [Bool.or_eq_true, not_or, Bool.not_eq_true] at hchk
          obtain ⟨⟨h1, h2⟩, h3⟩ := hchk
          cases h
          simp [h1, h2, h3]
      · simp at h
  · simp at h

theorem applyCoupon_error {db : DB} {body : OrderBody} {now : Int} {s : JSNum} {r : Response}
    (h : applyCoupon db body s now = .error r) : ∃ st e, r = .failure st e := by
  unfold applyCoupon at h
  cases hc : body.couponCode with
  | none => simp [hc] at h
  | some code =>
    cases hcs : db.coupons with
    | none =>
      simp only [hc, hcs] at h
      split_ifs at h
      cases h; exact ⟨_, _, rfl⟩
    | some coupons =>
      simp only [hc, hcs] at h
      cases hf : coupons.find? (fun c => decide (c.code = code)) with
      | none =>
        simp only [hf] at h
        split_ifs at h
        cases h; exact ⟨_, _, rfl⟩
      | some c =>
        simp only [hf] at h
        split_ifs at h <;> cases h <;> exact ⟨_, _, rfl⟩

theorem applyCoupon_ok {db db1 : DB} {body : OrderBody} {now : Int} {s discount : JSNum}
    (h : applyCoupon db body s now = .ok (db1, discount)) :
    (db1.products = db.products ∧ db1.config = db.config ∧ db1.categories = db.categories) ∧
    ((validCoupon db body now = none ∧ discount = fin 0 ∧ db1 = db) ∨
      ∃ c, validCoupon db body now = some c ∧ discount = couponDiscount c s) := by
  unfold applyCoupon at h
  unfold validCoupon
  cases hc : body.couponCode with
  | none =>
    simp only [hc, Except.ok.injEq, Prod.mk.injEq] at h
    obtain ⟨rfl, rfl⟩ := h
    simp
  | some code =>
    cases hcs : db.coupons with
    | none =>
      simp only [hc, hcs] at h
      split_ifs at h
      simp only [Except.ok.injEq, Prod.mk.injEq] at h
      obtain ⟨rfl, rfl⟩ := h
      simp
    | some coupons =>
      simp only [hc, hcs] at h
      cases hf : coupons.find? (fun c => decide (c.code = code)) with
      | none =>
        simp only [hf] at h
        split_ifs at h with h0
        simp only [Except.ok.injEq, Prod.mk.injEq] at h
        obtain ⟨rfl, rfl⟩ := h
        simp [h0]
      | some c =>
        simp only [hf] at h
        split_ifs at h with h0 h1 h2 h3
        · simp only [Except.ok.injEq, Prod.mk.injEq] at h
          obtain ⟨rfl, rfl⟩ := h
          simp [h0]
        · simp only [Except.ok.injEq, Prod.mk.injEq] at h
          obtain ⟨rfl, rfl⟩ := h
          refine ⟨⟨rfl, rfl, rfl⟩, Or.inr ⟨c, ?_, rfl⟩⟩
          simp [h0, h1, h2, h3, hf]

/-- What every accepted order carries: the handler's subtotal, total and commission, and a
discount that is `0` without a coupon code and the coupon's discount with one. -/
theorem postOrders_created {db db' : DB} {body : OrderBody} {now : Int} {o : Order}
    (h : postOrders db body now = (db', .created o)) :
    o.items = body.items.getD [] ∧ o.subtotal = subtotal o.items ∧
    o.total = (o.subtotal.sub o.discount).toFixed2 ∧
    o.commissionAmount = commissionAmount db o.items o.discount o.subtotal ∧
    ((validCoupon db body now = none ∧ o.discount = fin 0) ∨
      ∃ c, validCoupon db body now = some c ∧ o.discount = couponDiscount c o.subtotal) := by
  unfold postOrders at h
  simp only at h
  split at h
  · next r happly =>
    obtain ⟨st, e, rfl⟩ := applyCoupon_error happly
    simp at h
  · next db1 discount happly =>
    simp only [Prod.mk.injEq, Response.created.injEq] at h
    obtain ⟨-, rfl⟩ := h
    obtain ⟨⟨hp, hcfg, hk⟩, hd⟩ := applyCoupon_ok happly
    refine ⟨rfl, rfl, rfl, commissionAmount_congr hp hcfg hk _ _ _, ?_⟩
    rcases hd with ⟨hv, hd, -⟩ | ⟨c, hv, hd⟩
    · exact Or.inl ⟨hv, hd⟩
    · exact Or.inr ⟨c, hv, hd⟩

theorem postOrders_of_valid {db : DB} {body : OrderBody} {now : Int} {c : Coupon}
    (h : validCoupon db body now = some c) :
    ∃ db' o, postOrders db body now = (db', .created o) ∧
      o.items = body.items.getD [] ∧ o.subtotal = subtotal (body.items.getD []) ∧
      o.discount = couponDiscount c o.subtotal ∧
      o.total = (o.subtotal.sub o.discount).toFixed2 ∧
      o.commissionAmount = commissionAmount db o.items o.discount o.subtotal := by
  obtain ⟨db1, happly, hp, hcfg, hk⟩ := applyCoupon_of_valid h (subtotal (body.items.getD []))
  unfold postOrders
  simp only [happly]
  exact ⟨_, _, rfl, rfl, rfl, rfl, rfl, commissionAmount_congr hp hcfg hk _ _ _⟩

theorem couponDiscount_fin_of_rounded {c : Coupon} {S h : ℚ}
    (hr : (if c.discountType = "percentage"
            then ((fin S).mul (c.amount.div (fin 100))).toFixed2
            else c.amount.toFixed2) = fin h) :
    couponDiscount c (fin S) = fin (min h S) := by
  unfold couponDiscount
  simp only [hr, JSNum.gt, JSNum.lt]
  by_cases hlt : S < h
  · simp [hlt, min_eq_right hlt.le]
  · simp [hlt, min_eq_left (not_lt.mp hlt)]

theorem couponDiscount_of_rounded_pinf {c : Coupon} {S : ℚ}
    (hr : (if c.discountType = "percentage"
            then ((fin S).mul (c.amount.div (fin 100))).toFixed2
            else c.amount.toFixed2) = pinf) :
    couponDiscount c (fin S) = fin S := by
  unfold couponDiscount
  simp [hr, JSNum.gt, JSNum.lt]

/-- A coupon with a non-negative amount gives a discount between 0 and a positive subtotal. -/
theorem couponDiscount_bounds {c : Coupon} {S : ℚ} (hpos : 0 < S)
    (ha : c.amount.ge (fin 0) = true) :
    ∃ d, couponDiscount c (fin S) = fin d ∧ 0 ≤ d ∧ d ≤ S := by
  cases hamt : c.amount with
  | nan => simp [hamt, JSNum.ge] at ha
  | ninf => simp [hamt, JSNum.ge, JSNum.lt] at ha
  | pinf =>
    refine ⟨S, couponDiscount_of_rounded_pinf ?_, hpos.le, le_refl _⟩
    simp [hamt, JSNum.div, JSNum.mul, JSNum.infTimes, JSNum.toFixed2, hpos, hpos.ne']
  | fin a =>
    have ha0 : 0 ≤ a := by simpa [hamt, JSNum.ge, JSNum.lt] using ha
    by_cases hp : c.discountType = "percentage"
    · have hq : 0 ≤ S * (a / 100) := by positivity
      refine ⟨min (halfUp2 (S * (a / 100))) S, couponDiscount_fin_of_rounded ?_,
        le_min (halfUp2_nonneg hq) hpos.le, min_le_right _ _⟩
      simp [hp, hamt, JSNum.div, JSNum.mul, JSNum.toFixed2_fin_nonneg hq]
    · refine ⟨min (halfUp2 a) S, couponDiscount_fin_of_rounded ?_,
        le_min (halfUp2_nonneg ha0) hpos.le, min_le_right _ _⟩
      simp [hp, hamt, JSNum.toFixed2_fin_nonneg ha0]

theorem JSNum.eq_fin_of_isFinite {a : JSNum} (h : a.isFinite = true) : a = fin a.toRat := by
  cases a <;> simp [JSNum.isFinite] at h
  rfl

theorem toFixed2_zero : (fin 0).toFixed2 = fin 0 := by
  rw [JSNum.toFixed2_fin_nonneg (le_refl 0), halfUp2_zero]

theorem itemTotal_eq_spec {it : Item} {p q : ℚ} (hp : it.price = some (fin p))
    (hq : it.qty = some (fin q)) (hq0 : q ≠ 0) : itemTotal it = specItemTotal it := by
  unfold itemTotal specItemTotal
  rw [hp, hq]
  by_cases hp0 : p = 0
  · subst hp0; simp [JSNum.orElse, JSNum.truthy, JSNum.ofOption, hq0]
  · simp [JSNum.orElse, JSNum.truthy, JSNum.ofOption, hq0, hp0]

/-- Outside zero and missing quantities the handler's subtotal is the sum of unit price
times quantity. -/
theorem subtotal_eq_spec_of_quantities_nonzero (items : List Item)
    (h : ∀ it ∈ items, ∃ p q : ℚ, it.price = some (fin p) ∧ it.qty = some (fin q) ∧ q ≠ 0) :
    subtotal items = specSubtotal items := by
  unfold subtotal specSubtotal
  rw [List.foldl_map]
  generalize fin 0 = acc
  induction items generalizing acc with
  | nil => rfl
  | cons x xs ih =>
    obtain ⟨p, q, hp, hq, hq0⟩ := h x (List.mem_cons_self _ _)
    rw [List.foldl_cons, List.foldl_cons, itemTotal_eq_spec hp hq hq0]
    exact ih (fun it hit => h it (List.mem_cons_of_mem _ hit)) _

/-- Outside zero and missing quantities the handler's commission is the formula of the
spec: the sum of `(itemTotal - (discount / subtotal) * itemTotal) * rate`, rounded once. -/
theorem commissionAmount_eq_spec_of_quantities_nonzero (db : DB) (items : List Item)
    (discount subtotal : JSNum)
    (h : ∀ it ∈ items, ∃ p q : ℚ, it.price = some (fin p) ∧ it.qty = some (fin q) ∧ q ≠ 0) :
    commissionAmount db items discount subtotal
      = specCommissionAmount db items discount subtotal := by
  unfold commissionAmount specCommissionAmount
  rw [List.foldl_map]
  congr 1
  generalize fin 0 = acc
  induction items generalizing acc with
  | nil => rfl
  | cons x xs ih =>
    obtain ⟨p, q, hp, hq, hq0⟩ := h x (List.mem_cons_self _ _)
    rw [List.foldl_cons, List.foldl_cons]
    have : commissionStep db discount subtotal acc x
        = acc.add (((specItemTotal x).sub ((discount.div subtotal).mul (specItemTotal x))).mul
            (rate db x)) := by
      unfold commissionStep
      simp only [itemTotal_eq_spec hp hq hq0]
    rw [this]
    exact ih (fun it hit => h it (List.mem_cons_of_mem _ hit)) _

/-- A non-empty coupon code on a database without a `coupons` array is answered
`500 server_error` and changes nothing. -/
theorem postOrders_missing_coupons {db : DB} {body : OrderBody} {code : String} (now : Int)
    (hc : body.couponCode = some code) (hne : code ≠ "") (hcs : db.coupons = none) :
    postOrders db body now = (db, .failure 500 "server_error") := by
  simp [postOrders, applyCoupon, hc, hne, hcs]

/-- A non-empty coupon code that no coupon of the `coupons` array carries is answered
`400 invalid_coupon` and changes nothing. -/
theorem postOrders_invalid_coupon {db : DB} {body : OrderBody} {code : String}
    {coupons : List Coupon} (now : Int) (hc : body.couponCode = some code) (hne : code ≠ "")
    (hcs : db.coupons = some coupons) (hnone : ∀ c ∈ coupons, c.code ≠ code) :
    postOrders db body now = (db, .failure 400 "invalid_coupon") := by
  have hfind : coupons.find? (fun c => decide (c.code = code)) = none := by
    rw [List.find?_eq_none]
    intro c hmem
    simpa using hnone c hmem
  simp [postOrders, applyCoupon, hc, hne, hcs, hfind]

/-- The rate of a line item whose product is found, has a non-empty `categoryId` and whose
category exists with a numeric rate is that category's rate, whatever its value. -/
theorem rate_of_category {db : DB} {item : Item} {product : Product} {categoryId : String}
    {categories : List Category} {cat : Category} {r : JSNum}
    (hprod : db.products.find? (fun p => decide (some p.id = item.productId)) = some product)
    (hcid : product.categoryId = some categoryId) (hne : categoryId ≠ "")
    (hcats : db.categories = some categories)
    (hcat : categories.find? (fun c => decide (c.id = categoryId)) = some cat)
    (hr : cat.commissionRate = some r) : rate db item = r := by
  simp [rate, hprod, hcid, hne, hcats, hcat, hr]

/-! ## Claims -/

/-- C1 (code divergence): a line with quantity 0 is charged as quantity 1. For the single
line of price 5 and quantity 0 the handler's subtotal is 5, while the sum of unit price
times quantity is 0. -/
theorem C1_zero_quantity_charged_once :
    (postOrders testDB (orderBody [lineItem "p_1" 5 0] none) 0).2.pricing?
      = some (fin 5, fin 0, fin 5, fin (1 / 2)) ∧
    specSubtotal [lineItem "p_1" 5 0] = fin 0 := by
  decide!

/-- C2 (counterexample): a stored fixed coupon of amount -5, with no window and no usage
limit, applied to a subtotal of 10 gives the discount -5, which is negative. -/
theorem C2_negative_amount_counterexample :
    validCoupon testDB (orderBody [lineItem "p_1" 10 1] (some "MINUS5")) 0
      = some (plainCoupon "MINUS5" "fixed" (-5)) ∧
    (postOrders testDB (orderBody [lineItem "p_1" 10 1] (some "MINUS5")) 0).2.pricing?
      = some (fin 10, fin (-5), fin 15, fin (3 / 2)) := by
  decide!

/-- C2 (amended): for every subtotal S > 0 and every valid coupon (found, inside its
window, not exhausted) whose amount is non-negative, the order is accepted and its discount
d satisfies 0 <= d <= S. -/
theorem C2_discount_bounds (db : DB) (body : OrderBody) (now : Int) (c : Coupon) (S : ℚ)
    (hv : validCoupon db body now = some c) (ha : c.amount.ge (fin 0) = true)
    (hS : subtotal (body.items.getD []) = fin S) (hpos : 0 < S) :
    ∃ db' o d, postOrders db body now = (db', .created o) ∧
      o.subtotal = fin S ∧ o.discount = fin d ∧ 0 ≤ d ∧ d ≤ S := by
  obtain ⟨db', o, hpost, -, hsub, hdisc, -, -⟩ := postOrders_of_valid hv
  obtain ⟨d, hd, h0, h1⟩ := couponDiscount_bounds hpos ha
  rw [hS] at hsub
  rw [hsub, hd] at hdisc
  exact ⟨db', o, d, hpost, hsub, hdisc, h0, h1⟩

/-- C2 (witness): the 10% coupon TEST10 on a subtotal of 499.99. -/
theorem C2_discount_bounds_witness :
    ∃ db' o d, postOrders testDB (orderBody [lineItem "p_1" (49999 / 100) 1] (some "TEST10")) 5
        = (db', .created o) ∧
      o.subtotal = fin (49999 / 100) ∧ o.discount = fin d ∧ 0 ≤ d ∧ d ≤ 49999 / 100 :=
  C2_discount_bounds testDB (orderBody [lineItem "p_1" (49999 / 100) 1] (some "TEST10")) 5
    (plainCoupon "TEST10" "percentage" 10) (49999 / 100) (by decide!) (by decide!) (by decide!)
    (by norm_num)

/-- C5 (counterexample): a fixed coupon of amount 10.00390625 on the subtotal 10.001953125.
The amount exceeds the subtotal, but it is first rounded to 10.00, which does not, so the
discount is 10 and not the subtotal. -/
theorem C5_rounded_amount_counterexample :
    validCoupon nearDB (orderBody [lineItem "p_1" (5121 / 512) 1] (some "NEAR")) 0
      = some (plainCoupon "NEAR" "fixed" (2561 / 256)) ∧
    (5121 / 512 : ℚ) < 2561 / 256 ∧
    (postOrders nearDB (orderBody [lineItem "p_1" (5121 / 512) 1] (some "NEAR")) 0).2.pricing?
      = some (fin (5121 / 512), fin 10, fin 0, fin 0) ∧
    (10 : ℚ) ≠ 5121 / 512 := by
  refine ⟨by decide!, by norm_num, by decide!, by norm_num⟩

/-- C5 (amended): for every order with subtotal S > 0 whose line items have finite rates,
and every valid fixed coupon whose amount rounded to 2 decimals exceeds S, the order is
accepted with discount exactly S, total 0 and commissionAmount 0. -/
theorem C5_fixed_coupon_clamped (db : DB) (body : OrderBody) (now : Int) (c : Coupon) (S : ℚ)
    (hv : validCoupon db body now = some c) (hf : c.discountType = "fixed")
    (hS : subtotal (body.items.getD []) = fin S) (hpos : 0 < S)
    (hgt : c.amount.toFixed2.gt (fin S) = true)
    (hR : ∀ it ∈ body.items.getD [], (rate db it).isFinite = true) :
    ∃ db' o, postOrders db body now = (db', .created o) ∧
      o.discount = fin S ∧ o.total = fin 0 ∧ o.commissionAmount = fin 0 := by
  obtain ⟨db', o, hpost, hitems, hsub, hdisc, htotal, hcomm⟩ := postOrders_of_valid hv
  rw [hS] at hsub
  have hd : o.discount = fin S := by
    rw [hdisc, hsub]
    unfold couponDiscount
    have hne : ¬ c.discountType = "percentage" := by rw [hf]; decide
    simp only [if_neg hne, hgt, if_true]
  refine ⟨db', o, hpost, hd, ?_, ?_⟩
  · rw [htotal, hsub, hd]
    simp only [JSNum.sub, JSNum.neg, JSNum.add, add_neg_cancel]
    exact toFixed2_zero
  · rw [hcomm, hsub, hd, hitems]
    unfold commissionAmount
    obtain ⟨hT, -⟩ := subtotal_eq_fin hS
    rw [commission_foldl_fin db S S hpos.ne' _ hT
      (fun it hit => JSNum.eq_fin_of_isFinite (hR it hit)) 0]
    have hzero : ((body.items.getD []).map (fun it =>
        ((itemTotal it).toRat - S / S * (itemTotal it).toRat) * (rate db it).toRat)).sum = 0 := by
      apply List.sum_eq_zero
      intro x hx
      obtain ⟨it, -, rfl⟩ := List.mem_map.mp hx
      rw [div_self hpos.ne']; ring
    rw [hzero, add_zero]
    exact toFixed2_zero

/-- C5 (witness): the fixed coupon BIG of amount 1000 on a subtotal of 499.99. -/
theorem C5_fixed_coupon_clamped_witness :
    ∃ db' o, postOrders testDB (orderBody [lineItem "p_1" (49999 / 100) 1] (some "BIG")) 5
        = (db', .created o) ∧
      o.discount = fin (49999 / 100) ∧ o.total = fin 0 ∧ o.commissionAmount = fin 0 :=
  C5_fixed_coupon_clamped testDB (orderBody [lineItem "p_1" (49999 / 100) 1] (some "BIG")) 5
    (plainCoupon "BIG" "fixed" 1000) (49999 / 100) (by decide!) rfl (by decide!) (by norm_num)
    (by decide!) (by decide!)

/-- C6 (code divergence, same defect as C1): for the order of a line of price 5 with
quantity 0 and a line of price 10 with quantity 1, both at the rate 0.1 and without a
coupon, the handler stores subtotal 15 and commissionAmount 1.50, while the claimed formula,
with itemTotal = unit price times quantity, gives 1.00 (on the stored subtotal 15 as on the
sum 10 of unit price times quantity). -/
theorem C6_zero_quantity_commission :
    (postOrders testDB (orderBody [lineItem "p_1" 5 0, lineItem "p_1" 10 1] none) 0).2.pricing?
      = some (fin 15, fin 0, fin 15, fin (3 / 2)) ∧
    rate testDB (lineItem "p_1" 5 0) = fin (1 / 10) ∧
    specCommissionAmount testDB [lineItem "p_1" 5 0, lineItem "p_1" 10 1] (fin 0) (fin 15)
      = fin 1 ∧
    specSubtotal [lineItem "p_1" 5 0, lineItem "p_1" 10 1] = fin 10 ∧
    specCommissionAmount testDB [lineItem "p_1" 5 0, lineItem "p_1" 10 1] (fin 0) (fin 10)
      = fin 1 := by
  decide!

/-- The two-item example of C6: 499.99 at rate 0.10 plus 19.99 at rate 0.12, without a
coupon, gives the commission 52.40, in the handler and in the formula of the spec. -/
theorem two_item_commission_example :
    (postOrders testDB
        (orderBody [lineItem "p_1" (49999 / 100) 1, lineItem "p_2" (1999 / 100) 1] none)
        0).2.pricing?
      = some (fin (51998 / 100), fin 0, fin (51998 / 100), fin (5240 / 100)) ∧
    specCommissionAmount testDB [lineItem "p_1" (49999 / 100) 1, lineItem "p_2" (1999 / 100) 1]
      (fin 0) (fin (51998 / 100)) = fin (5240 / 100) := by
  decide!

/-- C7 (code divergence): the division `discount / subtotal` is not guarded. For the
non-empty order of one line with price 0 and quantity 1 and no coupon, subtotal and discount
are 0, the share `0 / 0` is NaN and the stored commissionAmount is NaN, not 0. -/
theorem C7_zero_subtotal_commission_is_nan :
    (postOrders testDB (orderBody [lineItem "p_1" 0 1] none) 0).2.pricing?
      = some (fin 0, fin 0, fin 0, nan) ∧
    (fin 0).div (fin 0) = nan := by
  decide!

/-- C8 (code divergence): a configured global rate of 0 is falsy, so the fallback is 0.1.
With `config.commissionRate = 0` and a line item whose product is not in the catalog the
rate is 0.1 and not the configured 0, while a category rate of 0 is used as it is. -/
theorem C8_zero_global_rate_replaced :
    rate { config := some { commissionRate := some (fin 0) } } (lineItem "p_9" 10 1)
      = fin (1 / 10) ∧
    rate { config := some { commissionRate := some (fin 0) },
           products := [{ id := "p_1", categoryId := some "free" }],
           categories := some [{ id := "free", commissionRate := some (fin 0) }] }
        (lineItem "p_1" 10 1)
      = fin 0 := by
  decide!

/-- C10 (code divergence): the database `loadDB` creates has no `coupons` array, so looking
the code up throws and the request is answered 500 server_error, not 400 invalid_coupon;
with a `coupons` array that lacks the code the answer is 400 invalid_coupon. -/
theorem C10_fresh_database_server_error :
    postOrders loadDBInitial (orderBody [lineItem "p_1" (2999 / 100) 1] (some "BADCODE")) 0
      = (loadDBInitial, .failure 500 "server_error") ∧
    postOrders testDB (orderBody [lineItem "p_1" (2999 / 100) 1] (some "BADCODE")) 0
      = (testDB, .failure 400 "invalid_coupon") := by
  decide!

/-! ## Coupon checks, frame conditions and sequences of requests -/

theorem postOrders_not_started {db : DB} {body : OrderBody} {code : String}
    {coupons : List Coupon} {c : Coupon} (now : Int)
    (hcode : body.couponCode = some code) (hne : code ≠ "") (hcs : db.coupons = some coupons)
    (hfind : coupons.find? (fun c => decide (c.code = code)) = some c)
    (h : couponNotStarted c now = true) :
    postOrders db body now = (db, .failure 400 "coupon_not_started") := by
  simp [postOrders, applyCoupon, hcode, hne, hcs, hfind, h]

theorem postOrders_expired {db : DB} {body : OrderBody} {code : String}
    {coupons : List Coupon} {c : Coupon} (now : Int)
    (hcode : body.couponCode = some code) (hne : code ≠ "") (hcs : db.coupons = some coupons)
    (hfind : coupons.find? (fun c => decide (c.code = code)) = some c)
    (h1 : couponNotStarted c now = false) (h2 : couponExpired c now = true) :
    postOrders db body now = (db, .failure 400 "coupon_expired") := by
  simp [postOrders, applyCoupon, hcode, hne, hcs, hfind, h1, h2]

theorem postOrders_usage_exhausted {db : DB} {body : OrderBody} {code : String}
    {coupons : List Coupon} {c : Coupon} (now : Int)
    (hcode : body.couponCode = some code) (hne : code ≠ "") (hcs : db.coupons = some coupons)
    (hfind : coupons.find? (fun c => decide (c.code = code)) = some c)
    (h1 : couponNotStarted c now = false) (h2 : couponExpired c now = false)
    (h3 : couponUsageExhausted c = true) :
    postOrders db body now = (db, .failure 400 "coupon_usage_exhausted") := by
  simp [postOrders, applyCoupon, hcode, hne, hcs, hfind, h1, h2, h3]

theorem validCoupon_of_checks {db : DB} {body : OrderBody} {code : String}
    {coupons : List Coupon} {c : Coupon} (now : Int)
    (hcode : body.couponCode = some code) (hne : code ≠ "") (hcs : db.coupons = some coupons)
    (hfind : coupons.find? (fun c => decide (c.code = code)) = some c)
    (h1 : couponNotStarted c now = false) (h2 : couponExpired c now = false)
    (h3 : couponUsageExhausted c = false) :
    validCoupon db body now = some c := by
  simp [validCoupon, hcode, hne, hcs, hfind, h1, h2, h3]

/-- An accepted coupon leads to a `201` response. -/
theorem postOrders_accepts {db : DB} {body : OrderBody} {code : String}
    {coupons : List Coupon} {c : Coupon} (now : Int)
    (hcode : body.couponCode = some code) (hne : code ≠ "") (hcs : db.coupons = some coupons)
    (hfind : coupons.find? (fun c => decide (c.code = code)) = some c)
    (h1 : couponNotStarted c now = false) (h2 : couponExpired c now = false)
    (h3 : couponUsageExhausted c = false) :
    ∃ o, (postOrders db body now).2 = .created o := by
  obtain ⟨db', o, h, -⟩ :=
    postOrders_of_valid (validCoupon_of_checks now hcode hne hcs hfind h1 h2 h3)
  exact ⟨o, by rw [h]⟩

theorem couponNotStarted_iff {c : Coupon} {s : Option ℚ} (now : Int) (hs : c.startAt = s.map fin) :
    couponNotStarted c now = true ↔ ∃ t, s = some t ∧ (now : ℚ) < t := by
  cases s with
  | none => simp [couponNotStarted, hs]
  | some t => simp [couponNotStarted, hs, JSNum.gt, JSNum.lt]

theorem couponExpired_iff {c : Coupon} {e : Option ℚ} (now : Int) (he : c.endAt = e.map fin) :
    couponExpired c now = true ↔ ∃ t, e = some t ∧ t < (now : ℚ) := by
  cases e with
  | none => simp [couponExpired, he]
  | some t => simp [couponExpired, he, JSNum.lt]

/-- C11 (counterexample): the stored coupon INVERTED has startAt = 2000 and endAt = 500. At
now = 1500 its endAt is set and now > endAt, yet the order naming it is not rejected with
coupon_expired: the start check comes first and answers coupon_not_started. -/
theorem C11_inverted_window_counterexample :
    windowDB.coupons.bind (fun cs => cs.find? (fun c => decide (c.code = "INVERTED")))
      = some (windowCoupon "INVERTED" (some 2000) (some 500) none 0) ∧
    couponExpired (windowCoupon "INVERTED" (some 2000) (some 500) none 0) 1500 = true ∧
    (postOrders windowDB (orderBody [lineItem "p_1" 10 1] (some "INVERTED")) 1500).2
      ≠ .failure 400 "coupon_expired" ∧
    (postOrders windowDB (orderBody [lineItem "p_1" 10 1] (some "INVERTED")) 1500).2
      = .failure 400 "coupon_not_started" := by
  decide!

/-- C11 (amended): for an order naming a stored coupon whose window bounds, when set, are
timestamps `s` and `e`: it is rejected with coupon_not_started when `s` is set and now < s,
whatever `e` is; it is rejected with coupon_expired when `e` is set and now > e and the
start check passes (`s` absent or s <= now); and it gets neither window rejection exactly
when s <= now <= e, both endpoints included and an absent bound imposing no constraint. -/
theorem C11_window_rejections (db : DB) (body : OrderBody) (now : Int) (code : String)
    (coupons : List Coupon) (c : Coupon) (s e : Option ℚ)
    (hcode : body.couponCode = some code) (hne : code ≠ "") (hcs : db.coupons = some coupons)
    (hfind : coupons.find? (fun c => decide (c.code = code)) = some c)
    (hs : c.startAt = s.map fin) (he : c.endAt = e.map fin) :
    ((∃ t, s = some t ∧ (now : ℚ) < t) →
      postOrders db body now = (db, .failure 400 "coupon_not_started")) ∧
    ((∃ t, e = some t ∧ t < (now : ℚ)) → (∀ t, s = some t → t ≤ (now : ℚ)) →
      postOrders db body now = (db, .failure 400 "coupon_expired")) ∧
    (((∀ t, s = some t → t ≤ (now : ℚ)) ∧ (∀ t, e = some t → (now : ℚ) ≤ t)) ↔
      ((postOrders db body now).2 ≠ .failure 400 "coupon_not_started" ∧
       (postOrders db body now).2 ≠ .failure 400 "coupon_expired")) := by
  have hns := couponNotStarted_iff now hs
  have hex := couponExpired_iff now he
  refine ⟨?_, ?_, ?_⟩
  · intro h
    exact postOrders_not_started now hcode hne hcs hfind (hns.mpr h)
  · rintro ⟨t1, he1, hlt⟩ hwf
    have hnot : couponNotStarted c now = false := by
      rw [Bool.eq_false_iff]
      intro hstarted
      obtain ⟨t0, hs0, hlt0⟩ := hns.mp hstarted
      have := hwf t0 hs0
      linarith
    exact postOrders_expired now hcode hne hcs hfind hnot (hex.mpr ⟨t1, he1, hlt⟩)
  · constructor
    · rintro ⟨hin1, hin2⟩
      have h1 : couponNotStarted c now = false := by
        rw [Bool.eq_false_iff]
        intro hstarted
        obtain ⟨t0, hs0, hlt0⟩ := hns.mp hstarted
        have := hin1 t0 hs0
        linarith
      have h2 : couponExpired c now = false := by
        rw [Bool.eq_false_iff]
        intro hexpired
        obtain ⟨t1, he1, hlt1⟩ := hex.mp hexpired
        have := hin2 t1 he1
        linarith
      cases h3 : couponUsageExhausted c with
      | true =>
        rw [postOrders_usage_exhausted now hcode hne hcs hfind h1 h2 h3]
        constructor <;> simp
      | false =>
        obtain ⟨o, ho⟩ := postOrders_accepts now hcode hne hcs hfind h1 h2 h3
        rw [ho]
        constructor <;> simp
    · rintro ⟨hn1, hn2⟩
      have h1 : couponNotStarted c now = false := by
        rw [Bool.eq_false_iff]
        intro hstarted
        exact hn1 (by rw [postOrders_not_started now hcode hne hcs hfind hstarted])
      have h2 : couponExpired c now = false := by
        rw [Bool.eq_false_iff]
        intro hexpired
        exact hn2 (by rw [postOrders_expired now hcode hne hcs hfind h1 hexpired])
      constructor
      · intro t ht
        by_contra hlt
        have : couponNotStarted c now = true := hns.mpr ⟨t, ht, not_le.mp hlt⟩
        rw [h1] at this
        exact Bool.false_ne_true this
      · intro t ht
        by_contra hlt
        have : couponExpired c now = true := hex.mpr ⟨t, ht, not_le.mp hlt⟩
        rw [h2] at this
        exact Bool.false_ne_true this

/-- C11 (witness): the coupon SPRING with window [1000, 2000]: at 999 it has not started, at
2001 it has expired, and at the endpoints 1000 and 2000 there is no window rejection (the
coupon's three uses being spent, the answer there is coupon_usage_exhausted). -/
theorem C11_window_rejections_witness :
    postOrders windowDB (orderBody [lineItem "p_1" 10 1] (some "SPRING")) 999
      = (windowDB, .failure 400 "coupon_not_started") ∧
    postOrders windowDB (orderBody [lineItem "p_1" 10 1] (some "SPRING")) 2001
      = (windowDB, .failure 400 "coupon_expired") ∧
    (postOrders windowDB (orderBody [lineItem "p_1" 10 1] (some "SPRING")) 1000).2
      ≠ .failure 400 "coupon_not_started" ∧
    (postOrders windowDB (orderBody [lineItem "p_1" 10 1] (some "SPRING")) 2000).2
      ≠ .failure 400 "coupon_expired" :=
  ⟨(C11_window_rejections windowDB (orderBody [lineItem "p_1" 10 1] (some "SPRING")) 999
      "SPRING" _ (windowCoupon "SPRING" (some 1000) (some 2000) (some 3) 3) (some 1000)
      (some 2000) rfl (by decide) rfl (by decide!) rfl rfl).1 ⟨1000, rfl, by norm_num⟩,
   (C11_window_rejections windowDB (orderBody [lineItem "p_1" 10 1] (some "SPRING")) 2001
      "SPRING" _ (windowCoupon "SPRING" (some 1000) (some 2000) (some 3) 3) (some 1000)
      (some 2000) rfl (by decide) rfl (by decide!) rfl rfl).2.1 ⟨2000, rfl, by norm_num⟩
      (by intro t h; cases h; norm_num),
   ((C11_window_rejections windowDB (orderBody [lineItem "p_1" 10 1] (some "SPRING")) 1000
      "SPRING" _ (windowCoupon "SPRING" (some 1000) (some 2000) (some 3) 3) (some 1000)
      (some 2000) rfl (by decide) rfl (by decide!) rfl rfl).2.2.mp
      ⟨by intro t h; cases h; norm_num, by intro t h; cases h; norm_num⟩).1,
   ((C11_window_rejections windowDB (orderBody [lineItem "p_1" 10 1] (some "SPRING")) 2000
      "SPRING" _ (windowCoupon "SPRING" (some 1000) (some 2000) (some 3) 3) (some 1000)
      (some 2000) rfl (by decide) rfl (by decide!) rfl rfl).2.2.mp
      ⟨by intro t h; cases h; norm_num, by intro t h; cases h; norm_num⟩).2⟩

/-- C12 (counterexample): the coupon INVERTED has endAt = 500 in the past of now = 1000 and
startAt = 2000 in the future; the order naming it is rejected with coupon_not_started, not
coupon_expired, because the start check comes first. -/
theorem C12_future_start_counterexample :
    (windowCoupon "INVERTED" (some 2000) (some 500) none 0).endAt = some (fin 500) ∧
    (fin 500).lt (fin ((1000 : Int) : ℚ)) = true ∧
    postOrders windowDB (orderBody [lineItem "p_1" 10 1] (some "INVERTED")) 1000
      = (windowDB, .failure 400 "coupon_not_started") := by
  decide!

/-- C12 (amended): for every stored coupon whose endAt is in the past and whose startAt is
absent or not in the future, an order naming it is rejected with coupon_expired and the
database is unchanged, whatever the coupon's usageLimit and usedCount are. -/
theorem C12_expired_rejected (db : DB) (body : OrderBody) (now : Int) (code : String)
    (coupons : List Coupon) (c : Coupon) (t : JSNum)
    (hcode : body.couponCode = some code) (hne : code ≠ "") (hcs : db.coupons = some coupons)
    (hfind : coupons.find? (fun c => decide (c.code = code)) = some c)
    (he : c.endAt = some t) (hpast : t.lt (fin now) = true)
    (hstart : ∀ s, c.startAt = some s → s.gt (fin now) = false) :
    postOrders db body now = (db, .failure 400 "coupon_expired") := by
  have h1 : couponNotStarted c now = false := by
    unfold couponNotStarted
    cases hs : c.startAt with
    | none => rfl
    | some s => exact hstart s hs
  have h2 : couponExpired c now = true := by
    unfold couponExpired
    rw [he]
    exact hpast
  exact postOrders_expired now hcode hne hcs hfind h1 h2

/-- C12 (witness): SPRING (window [1000, 2000], uses spent) at time 5000. -/
theorem C12_expired_rejected_witness :
    postOrders windowDB (orderBody [lineItem "p_1" 10 1] (some "SPRING")) 5000
      = (windowDB, .failure 400 "coupon_expired") :=
  C12_expired_rejected windowDB (orderBody [lineItem "p_1" 10 1] (some "SPRING")) 5000
    "SPRING" _ (windowCoupon "SPRING" (some 1000) (some 2000) (some 3) 3) (fin 2000)
    rfl (by decide) rfl (by decide!) rfl (by decide!)
    (by intro s hs; cases hs; decide!)

/-- C13 (counterexample): the stored coupon ZERO has usageLimit 0 and usedCount 0, so its
limit is set and usedCount >= usageLimit, and it has no window; yet the order naming it is
accepted, because a limit of 0 is falsy and skips the usage check. `POST /api/coupons`
treats 0 the same way: a coupon requested with usageLimit 0 is stored without a limit. -/
theorem C13_zero_limit_counterexample :
    (windowCoupon "ZERO" none none (some 0) 0).usageLimit = some (fin 0) ∧
    (windowCoupon "ZERO" none none (some 0) 0).usedCount = some (fin 0) ∧
    (postOrders windowDB (orderBody [lineItem "p_1" 10 1] (some "ZERO")) 1000).2.pricing?
      = some (fin 10, fin 1, fin 9, fin (9 / 10)) ∧
    (postCoupons emptyCouponsDB (some adminUser) (limitedCouponBody "ZERO" 0) 1).1.coupons
      = some [{ id := "cp_1", code := "ZERO", discountType := "fixed", amount := fin 1,
                usageLimit := none, usedCount := some (fin 0) }] := by
  decide!

/-- C13 (amended): for every order naming a stored coupon that is inside its validity
window, with a numeric usedCount `u` and a usageLimit that is absent or a number, the order
is rejected with coupon_usage_exhausted if and only if the usageLimit is set, is not 0 and
u >= usageLimit. -/
theorem C13_usage_exhausted_iff (db : DB) (body : OrderBody) (now : Int) (code : String)
    (coupons : List Coupon) (c : Coupon) (L : Option ℚ) (u : ℚ)
    (hcode : body.couponCode = some code) (hne : code ≠ "") (hcs : db.coupons = some coupons)
    (hfind : coupons.find? (fun c => decide (c.code = code)) = some c)
    (hstarted : couponNotStarted c now = false) (hlive : couponExpired c now = false)
    (hL : c.usageLimit = L.map fin) (hu : c.usedCount = some (fin u)) :
    (postOrders db body now).2 = .failure 400 "coupon_usage_exhausted" ↔
      ∃ l, L = some l ∧ l ≠ 0 ∧ l ≤ u := by
  have hiff : couponUsageExhausted c = true ↔ ∃ l, L = some l ∧ l ≠ 0 ∧ l ≤ u := by
    cases L with
    | none => simp [couponUsageExhausted, hL]
    | some l =>
      simp [couponUsageExhausted, hL, hu, JSNum.truthy, JSNum.ofOption, JSNum.ge, JSNum.lt]
  rw [← hiff]
  cases h3 : couponUsageExhausted c with
  | true =>
    rw [postOrders_usage_exhausted now hcode hne hcs hfind hstarted hlive h3]
    simp
  | false =>
    obtain ⟨o, ho⟩ := postOrders_accepts now hcode hne hcs hfind hstarted hlive h3
    rw [ho]
    simp

/-- C13 (witness): SPRING at time 1500, inside its window, with usageLimit 3 and usedCount 3,
is rejected with coupon_usage_exhausted. -/
theorem C13_usage_exhausted_iff_witness :
    (postOrders windowDB (orderBody [lineItem "p_1" 10 1] (some "SPRING")) 1500).2
      = .failure 400 "coupon_usage_exhausted" :=
  (C13_usage_exhausted_iff windowDB (orderBody [lineItem "p_1" 10 1] (some "SPRING")) 1500
    "SPRING" _ (windowCoupon "SPRING" (some 1000) (some 2000) (some 3) 3) (some 3) 3
    rfl (by decide) rfl (by decide!) (by decide!) (by decide!) rfl rfl).mpr
    ⟨3, rfl, by norm_num, le_refl _⟩

theorem updateFirst_split {α : Type} (p : α → Bool) (f : α → α) :
    ∀ (l : List α) (c : α), l.find? p = some c →
      ∃ pre post, l = pre ++ c :: post ∧ (∀ x ∈ pre, p x = false) ∧ p c = true ∧
        updateFirst p f l = pre ++ f c :: post := by
  intro l
  induction l with
  | nil => intro c h; simp at h
  | cons x xs ih =>
    intro c h
    by_cases hx : p x = true
    · rw [List.find?_cons_of_pos _ hx] at h
      cases h
      exact ⟨[], xs, rfl, by simp, hx, by simp [updateFirst, hx]⟩
    · rw [List.find?_cons_of_neg _ hx] at h
      obtain ⟨pre, post, hl, hpre, hc, hupd⟩ := ih c h
      refine ⟨x :: pre, post, by rw [hl]; rfl, ?_, hc, ?_⟩
      · intro y hy
        rcases List.mem_cons.mp hy with rfl | hy
        · simpa using hx
        · exact hpre y hy
      · simp [updateFirst, hx, hupd]

/-- What the coupon block leaves behind when it lets the order through: either the request
carries no coupon code and the database is untouched, or the first coupon with the code has
passed the checks and is replaced by its increment. -/
theorem applyCoupon_ok_db {db db1 : DB} {body : OrderBody} {now : Int} {s discount : JSNum}
    (h : applyCoupon db body s now = .ok (db1, discount)) :
    ((body.couponCode = none ∨ body.couponCode = some "") ∧ db1 = db) ∨
    ∃ code coupons c, body.couponCode = some code ∧ code ≠ "" ∧ db.coupons = some coupons ∧
      coupons.find? (fun c => decide (c.code = code)) = some c ∧
      couponUsageExhausted c = false ∧
      db1 = { db with coupons := some (updateFirst (fun c => decide (c.code = code))
                incrementUsedCount coupons) } := by
  unfold applyCoupon at h
  cases hc : body.couponCode with
  | none =>
    simp only [hc, Except.ok.injEq, Prod.mk.injEq] at h
    exact Or.inl ⟨Or.inl rfl, h.1.symm⟩
  | some code =>
    simp only [hc] at h
    by_cases h0 : code = ""
    · simp only [h0, if_true, Except.ok.injEq, Prod.mk.injEq] at h
      exact Or.inl ⟨Or.inr (by rw [h0]), h.1.symm⟩
    · simp only [h0, if_false] at h
      cases hcs : db.coupons with
      | none => simp [hcs] at h
      | some coupons =>
        simp only [hcs] at h
        cases hf : coupons.find? (fun c => decide (c.code = code)) with
        | none => simp [hf] at h
        | some c =>
          simp only [hf] at h
          split_ifs at h with h1 h2 h3
          simp only [Except.ok.injEq, Prod.mk.injEq] at h
          exact Or.inr ⟨code, coupons, c, rfl, h0, rfl, hf, by simpa using h3, h.1.symm⟩

/-- The database after an accepted order: the database the coupon block left, with the new
order and its commission appended. -/
theorem postOrders_created_db {db db' : DB} {body : OrderBody} {now : Int} {o : Order}
    (h : postOrders db body now = (db', .created o)) :
    ∃ db1 discount, applyCoupon db body (subtotal (body.items.getD [])) now = .ok (db1, discount) ∧
      db' = { db1 with
              orders := db1.orders ++ [o],
              commissions := db1.commissions ++
                [{ id := "c_" ++ o.id, orderId := o.id, amount := o.commissionAmount,
                   status := "pending", createdAt := now, vendorId := orNull body.vendorId }] } := by
  unfold postOrders at h
  simp only at h
  split at h
  · next r happly =>
    obtain ⟨st, e, rfl⟩ := applyCoupon_error happly
    simp at h
  · next db1 discount happly =>
    simp only [Prod.mk.injEq, Response.created.injEq] at h
    obtain ⟨rfl, rfl⟩ := h
    exact ⟨db1, discount, happly, rfl⟩

/-- C16: for every accepted order naming a coupon, the first stored coupon with that code
is replaced by itself with usedCount set to (usedCount or 0) + 1, which for a numeric
usedCount u is u + 1, whatever the line items; every field of it other than usedCount and
every other coupon is unchanged. An accepted order without a coupon code leaves the
coupons as they were. -/
theorem C16_usedCount_incremented_once (db db' : DB) (body : OrderBody) (now : Int) (o : Order)
    (h : postOrders db body now = (db', .created o)) :
    ((body.couponCode = none ∨ body.couponCode = some "") → db'.coupons = db.coupons) ∧
    (∀ code, body.couponCode = some code → code ≠ "" →
      ∃ pre c post, db.coupons = some (pre ++ c :: post) ∧ (∀ x ∈ pre, x.code ≠ code) ∧
        c.code = code ∧
        db'.coupons = some (pre ++
          { c with usedCount := some ((orElse c.usedCount (fin 0)).add (fin 1)) } :: post) ∧
        (∀ u, c.usedCount = some (fin u) →
          some ((orElse c.usedCount (fin 0)).add (fin 1)) = some (fin (u + 1)))) := by
  obtain ⟨db1, discount, happly, rfl⟩ := postOrders_created_db h
  rcases applyCoupon_ok_db happly with
    ⟨hno, rfl⟩ | ⟨code, coupons, c, hcode, hne, hcs, hfind, -, rfl⟩
  · refine ⟨fun _ => rfl, ?_⟩
    intro code hcode hne
    rcases hno with hnone | hempty
    · rw [hnone] at hcode; cases hcode
    · rw [hempty] at hcode; cases hcode; exact absurd rfl hne
  · refine ⟨?_, ?_⟩
    · rintro (hnone | hempty)
      · rw [hnone] at hcode; cases hcode
      · rw [hempty] at hcode; cases hcode; exact absurd rfl hne
    · intro code' hcode' _
      rw [hcode] at hcode'
      cases hcode'
      obtain ⟨pre, post, hl, hpre, hc, hupd⟩ :=
        updateFirst_split (fun c => decide (c.code = code)) incrementUsedCount coupons c hfind
      refine ⟨pre, c, post, by rw [hcs, hl], ?_, by simpa using hc, ?_, ?_⟩
      · intro x hx
        simpa using hpre x hx
      · simp only [hupd, incrementUsedCount]
      · intro u hu
        rw [hu]
        by_cases hu0 : u = 0
        · subst hu0; simp [JSNum.orElse, JSNum.truthy, JSNum.add]
        · simp [JSNum.orElse, JSNum.truthy, JSNum.add, hu0]

/-- C16 (witness): the coupon test's order (one line item, code TEST10) moves TEST10 from
usedCount 0 to 1 and leaves the other three coupons as they were. -/
theorem C16_usedCount_incremented_once_witness :
    (∃ pre c post, testDB.coupons = some (pre ++ c :: post) ∧ (∀ x ∈ pre, x.code ≠ "TEST10") ∧
        c.code = "TEST10" ∧
        (postOrders testDB (orderBody [lineItem "p_1" (49999 / 100) 1] (some "TEST10")) 5).1.coupons
          = some (pre ++
              { c with usedCount := some ((orElse c.usedCount (fin 0)).add (fin 1)) } :: post) ∧
        (∀ u, c.usedCount = some (fin u) →
          some ((orElse c.usedCount (fin 0)).add (fin 1)) = some (fin (u + 1)))) ∧
    (postOrders testDB (orderBody [lineItem "p_1" (49999 / 100) 1] (some "TEST10")) 5).1.coupons
      = some [{ plainCoupon "TEST10" "percentage" 10 with usedCount := some (fin 1) },
              plainCoupon "ALL" "percentage" 100, plainCoupon "MINUS5" "fixed" (-5),
              plainCoupon "BIG" "fixed" 1000] :=
  ⟨(C16_usedCount_incremented_once testDB
      (postOrders testDB (orderBody [lineItem "p_1" (49999 / 100) 1] (some "TEST10")) 5).1
      (orderBody [lineItem "p_1" (49999 / 100) 1] (some "TEST10")) 5 testOrder
      (by decide!)).2 "TEST10" rfl (by decide),
   by decide!⟩

/-- C17: every accepted order appends exactly one order, the one answered, to `orders` and
exactly one commission to `commissions`; that commission has the order's id as orderId, the
order's commissionAmount as amount and the status pending; the earlier orders and
commissions are unchanged. -/
theorem C17_order_and_commission_appended (db db' : DB) (body : OrderBody) (now : Int)
    (o : Order) (h : postOrders db body now = (db', .created o)) :
    db'.orders = db.orders ++ [o] ∧
    ∃ c, db'.commissions = db.commissions ++ [c] ∧ c.orderId = o.id ∧
      c.amount = o.commissionAmount ∧ c.status = "pending" := by
  obtain ⟨db1, discount, happly, rfl⟩ := postOrders_created_db h
  rcases applyCoupon_ok_db happly with ⟨-, rfl⟩ | ⟨code, coupons, c, -, -, -, -, -, rfl⟩
  · exact ⟨rfl, _, rfl, rfl, rfl, rfl⟩
  · exact ⟨rfl, _, rfl, rfl, rfl, rfl⟩

/-- C17 (witness): the coupon test's order on the test catalog, which holds no order and no
commission before. -/
theorem C17_order_and_commission_appended_witness :
    (postOrders testDB (orderBody [lineItem "p_1" (49999 / 100) 1] (some "TEST10")) 5).1.orders
      = testDB.orders ++ [testOrder] ∧
    ∃ c, (postOrders testDB (orderBody [lineItem "p_1" (49999 / 100) 1] (some "TEST10"))
          5).1.commissions = testDB.commissions ++ [c] ∧
      c.orderId = testOrder.id ∧ c.amount = testOrder.commissionAmount ∧ c.status = "pending" :=
  C17_order_and_commission_appended testDB
    (postOrders testDB (orderBody [lineItem "p_1" (49999 / 100) 1] (some "TEST10")) 5).1
    (orderBody [lineItem "p_1" (49999 / 100) 1] (some "TEST10")) 5 testOrder (by decide!)

theorem postOrders_failure_db {db db' : DB} {body : OrderBody} {now : Int} {status : Nat}
    {error : String} (h : postOrders db body now = (db', .failure status error)) : db' = db := by
  unfold postOrders at h
  simp only at h
  split at h
  · simp only [Prod.mk.injEq] at h
    exact h.1.symm
  · simp at h

/-- C18: every rejected order, in particular one rejected with invalid_coupon,
coupon_not_started, coupon_expired or coupon_usage_exhausted, leaves the database exactly as
it was: no order, no commission, no change of any coupon. -/
theorem C18_rejection_changes_nothing (db db' : DB) (body : OrderBody) (now : Int)
    (status : Nat) (error : String)
    (h : postOrders db body now = (db', .failure status error)) : db' = db :=
  postOrders_failure_db h

/-- C18 (witness): the four coupon rejections on the window catalog. -/
theorem C18_rejection_changes_nothing_witness :
    (postOrders windowDB (orderBody [lineItem "p_1" 10 1] (some "NOPE")) 1500).1 = windowDB ∧
    (postOrders windowDB (orderBody [lineItem "p_1" 10 1] (some "SPRING")) 999).1 = windowDB ∧
    (postOrders windowDB (orderBody [lineItem "p_1" 10 1] (some "SPRING")) 2001).1 = windowDB ∧
    (postOrders windowDB (orderBody [lineItem "p_1" 10 1] (some "SPRING")) 1500).1 = windowDB :=
  ⟨C18_rejection_changes_nothing windowDB _ (orderBody [lineItem "p_1" 10 1] (some "NOPE")) 1500
      400 "invalid_coupon" (by decide!),
   C18_rejection_changes_nothing windowDB _ (orderBody [lineItem "p_1" 10 1] (some "SPRING")) 999
      400 "coupon_not_started" (by decide!),
   C18_rejection_changes_nothing windowDB _ (orderBody [lineItem "p_1" 10 1] (some "SPRING")) 2001
      400 "coupon_expired" (by decide!),
   C18_rejection_changes_nothing windowDB _ (orderBody [lineItem "p_1" 10 1] (some "SPRING")) 1500
      400 "coupon_usage_exhausted" (by decide!)⟩

theorem commissionAmount_nil (db : DB) (discount subtotal : JSNum) :
    commissionAmount db [] discount subtotal = fin 0 := by
  simp only [commissionAmount, List.foldl_nil]
  exact toFixed2_zero

theorem sub_zero_toFixed2 : ((fin 0).sub (fin 0)).toFixed2 = fin 0 := by
  have : (fin 0).sub (fin 0) = fin 0 := by
    simp [JSNum.sub, JSNum.neg, JSNum.add]
  rw [this]
  exact toFixed2_zero

theorem mul_div_hundred (x a : ℚ) : (fin x).mul ((fin a).div (fin 100)) = fin (x * (a / 100)) := by
  simp [JSNum.div, JSNum.mul]

/-- An order without a coupon code is accepted with discount 0. -/
theorem postOrders_without_code (db : DB) {body : OrderBody} (now : Int)
    (h : body.couponCode = none ∨ body.couponCode = some "") :
    ∃ o, postOrders db body now
        = ({ db with
             orders := db.orders ++ [o],
             commissions := db.commissions ++
               [{ id := "c_" ++ o.id, orderId := o.id, amount := o.commissionAmount,
                  status := "pending", createdAt := now, vendorId := orNull body.vendorId }] },
           .created o) ∧
      o.items = body.items.getD [] ∧ o.subtotal = subtotal (body.items.getD []) ∧
      o.discount = fin 0 ∧ o.total = (o.subtotal.sub o.discount).toFixed2 ∧
      o.commissionAmount = commissionAmount db o.items o.discount o.subtotal := by
  have happly : applyCoupon db body (subtotal (body.items.getD [])) now = .ok (db, fin 0) := by
    rcases h with h | h <;> simp [applyCoupon, h]
  unfold postOrders
  simp only [happly]
  exact ⟨_, rfl, rfl, rfl, rfl, rfl, rfl⟩

/-- The discount of a coupon with a finite non-negative amount on the subtotal 0 is 0. -/
theorem couponDiscount_zero_subtotal {c : Coupon} {a : ℚ} (ha : c.amount = fin a)
    (h0 : 0 ≤ a) : couponDiscount c (fin 0) = fin 0 := by
  by_cases hp : c.discountType = "percentage"
  · have hr : (if c.discountType = "percentage"
        then ((fin 0).mul (c.amount.div (fin 100))).toFixed2
        else c.amount.toFixed2) = fin 0 := by
      rw [if_pos hp, ha, mul_div_hundred, zero_mul]
      exact toFixed2_zero
    rw [couponDiscount_fin_of_rounded hr, min_self]
  · have hr : (if c.discountType = "percentage"
        then ((fin 0).mul (c.amount.div (fin 100))).toFixed2
        else c.amount.toFixed2) = fin (halfUp2 a) := by
      rw [if_neg hp, ha, JSNum.toFixed2_fin_nonneg h0]
    rw [couponDiscount_fin_of_rounded hr, min_eq_right (halfUp2_nonneg h0)]

/-- C19 (counterexample): an order with an empty item list and the stored fixed coupon
MINUS5 of amount -5, which has no window and no usage limit, is accepted with subtotal 0,
discount -5 and total 5. -/
theorem C19_negative_fixed_coupon_counterexample :
    validCoupon testDB (orderBody [] (some "MINUS5")) 0
      = some (plainCoupon "MINUS5" "fixed" (-5)) ∧
    (postOrders testDB (orderBody [] (some "MINUS5")) 0).2.pricing?
      = some (fin 0, fin (-5), fin 5, fin 0) := by
  decide!

/-- C19 (amended): for every order with an empty item list, with no coupon code or with a
valid coupon (percentage or fixed) whose amount is a finite non-negative number, the order
is accepted with subtotal 0, discount 0, total 0 and commissionAmount 0. -/
theorem C19_empty_order_all_zero (db : DB) (body : OrderBody) (now : Int)
    (hitems : body.items.getD [] = [])
    (hcoupon : (body.couponCode = none ∨ body.couponCode = some "") ∨
      ∃ c a, validCoupon db body now = some c ∧ c.amount = fin a ∧ 0 ≤ a) :
    ∃ db' o, postOrders db body now = (db', .created o) ∧
      o.subtotal = fin 0 ∧ o.discount = fin 0 ∧ o.total = fin 0 ∧
      o.commissionAmount = fin 0 := by
  have hsub : subtotal (body.items.getD []) = fin 0 := by rw [hitems]; rfl
  rcases hcoupon with hno | ⟨c, a, hv, ha, h0⟩
  · obtain ⟨o, hpost, hit, hs, hd, ht, hc⟩ := postOrders_without_code db now hno
    rw [hsub] at hs
    refine ⟨_, o, hpost, hs, hd, ?_, ?_⟩
    · rw [ht, hs, hd]; exact sub_zero_toFixed2
    · rw [hc, hit, hitems]; exact commissionAmount_nil _ _ _
  · obtain ⟨db', o, hpost, hit, hs, hd, ht, hc⟩ := postOrders_of_valid hv
    rw [hsub] at hs
    have hd0 : o.discount = fin 0 := by
      rw [hd, hs]; exact couponDiscount_zero_subtotal ha h0
    refine ⟨db', o, hpost, hs, hd0, ?_, ?_⟩
    · rw [ht, hs, hd0]; exact sub_zero_toFixed2
    · rw [hc, hit, hitems]; exact commissionAmount_nil _ _ _

/-- C19 (witness): the empty order with the fixed coupon BIG of amount 1000. -/
theorem C19_empty_order_all_zero_witness :
    ∃ db' o, postOrders testDB (orderBody [] (some "BIG")) 7 = (db', .created o) ∧
      o.subtotal = fin 0 ∧ o.discount = fin 0 ∧ o.total = fin 0 ∧
      o.commissionAmount = fin 0 :=
  C19_empty_order_all_zero testDB (orderBody [] (some "BIG")) 7 rfl
    (Or.inr ⟨plainCoupon "BIG" "fixed" 1000, 1000, by decide!, rfl, by norm_num⟩)

theorem rate_erasePrices (db : DB) (item : Item) : rate db.erasePrices item = rate db item := by
  have hfind : (db.products.map Product.erasePrice).find?
        (fun p => decide (some p.id = item.productId))
      = (db.products.find? (fun p => decide (some p.id = item.productId))).map
          Product.erasePrice := by
    rw [List.find?_map]
    rfl
  unfold rate
  simp only [DB.erasePrices, hfind]
  cases db.products.find? (fun p => decide (some p.id = item.productId)) <;>
    cases db.categories <;> rfl

theorem commissionAmount_erasePrices (db : DB) (items : List Item) (discount subtotal : JSNum) :
    commissionAmount db.erasePrices items discount subtotal
      = commissionAmount db items discount subtotal := by
  have : commissionStep db.erasePrices discount subtotal = commissionStep db discount subtotal := by
    funext acc item
    simp only [commissionStep, rate_erasePrices]
  simp only [commissionAmount, this]

theorem applyCoupon_erasePrices (db : DB) (body : OrderBody) (s : JSNum) (now : Int) :
    applyCoupon db.erasePrices body s now
      = match applyCoupon db body s now with
        | .error r => .error r
        | .ok (db1, discount) => .ok (db1.erasePrices, discount) := by
  unfold applyCoupon
  cases body.couponCode with
  | none => rfl
  | some code =>
    simp only
    by_cases h0 : code = ""
    · simp only [h0, if_true]
    · simp only [h0, if_false]
      have hc : db.erasePrices.coupons = db.coupons := rfl
      rw [hc]
      cases db.coupons with
      | none => rfl
      | some coupons =>
        simp only
        cases coupons.find? (fun c => decide (c.code = code)) with
        | none => rfl
        | some c =>
          simp only
          split_ifs <;> rfl

/-- Blanking the catalog prices before the request or after it gives the same database,
and the response is the same. -/
theorem postOrders_erasePrices (db : DB) (body : OrderBody) (now : Int) :
    postOrders db.erasePrices body now
      = ((postOrders db body now).1.erasePrices, (postOrders db body now).2) := by
  unfold postOrders
  simp only [applyCoupon_erasePrices]
  cases h : applyCoupon db body (subtotal (body.items.getD [])) now with
  | error r => rfl
  | ok p =>
    obtain ⟨db1, discount⟩ := p
    simp only [commissionAmount_erasePrices]
    rfl

/-- C20: for every order request and every two databases that differ only in the price
field of products, the response is the same, so the computed subtotal, discount, total and
commissionAmount are equal; the databases after the request again differ only in product
prices; and the line items stored in an accepted order are the caller's, prices included. -/
theorem C20_catalog_prices_ignored (db1 db2 : DB) (body : OrderBody) (now : Int)
    (h : db1.erasePrices = db2.erasePrices) :
    (postOrders db1 body now).2 = (postOrders db2 body now).2 ∧
    (postOrders db1 body now).2.pricing? = (postOrders db2 body now).2.pricing? ∧
    (postOrders db1 body now).1.erasePrices = (postOrders db2 body now).1.erasePrices ∧
    ∀ o, (postOrders db1 body now).2 = .created o → o.items = body.items.getD [] := by
  have h1 := postOrders_erasePrices db1 body now
  have h2 := postOrders_erasePrices db2 body now
  rw [h, h2] at h1
  simp only [Prod.mk.injEq] at h1
  refine ⟨h1.2.symm, by rw [h1.2], h1.1.symm, ?_⟩
  intro o ho
  have hex : ∃ db', postOrders db1 body now = (db', .created o) :=
    ⟨(postOrders db1 body now).1, by rw [← ho]⟩
  obtain ⟨db', hpost⟩ := hex
  exact (postOrders_created hpost).1

/-- C20 (witness): the test catalog without catalog prices and with the catalog prices 999
and 1: the coupon test's order is priced from the caller's 499.99 on both. -/
theorem C20_catalog_prices_ignored_witness :
    (postOrders testDB (orderBody [lineItem "p_1" (49999 / 100) 1] (some "TEST10")) 5).2
      = (postOrders pricedDB (orderBody [lineItem "p_1" (49999 / 100) 1] (some "TEST10")) 5).2 ∧
    (postOrders pricedDB (orderBody [lineItem "p_1" (49999 / 100) 1] (some "TEST10")) 5).2.pricing?
      = some (fin (49999 / 100), fin 50, fin (44999 / 100), fin 45) :=
  ⟨(C20_catalog_prices_ignored testDB pricedDB
      (orderBody [lineItem "p_1" (49999 / 100) 1] (some "TEST10")) 5 (by decide!)).1,
   by decide!⟩

theorem find?_updateFirst {α : Type} (p : α → Bool) (f : α → α) :
    ∀ (l : List α) (c : α), l.find? p = some c → p (f c) = true →
      (updateFirst p f l).find? p = some (f c) := by
  intro l
  induction l with
  | nil => intro c h; simp at h
  | cons x xs ih =>
    intro c h hfc
    by_cases hx : p x = true
    · rw [List.find?_cons_of_pos _ hx] at h
      cases h
      simp [updateFirst, hx, hfc]
    · rw [List.find?_cons_of_neg _ hx] at h
      simp only [updateFirst, hx, if_false, Bool.false_eq_true]
      rw [List.find?_cons_of_neg _ hx]
      exact ih c h hfc

/-- The database an accepted coupon order leaves: the first coupon with the code incremented,
the new order and its commission appended. -/
theorem postOrders_accept_coupons {db : DB} {body : OrderBody} {code : String}
    {coupons : List Coupon} {c : Coupon} (now : Int)
    (hcode : body.couponCode = some code) (hne : code ≠ "") (hcs : db.coupons = some coupons)
    (hfind : coupons.find? (fun c => decide (c.code = code)) = some c)
    (h1 : couponNotStarted c now = false) (h2 : couponExpired c now = false)
    (h3 : couponUsageExhausted c = false) :
    (∃ o, (postOrders db body now).2 = .created o) ∧
    (postOrders db body now).1.coupons
      = some (updateFirst (fun c => decide (c.code = code)) incrementUsedCount coupons) := by
  obtain ⟨db', o, hpost, -⟩ :=
    postOrders_of_valid (validCoupon_of_checks now hcode hne hcs hfind h1 h2 h3)
  refine ⟨⟨o, by rw [hpost]⟩, ?_⟩
  obtain ⟨db1, discount, happly, hdb'⟩ := postOrders_created_db hpost
  rw [hpost, hdb']
  rcases applyCoupon_ok_db happly with
    ⟨hno, -⟩ | ⟨code', coupons', c', hcode', -, hcs', -, -, rfl⟩
  · rcases hno with hnone | hempty
    · rw [hnone] at hcode; cases hcode
    · rw [hempty] at hcode; cases hcode; exact absurd rfl hne
  · rw [hcode] at hcode'
    cases hcode'
    rw [hcs] at hcs'
    cases hcs'
    rfl

theorem incremented_count (u : ℚ) :
    (orElse (some (fin u)) (fin 0)).add (fin 1) = fin (u + 1) := by
  by_cases hu0 : u = 0
  · subst hu0; simp [JSNum.orElse, JSNum.truthy, JSNum.add]
  · simp [JSNum.orElse, JSNum.truthy, JSNum.add, hu0]

/-- A coupon with usageLimit n >= 1, usedCount k <= n and no window, found under its code:
of the orders naming it, the first n - k are accepted and all later ones are rejected with
coupon_usage_exhausted. -/
theorem runOrders_limited (code : String) (hne : code ≠ "") (n : ℕ) (hn : 1 ≤ n) :
    ∀ (requests : List (OrderBody × Int)) (db : DB) (k : ℕ) (coupons : List Coupon) (c : Coupon),
      db.coupons = some coupons →
      coupons.find? (fun c => decide (c.code = code)) = some c →
      c.usageLimit = some (fin n) → c.usedCount = some (fin k) →
      c.startAt = none → c.endAt = none → k ≤ n →
      (∀ r ∈ requests, r.1.couponCode = some code) →
      (runOrders db requests).2.length = requests.length ∧
      (∀ r ∈ (runOrders db requests).2.take (n - k), ∃ o, r = .created o) ∧
      (∀ r ∈ (runOrders db requests).2.drop (n - k),
        r = .failure 400 "coupon_usage_exhausted") := by
  intro requests
  induction requests with
  | nil => intro db k coupons c _ _ _ _ _ _ _ _; simp [runOrders]
  | cons request rest ih =>
    intro db k coupons c hcs hfind hlimit hused hstart hend hk hall
    have hcode := hall request (List.mem_cons_self _ _)
    have hrest : ∀ r ∈ rest, r.1.couponCode = some code :=
      fun r hr => hall r (List.mem_cons_of_mem _ hr)
    have h1 : couponNotStarted c request.2 = false := by simp [couponNotStarted, hstart]
    have h2 : couponExpired c request.2 = false := by simp [couponExpired, hend]
    have hn0 : (n : ℚ) ≠ 0 := by
      have : (1 : ℚ) ≤ n := by exact_mod_cast hn
      linarith
    rcases Nat.lt_or_ge k n with hlt | hge
    · -- the limit is not reached: the order is accepted and the count grows by one
      have h3 : couponUsageExhausted c = false := by
        have : ¬ ((n : ℚ) ≤ k) := by
          have : (k : ℚ) < n := by exact_mod_cast hlt
          linarith
        simp [couponUsageExhausted, hlimit, hused, JSNum.truthy, JSNum.ofOption, JSNum.ge,
          JSNum.lt, hn0, this, hlt]
      obtain ⟨⟨o, ho⟩, hcoupons⟩ :=
        postOrders_accept_coupons request.2 hcode hne hcs hfind h1 h2 h3
      have hfind' := find?_updateFirst (fun c => decide (c.code = code)) incrementUsedCount
        coupons c hfind (by
          have := List.find?_some hfind
          simpa [incrementUsedCount] using this)
      have hused' : (incrementUsedCount c).usedCount = some (fin ((k + 1 : ℕ) : ℚ)) := by
        simp only [incrementUsedCount, hused, incremented_count]
        push_cast
        rfl
      obtain ⟨hlen, htake, hdrop⟩ := ih (postOrders db request.1 request.2).1 (k + 1) _
        (incrementUsedCount c) hcoupons hfind' hlimit hused' hstart hend hlt hrest
      have hsplit : n - k = (n - (k + 1)) + 1 := by omega
      refine ⟨by simp [runOrders, hlen], ?_, ?_⟩
      · intro r hr
        simp only [runOrders, hsplit, List.take_succ_cons, List.mem_cons] at hr
        rcases hr with rfl | hr
        · exact ⟨o, ho⟩
        · exact htake r hr
      · intro r hr
        simp only [runOrders, hsplit, List.drop_succ_cons] at hr
        exact hdrop r hr
    · -- the limit is reached: the order is rejected and nothing changes
      have hkn : k = n := le_antisymm hk hge
      subst hkn
      have h3 : couponUsageExhausted c = true := by
        simp [couponUsageExhausted, hlimit, hused, JSNum.truthy, JSNum.ofOption, JSNum.ge,
          JSNum.lt, hn0]
      have hpost := postOrders_usage_exhausted request.2 hcode hne hcs hfind h1 h2 h3
      obtain ⟨hlen, -, hdrop⟩ := ih db k coupons c hcs hfind hlimit hused hstart hend hk hrest
      simp only [Nat.sub_self, List.take_zero, List.drop_zero] at hdrop ⊢
      refine ⟨by simp [runOrders, hpost, hlen], by simp, ?_⟩
      intro r hr
      simp only [runOrders, hpost, List.mem_cons] at hr
      rcases hr with rfl | hr
      · rfl
      · exact hdrop r hr

/-- C14 (counterexample): the `coupons` array already holds an unlimited coupon with the
code ONCE. An administrator creates a coupon ONCE with usageLimit 1 (the request is accepted
and stored as a second coupon with that code); the three orders that follow and name ONCE
are all accepted, because the lookup takes the first coupon with the code. -/
theorem C14_stored_code_counterexample :
    couponCodes (postCoupons storedOnceDB (some adminUser) (limitedCouponBody "ONCE" 1) 1).1
      = ["ONCE", "ONCE"] ∧
    ((postCoupons storedOnceDB (some adminUser) (limitedCouponBody "ONCE" 1) 1).1.coupons.getD
        []).map (fun c => c.usageLimit) = [none, some (fin 1)] ∧
    (runOrders (postCoupons storedOnceDB (some adminUser) (limitedCouponBody "ONCE" 1) 1).1
        [(orderBody [lineItem "p_1" 10 1] (some "ONCE"), 2),
         (orderBody [lineItem "p_1" 10 1] (some "ONCE"), 3),
         (orderBody [lineItem "p_1" 10 1] (some "ONCE"), 4)]).2.map Response.status
      = [201, 201, 201] := by
  decide!

/-- C14 (amended): a coupon created by an administrator with usageLimit n >= 1 and no
window, under a code no stored coupon carries yet, is accepted by exactly the first n orders
that name it; every later order naming it is rejected with coupon_usage_exhausted. -/
theorem C14_usage_limit_sequence (db : DB) (admin : User) (body : CouponBody) (now : Int)
    (code discountType : String) (amount : JSNum) (n : ℕ) (coupons : List Coupon)
    (requests : List (OrderBody × Int))
    (hadmin : admin.role = "admin") (hcode : body.code = some code) (hne : code ≠ "")
    (htype : body.discountType = some discountType) (hdt : discountType ≠ "")
    (hamount : body.amount = some amount) (hlimit : body.usageLimit = some (fin n))
    (hn : 1 ≤ n) (hstart : body.startAt = none) (hend : body.endAt = none)
    (hcs : db.coupons = some coupons) (hfresh : ∀ c ∈ coupons, c.code ≠ code)
    (hall : ∀ r ∈ requests, r.1.couponCode = some code) :
    (runOrders (postCoupons db (some admin) body now).1 requests).2.length = requests.length ∧
    (∀ r ∈ (runOrders (postCoupons db (some admin) body now).1 requests).2.take n,
      ∃ o, r = .created o) ∧
    (∀ r ∈ (runOrders (postCoupons db (some admin) body now).1 requests).2.drop n,
      r = .failure 400 "coupon_usage_exhausted") := by
  have hn0 : (n : ℚ) ≠ 0 := by
    have : (1 : ℚ) ≤ n := by exact_mod_cast hn
    linarith
  have htruthy : optTruthy (some (fin (n : ℚ))) = true := by
    simp [JSNum.optTruthy, JSNum.truthy, hn0]
  have hdb : (postCoupons db (some admin) body now).1.coupons
      = some (coupons ++ [newCoupon body code discountType amount now]) := by
    simp [postCoupons, hadmin, hcode, htype, hamount, hne, hdt, hcs]
  have hnone : coupons.find? (fun c => decide (c.code = code)) = none := by
    rw [List.find?_eq_none]
    intro c hmem
    simpa using hfresh c hmem
  have hfind : (coupons ++ [newCoupon body code discountType amount now]).find?
        (fun c => decide (c.code = code))
      = some (newCoupon body code discountType amount now) := by
    rw [List.find?_append, hnone]
    simp [newCoupon]
  have hlim : (newCoupon body code discountType amount now).usageLimit = some (fin n) := by
    simp [newCoupon, hlimit, htruthy]
  have := runOrders_limited code hne n hn requests (postCoupons db (some admin) body now).1 0 _ _
    hdb hfind hlim (by simp [newCoupon]) (by simp [newCoupon, hstart])
    (by simp [newCoupon, hend]) (Nat.zero_le n) hall
  simpa using this

/-- C14 (witness): n = 1. The coupon ONCE is created with usageLimit 1; the first order
naming it is accepted and the second is rejected with coupon_usage_exhausted. -/
theorem C14_usage_limit_sequence_witness :
    (∀ r ∈ (runOrders (postCoupons emptyCouponsDB (some adminUser) (limitedCouponBody "ONCE" 1)
              1).1
            [(orderBody [lineItem "p_1" 10 1] (some "ONCE"), 2),
             (orderBody [lineItem "p_1" 10 1] (some "ONCE"), 3)]).2.drop 1,
      r = .failure 400 "coupon_usage_exhausted") ∧
    (runOrders (postCoupons emptyCouponsDB (some adminUser) (limitedCouponBody "ONCE" 1) 1).1
        [(orderBody [lineItem "p_1" 10 1] (some "ONCE"), 2),
         (orderBody [lineItem "p_1" 10 1] (some "ONCE"), 3)]).2.map Response.status
      = [201, 400] :=
  ⟨(C14_usage_limit_sequence emptyCouponsDB adminUser (limitedCouponBody "ONCE" 1) 1
      "ONCE" "fixed" (fin 1) 1 []
      [(orderBody [lineItem "p_1" 10 1] (some "ONCE"), 2),
       (orderBody [lineItem "p_1" 10 1] (some "ONCE"), 3)]
      rfl rfl (by decide) rfl (by decide) rfl (by simp [limitedCouponBody]) (le_refl 1) rfl rfl
      rfl (by simp) (by decide!)).2.2,
   by decide!⟩

theorem JSNum.isCount_fin_iff (q : ℚ) : (fin q).isCount = true ↔ ∃ n : ℕ, q = n := by
  simp only [JSNum.isCount, decide_eq_true_eq]
  constructor
  · intro h
    exact ⟨_, h⟩
  · rintro ⟨n, rfl⟩
    simp

/-- The strengthened invariant for one coupon, spelled out: no limit, or a limit n >= 1 and a
count k <= n, both natural numbers. -/
theorem usageCounted_iff (c : Coupon) :
    usageCounted c = true ↔
      (c.usageLimit = none ∨
        ∃ n k : ℕ, 1 ≤ n ∧ k ≤ n ∧ c.usageLimit = some (fin n) ∧ c.usedCount = some (fin k)) := by
  unfold usageCounted
  cases hl : c.usageLimit with
  | none => simp
  | some l =>
    simp only [Bool.and_eq_true, false_or, reduceCtorEq]
    constructor
    · rintro ⟨⟨⟨hcount, htruthy⟩, hucount⟩, hge⟩
      cases l with
      | fin ql =>
        cases hu : c.usedCount with
        | none => simp [hu, JSNum.ofOption, JSNum.isCount] at hucount
        | some uc =>
          cases uc with
          | fin qu =>
            obtain ⟨n, rfl⟩ := (JSNum.isCount_fin_iff ql).mp hcount
            rw [hu] at hucount hge
            obtain ⟨k, rfl⟩ := (JSNum.isCount_fin_iff qu).mp hucount
            have hn0 : n ≠ 0 := by
              intro h0
              subst h0
              simp [JSNum.truthy] at htruthy
            have hkn : k ≤ n := by
              simpa [JSNum.ofOption, JSNum.ge, JSNum.lt] using hge
            exact ⟨n, k, Nat.one_le_iff_ne_zero.mpr hn0, hkn, rfl, rfl⟩
          | nan => simp [hu, JSNum.ofOption, JSNum.isCount] at hucount
          | pinf => simp [hu, JSNum.ofOption, JSNum.isCount] at hucount
          | ninf => simp [hu, JSNum.ofOption, JSNum.isCount] at hucount
      | nan => simp [JSNum.isCount] at hcount
      | pinf => simp [JSNum.isCount] at hcount
      | ninf => simp [JSNum.isCount] at hcount
    · rintro ⟨n, k, hn, hkn, hlim, hu⟩
      cases hlim
      rw [hu]
      have hn0 : n ≠ 0 := Nat.one_le_iff_ne_zero.mp hn
      refine ⟨⟨⟨(JSNum.isCount_fin_iff _).mpr ⟨n, rfl⟩, ?_⟩,
        (JSNum.isCount_fin_iff _).mpr ⟨k, rfl⟩⟩, ?_⟩
      · simp [JSNum.truthy, hn0]
      · simp [JSNum.ofOption, JSNum.ge, JSNum.lt, hkn]

theorem usedCountWithinLimit_of_counted {c : Coupon} (h : usageCounted c = true) :
    usedCountWithinLimit c = true := by
  unfold usageCounted at h
  unfold usedCountWithinLimit
  cases hl : c.usageLimit with
  | none => rfl
  | some l =>
    rw [hl] at h
    simp only [Bool.and_eq_true] at h
    exact h.2

theorem usageInvariant_of_counted {db : DB} (h : countedInvariant db = true) :
    usageInvariant db = true := by
  unfold countedInvariant at h
  unfold usageInvariant
  cases hcs : db.coupons with
  | none => rfl
  | some coupons =>
    rw [hcs] at h
    simp only [List.all_eq_true] at h ⊢
    exact fun c hc => usedCountWithinLimit_of_counted (h c hc)

/-- An accepted coupon keeps the strengthened invariant when its count is incremented. -/
theorem usageCounted_increment {c : Coupon} (h : usageCounted c = true)
    (hfree : couponUsageExhausted c = false) : usageCounted (incrementUsedCount c) = true := by
  rcases (usageCounted_iff c).mp h with hnone | ⟨n, k, hn, hkn, hlim, hu⟩
  · exact (usageCounted_iff _).mpr (Or.inl (by simpa [incrementUsedCount] using hnone))
  · have hn0 : n ≠ 0 := Nat.one_le_iff_ne_zero.mp hn
    have hlt : k < n := by
      by_contra hge
      have hnk : n ≤ k := not_lt.mp hge
      have : couponUsageExhausted c = true := by
        simp [couponUsageExhausted, hlim, hu, JSNum.truthy, JSNum.ofOption, JSNum.ge,
          JSNum.lt, hn0, hnk]
      rw [hfree] at this
      exact Bool.false_ne_true this
    refine (usageCounted_iff _).mpr (Or.inr ⟨n, k + 1, hn, hlt, ?_, ?_⟩)
    · simpa [incrementUsedCount] using hlim
    · simp only [incrementUsedCount, hu, incremented_count]
      push_cast
      rfl

theorem usageCounted_newCoupon {body : CouponBody} (code discountType : String)
    (amount : JSNum) (now : Int)
    (h : (!optTruthy body.usageLimit || (ofOption body.usageLimit).isCount) = true) :
    usageCounted (newCoupon body code discountType amount now) = true := by
  apply (usageCounted_iff _).mpr
  by_cases ht : optTruthy body.usageLimit = true
  · right
    cases hl : body.usageLimit with
    | none => simp [hl, JSNum.optTruthy] at ht
    | some l =>
      rw [hl] at h ht
      simp only [ht, Bool.not_true, Bool.false_or, JSNum.ofOption] at h
      cases l with
      | fin q =>
        obtain ⟨n, rfl⟩ := (JSNum.isCount_fin_iff q).mp h
        have hn0 : n ≠ 0 := by
          intro h0
          subst h0
          simp [JSNum.optTruthy, JSNum.truthy] at ht
        refine ⟨n, 0, Nat.one_le_iff_ne_zero.mpr hn0, Nat.zero_le n, ?_, ?_⟩
        · simp [newCoupon, hl, ht]
        · simp [newCoupon]
      | nan => simp [JSNum.isCount] at h
      | pinf => simp [JSNum.isCount] at h
      | ninf => simp [JSNum.isCount] at h
  · left
    simp [newCoupon, ht]

/-- What `POST /api/coupons` does to the database: nothing, or one coupon appended. -/
theorem postCoupons_db (db : DB) (admin : Option User) (body : CouponBody) (now : Int) :
    (postCoupons db admin body now).1 = db ∨
    ∃ coupons code discountType amount, db.coupons = some coupons ∧
      (postCoupons db admin body now).1
        = { db with coupons := some (coupons ++ [newCoupon body code discountType amount now]) } := by
  unfold postCoupons
  cases admin with
  | none => exact Or.inl rfl
  | some user =>
    simp only
    split_ifs with hrole
    · exact Or.inl rfl
    · cases hcode : body.code with
      | none => exact Or.inl rfl
      | some code =>
        cases htype : body.discountType with
        | none => exact Or.inl rfl
        | some discountType =>
          cases hamount : body.amount with
          | none => exact Or.inl rfl
          | some amount =>
            simp only
            split_ifs with hempty
            · exact Or.inl rfl
            · cases hcs : db.coupons with
              | none => exact Or.inl rfl
              | some coupons => exact Or.inr ⟨coupons, code, discountType, amount, rfl, rfl⟩

/-- What `POST /api/orders` does to the stored coupons: nothing, or the first coupon with
the code, which was not exhausted, is incremented. -/
theorem postOrders_coupons (db : DB) (body : OrderBody) (now : Int) :
    (postOrders db body now).1.coupons = db.coupons ∨
    ∃ code coupons c, db.coupons = some coupons ∧
      coupons.find? (fun c => decide (c.code = code)) = some c ∧
      couponUsageExhausted c = false ∧
      (postOrders db body now).1.coupons
        = some (updateFirst (fun c => decide (c.code = code)) incrementUsedCount coupons) := by
  cases hpost : postOrders db body now with
  | mk db' r =>
    cases r with
    | failure status error =>
      rw [postOrders_failure_db hpost]
      exact Or.inl rfl
    | created o =>
      obtain ⟨db1, discount, happly, rfl⟩ := postOrders_created_db hpost
      rcases applyCoupon_ok_db happly with
        ⟨-, rfl⟩ | ⟨code, coupons, c, -, -, hcs, hfind, hfree, rfl⟩
      · exact Or.inl rfl
      · exact Or.inr ⟨code, coupons, c, hcs, hfind, hfree, rfl⟩

/-- C15 (counterexample): two coupons created through `POST /api/coupons` on a database
whose coupons array is empty. With usageLimit -1 the new coupon has usedCount 0 above its
limit at once. With usageLimit 0.5 the invariant holds after the creation, and the first
order naming the coupon is accepted and leaves usedCount 1 above the limit 0.5. -/
theorem C15_uncounted_limit_counterexample :
    usageInvariant emptyCouponsDB = true ∧
    usageInvariant
      (handle emptyCouponsDB (.createCoupon (some adminUser) (limitedCouponBody "NEG" (-1))) 1)
      = false ∧
    usageInvariant
      (handle emptyCouponsDB (.createCoupon (some adminUser) (limitedCouponBody "HALF" (1 / 2))) 1)
      = true ∧
    usageInvariant
      (handle
        (handle emptyCouponsDB (.createCoupon (some adminUser) (limitedCouponBody "HALF" (1 / 2)))
          1)
        (.placeOrder (orderBody [lineItem "p_1" 10 1] (some "HALF"))) 2)
      = false := by
  decide!

/-- C15 (amended): as long as every usageLimit is a positive integer and every usedCount of
a limited coupon a natural number, usedCount <= usageLimit is an invariant: from a database
in which every limited coupon is so counted, every `POST /api/coupons` whose usageLimit,
when truthy, is a natural number and every `POST /api/orders`, accepted or rejected, leads
to a database that is again so counted, and in which usedCount <= usageLimit holds for
every coupon with a usageLimit set. -/
theorem C15_counted_usage_invariant (db : DB) (request : Request) (now : Int)
    (hinv : countedInvariant db = true) (hreq : request.limitIsCount = true) :
    countedInvariant (handle db request now) = true ∧
    usageInvariant (handle db request now) = true := by
  have key : countedInvariant (handle db request now) = true := by
    cases request with
    | createCoupon admin body =>
      simp only [handle]
      rcases postCoupons_db db admin body now with h | ⟨coupons, code, dt, amount, hcs, h⟩
      · rw [h]; exact hinv
      · rw [h]
        unfold countedInvariant at hinv ⊢
        rw [hcs] at hinv
        simp only [List.all_append, List.all_cons, List.all_nil, Bool.and_true,
          Bool.and_eq_true]
        exact ⟨hinv, usageCounted_newCoupon code dt amount now hreq⟩
    | placeOrder body =>
      simp only [handle]
      rcases postOrders_coupons db body now with h | ⟨code, coupons, c, hcs, hfind, hfree, h⟩
      · unfold countedInvariant at hinv ⊢
        rw [h]; exact hinv
      · unfold countedInvariant at hinv ⊢
        rw [h]
        rw [hcs] at hinv
        obtain ⟨pre, post, hl, -, -, hupd⟩ :=
          updateFirst_split (fun c => decide (c.code = code)) incrementUsedCount coupons c hfind
        rw [hl] at hinv
        simp only [hupd, List.all_append, List.all_cons, Bool.and_eq_true] at hinv ⊢
        exact ⟨hinv.1, usageCounted_increment hinv.2.1 hfree, hinv.2.2⟩
  exact ⟨key, usageInvariant_of_counted key⟩

/-- C15 (witness): the coupon ONCE created with usageLimit 1 and then used by one order. -/
theorem C15_counted_usage_invariant_witness :
    usageInvariant
      (handle
        (handle emptyCouponsDB (.createCoupon (some adminUser) (limitedCouponBody "ONCE" 1)) 1)
        (.placeOrder (orderBody [lineItem "p_1" 10 1] (some "ONCE"))) 2)
      = true :=
  (C15_counted_usage_invariant
    (handle emptyCouponsDB (.createCoupon (some adminUser) (limitedCouponBody "ONCE" 1)) 1)
    (.placeOrder (orderBody [lineItem "p_1" 10 1] (some "ONCE"))) 2
    (C15_counted_usage_invariant emptyCouponsDB
      (.createCoupon (some adminUser) (limitedCouponBody "ONCE" 1)) 1 (by decide!)
      (by decide!)).1
    rfl).2

/-! ## Catalog queries, category deletion and the commission lifecycle -/

/-- C25 (code divergence): the niche filter reads the property `nichId`, which no product
has, so a niche query returns no product. On a catalog whose first product has nicheId
smartphones, `?niche=smartphones` and `?category=electronics&niche=smartphones` return the
empty list instead of that product; the category filter alone works. -/
theorem C25_niche_filter_returns_nothing :
    getProducts shopDB none (some "smartphones") = [] ∧
    getProducts shopDB (some "electronics") (some "smartphones") = [] ∧
    shopDB.products.filter (fun p => decide (p.nicheId = some "smartphones"))
      = [{ id := "p_1", categoryId := some "electronics", nicheId := some "smartphones" }] ∧
    getProducts shopDB (some "electronics") none
      = [{ id := "p_1", categoryId := some "electronics", nicheId := some "smartphones" }] := by
  decide

/-- Without a niche query, `GET /api/products` returns the stored products, filtered by the
category when one is given. -/
theorem getProducts_category (db : DB) (category : String) (h : category ≠ "") :
    getProducts db none none = db.products ∧
    getProducts db (some category) none
      = db.products.filter (fun p => decide (p.categoryId = some category)) := by
  simp [getProducts, h]

theorem ruleApplies_iff (catId : String) (now : Int) (r : DiscountRule) :
    ruleApplies (some catId) now r = true ↔ specRuleReturned catId now r := by
  unfold ruleApplies specRuleReturned
  cases hact : r.active <;> cases hs : r.startAt <;> cases he : r.endAt <;>
    by_cases hc : r.categoryId = catId <;> simp [hc]

/-- C27: `GET /api/discount-rules/category/:id` returns the stored rules, in stored order,
that are active, have the category id of the URL, have no startAt later than now and no
endAt earlier than now: a rule is in the answer exactly when it is stored and satisfies the
four conditions, so inactive, future and expired rules are never returned. -/
theorem C27_discount_rules_by_category (db : DB) (catId : String) (now : Int) :
    getDiscountRulesByCategory db (rulesUrl catId) now
      = (db.discountRules.getD []).filter (ruleApplies (some catId) now) ∧
    (getDiscountRulesByCategory db (rulesUrl catId) now).Sublist (db.discountRules.getD []) ∧
    ∀ r, r ∈ getDiscountRulesByCategory db (rulesUrl catId) now ↔
      r ∈ db.discountRules.getD [] ∧ specRuleReturned catId now r := by
  have h : getDiscountRulesByCategory db (rulesUrl catId) now
      = (db.discountRules.getD []).filter (ruleApplies (some catId) now) := rfl
  refine ⟨h, ?_, ?_⟩
  · rw [h]; exact List.filter_sublist _
  · intro r
    rw [h, List.mem_filter, ruleApplies_iff]

/-- The four tests of `test-improvements.js` on one category: of an active rule in its
window, an inactive rule, a rule starting tomorrow and a rule expired yesterday, only the
first is returned. -/
theorem discount_rules_example :
    getDiscountRulesByCategory rulesDB (rulesUrl "fashion") 1000
      = [{ id := "rule_1", categoryId := "fashion", discountPercent := fin 5,
           startAt := some (fin 1000), endAt := some (fin 1000) }] := by
  decide!

/-- Whoever is not an administrator gets `403 forbidden` from the analytics endpoint. -/
theorem getAnalyticsCategories_forbidden (db : DB) (admin : Option User)
    (h : ∀ u, admin = some u → u.role ≠ "admin") :
    getAnalyticsCategories db admin = (db, { status := 403, error := some "forbidden" }, []) := by
  unfold getAnalyticsCategories
  cases admin with
  | none => rfl
  | some u => simp [h u rfl]

/-- C28 (code divergence): a request to `GET /api/admin/analytics/categories` without an
`Authorization` header is answered 403 forbidden, not 401, whatever the token check is and
whatever the database holds; so is a request of a signed-in user who is not an
administrator. -/
theorem C28_analytics_without_token_is_403 :
    (∀ (verifyToken : String → Option TokenPayload) (db : DB),
      (getAnalyticsCategories db (getAuthUser verifyToken db none)).2.1
        = { status := 403, error := some "forbidden" }) ∧
    (getAnalyticsCategories shopDB (some { id := "u_1", role := "buyer" })).2.1.status = 403 := by
  refine ⟨fun verifyToken db => ?_, by decide⟩
  rw [getAnalyticsCategories_forbidden db _ (by intro u hu; simp [getAuthUser] at hu)]

/-- C29 (code divergence): the handler takes segment 3 of the URL, which is `categories`,
as the id. After the administrator's `DELETE /api/admin/categories/fashion` (answered 200)
the category fashion is still stored, its niche too, product p_2 still has categoryId
fashion, and a later order of 100.00 for p_2 is charged the fashion rate 0.12 (commission
12.00) and not the default 0.1. -/
theorem C29_delete_category_deletes_nothing :
    (deleteCategory shopDB (some adminUser) (categoryUrl "fashion")).2.status = 200 ∧
    (deleteCategory shopDB (some adminUser) (categoryUrl "fashion")).1.categories
      = shopDB.categories ∧
    (deleteCategory shopDB (some adminUser) (categoryUrl "fashion")).1.niches = shopDB.niches ∧
    (deleteCategory shopDB (some adminUser) (categoryUrl "fashion")).1.products
      = shopDB.products ∧
    (postOrders (deleteCategory shopDB (some adminUser) (categoryUrl "fashion")).1
        (orderBody [lineItem "p_2" 100 1] none) 5).2.pricing?
      = some (fin 100, fin 0, fin 100, fin 12) := by
  decide!

/-- C23 (code divergence): the handler takes segment 3 of the URL, which is `commissions`,
as the commission id. For the stored payable commission c_5 the administrator's `POST
/api/admin/commissions/c_5/pay` is answered 404 not_found and changes nothing: the status
stays payable and no payout is appended. -/
theorem C23_admin_pay_not_found :
    (lifecycleDB "c_5" "payable").commissions = [commissionOf "c_5" "payable"] ∧
    adminPay (lifecycleDB "c_5" "payable") (some adminUser) (payUrl "c_5") 9
      = (lifecycleDB "c_5" "payable", { status := 404, error := some "not_found" }) := by
  decide!

theorem updateFirst_append_cons {α : Type} (p : α → Bool) (f : α → α) (c : α) (post : List α) :
    ∀ pre : List α, (∀ x ∈ pre, p x = false) → p c = true →
      updateFirst p f (pre ++ c :: post) = pre ++ f c :: post ∧
      (pre ++ c :: post).find? p = some c := by
  intro pre
  induction pre with
  | nil => intro _ hc; simp [updateFirst, hc]
  | cons x xs ih =>
    intro hpre hc
    have hx : p x = false := hpre x (List.mem_cons_self _ _)
    obtain ⟨h1, h2⟩ := ih (fun y hy => hpre y (List.mem_cons_of_mem _ hy)) hc
    simp [updateFirst, hx, h1, h2]

theorem updateFirst_of_no_match {α : Type} (p : α → Bool) (f : α → α) :
    ∀ l : List α, (∀ x ∈ l, p x = false) → updateFirst p f l = l := by
  intro l
  induction l with
  | nil => intro _; rfl
  | cons x xs ih =>
    intro h
    have hx : p x = false := h x (List.mem_cons_self _ _)
    simp [updateFirst, hx, ih (fun y hy => h y (List.mem_cons_of_mem _ hy))]

/-- C24 (counterexample): the order id is the clock reading in milliseconds (line 753), so
two orders placed in the same millisecond 5 are both stored with the id 5, and their
commissions with the id c_5. Simulating the payment of order 5 marks the first of them paid
and its commission payable; the second order, which exists and has that id, keeps no
paymentStatus and its commission stays pending. -/
theorem C24_same_millisecond_counterexample :
    (runLifecycle shopDB
        [(.placeOrder (orderBody [lineItem "p_2" 100 1] none), 5),
         (.placeOrder (orderBody [lineItem "p_1" 10 1] none), 5),
         (.simulatePayment (some "5"), 9)]).orders.map (fun o => (o.id, o.paymentStatus))
      = [("5", some "paid"), ("5", none)] ∧
    (runLifecycle shopDB
        [(.placeOrder (orderBody [lineItem "p_2" 100 1] none), 5),
         (.placeOrder (orderBody [lineItem "p_1" 10 1] none), 5),
         (.simulatePayment (some "5"), 9)]).commissions.map (fun c => (c.orderId, c.status))
      = [("5", "payable"), ("5", "pending")] ∧
    (simulatePayment (runLifecycle shopDB
        [(.placeOrder (orderBody [lineItem "p_2" 100 1] none), 5),
         (.placeOrder (orderBody [lineItem "p_1" 10 1] none), 5)]) (some "5") 9).2
      = { status := 200 } := by
  decide!

/-- C24 (amended): for the first stored order with a given non-empty id, simulating the
payment of that id is answered 200 and replaces that order by itself with paymentStatus paid
(and status paid, paidAt now), and the first commission with that orderId by itself with
status payable (and payableAt now); the order's items, subtotal, discount, total and
commissionAmount, the commission's amount, every other order and commission (a later order
with the same id included), and the rest of the database are unchanged. -/
theorem C24_simulate_payment_frame (db : DB) (orderId : String) (now : Int)
    (pre post : List Order) (o : Order)
    (hne : orderId ≠ "") (horders : db.orders = pre ++ o :: post)
    (hpre : ∀ x ∈ pre, x.id ≠ orderId) (ho : o.id = orderId) :
    (simulatePayment db (some orderId) now).2 = { status := 200 } ∧
    (simulatePayment db (some orderId) now).1.orders
      = pre ++ { o with paymentStatus := some "paid", status := some "paid",
                        paidAt := some now } :: post ∧
    (∀ cpre c cpost, db.commissions = cpre ++ c :: cpost →
      (∀ x ∈ cpre, x.orderId ≠ orderId) → c.orderId = orderId →
      (simulatePayment db (some orderId) now).1.commissions
        = cpre ++ { c with status := "payable", payableAt := some now } :: cpost) ∧
    ((∀ c ∈ db.commissions, c.orderId ≠ orderId) →
      (simulatePayment db (some orderId) now).1.commissions = db.commissions) ∧
    (simulatePayment db (some orderId) now).1
      = { db with orders := (simulatePayment db (some orderId) now).1.orders,
                  commissions := (simulatePayment db (some orderId) now).1.commissions } := by
  obtain ⟨hupd, hfind⟩ := updateFirst_append_cons (fun o => decide (o.id = orderId))
    (markOrderPaid now) o post pre (by simpa using hpre) (by simpa using ho)
  have hsim : simulatePayment db (some orderId) now
      = ({ db with
           orders := updateFirst (fun o => decide (o.id = orderId)) (markOrderPaid now) db.orders,
           commissions := updateFirst (fun c => decide (c.orderId = orderId))
             (markCommissionPayable now) db.commissions },
         { status := 200 }) := by
    simp [simulatePayment, hne, horders, hfind]
  rw [hsim]
  refine ⟨rfl, ?_, ?_, ?_, rfl⟩
  · simp only [horders, hupd, markOrderPaid]
  · intro cpre c cpost hcomm hcpre hc
    obtain ⟨hcupd, -⟩ := updateFirst_append_cons (fun c => decide (c.orderId = orderId))
      (markCommissionPayable now) c cpost cpre (by simpa using hcpre) (by simpa using hc)
    simp only [hcomm, hcupd, markCommissionPayable]
  · intro hnone
    exact updateFirst_of_no_match _ _ _ (by simpa using hnone)

/-- C24 (witness): the order 5 of the lifecycle database with its pending commission c_5. -/
theorem C24_simulate_payment_frame_witness :
    (simulatePayment (lifecycleDB "c_5" "pending") (some "5") 9).2 = { status := 200 } ∧
    (simulatePayment (lifecycleDB "c_5" "pending") (some "5") 9).1.orders
      = [{ paidOrder with paymentStatus := some "paid", status := some "paid",
                          paidAt := some 9 }] ∧
    (simulatePayment (lifecycleDB "c_5" "pending") (some "5") 9).1.commissions
      = [{ commissionOf "c_5" "pending" with status := "payable", payableAt := some 9 }] :=
  ⟨(C24_simulate_payment_frame (lifecycleDB "c_5" "pending") "5" 9 [] [] paidOrder (by decide)
      rfl (by simp) rfl).1,
   (C24_simulate_payment_frame (lifecycleDB "c_5" "pending") "5" 9 [] [] paidOrder (by decide)
      rfl (by simp) rfl).2.1,
   (C24_simulate_payment_frame (lifecycleDB "c_5" "pending") "5" 9 [] [] paidOrder (by decide)
      rfl (by simp) rfl).2.2.1 [] (commissionOf "c_5" "pending") [] rfl (by simp) rfl⟩

/-- The lifecycle fixture is what `POST /api/orders` leaves on the shop catalog. -/
theorem lifecycleDB_from_order :
    (postOrders shopDB (orderBody [lineItem "p_2" 100 1] none) 5).1
      = lifecycleDB "c_5" "pending" := by
  decide!

theorem getElem?_updateFirst {α : Type} (p : α → Bool) (f : α → α) :
    ∀ (l : List α) (i : Nat) (c : α), l[i]? = some c →
      ∃ c', (updateFirst p f l)[i]? = some c' ∧ (c' = c ∨ c' = f c) := by
  intro l
  induction l with
  | nil => intro i c h; simp at h
  | cons x xs ih =>
    intro i c h
    by_cases hx : p x = true
    · cases i with
      | zero =>
        simp only [List.getElem?_cons_zero, Option.some.injEq] at h
        subst h
        exact ⟨f x, by simp [updateFirst, hx], Or.inr rfl⟩
      | succ j =>
        simp only [List.getElem?_cons_succ] at h
        exact ⟨c, by simp [updateFirst, hx, h], Or.inl rfl⟩
    · cases i with
      | zero =>
        simp only [List.getElem?_cons_zero, Option.some.injEq] at h
        subst h
        exact ⟨x, by simp [updateFirst, hx], Or.inl rfl⟩
      | succ j =>
        simp only [List.getElem?_cons_succ] at h
        obtain ⟨c', hc', hor⟩ := ih j c h
        exact ⟨c', by simp [updateFirst, hx, hc'], hor⟩

theorem getElem?_append_of_some {α : Type} (l extra : List α) (i : Nat) (c : α)
    (h : l[i]? = some c) : (l ++ extra)[i]? = some c := by
  have hi : i < l.length := by
    by_contra hge
    rw [List.getElem?_eq_none (not_lt.mp hge)] at h
    cases h
  rw [List.getElem?_append_left hi, h]

/-- The commissions after an order request: the same, or one more at the end. -/
theorem postOrders_commissions (db : DB) (body : OrderBody) (now : Int) :
    (postOrders db body now).1.commissions = db.commissions ∨
    ∃ c, (postOrders db body now).1.commissions = db.commissions ++ [c] := by
  cases hpost : postOrders db body now with
  | mk db' r =>
    cases r with
    | failure status error =>
      rw [postOrders_failure_db hpost]
      exact Or.inl rfl
    | created o =>
      obtain ⟨db1, discount, happly, rfl⟩ := postOrders_created_db hpost
      rcases applyCoupon_ok_db happly with ⟨-, rfl⟩ | ⟨code, coupons, c, -, -, -, -, -, rfl⟩
      · exact Or.inr ⟨_, rfl⟩
      · exact Or.inr ⟨_, rfl⟩

theorem simulatePayment_commissions (db : DB) (orderId : Option String) (now : Int) :
    (simulatePayment db orderId now).1.commissions = db.commissions ∨
    ∃ p : Commission → Bool, (simulatePayment db orderId now).1.commissions
      = updateFirst p (markCommissionPayable now) db.commissions := by
  unfold simulatePayment
  repeat' split
  all_goals first | exact Or.inl rfl | exact Or.inr ⟨_, rfl⟩

/-- The Stripe webhook branch is never reached: a URL that passes the test of line 150
starts with `/api/` and is not `/webhooks/stripe`, so every request is answered 404 and the
database is unchanged. -/
theorem stripeWebhook_unreached (db : DB) (parts : List String) (event : Option StripeEvent)
    (now : Int) :
    stripeWebhook db parts event now = (db, { status := 404, error := some "Not Found" }) := by
  unfold stripeWebhook
  by_cases h : parts = webhookUrl
  · subst h
    have : inApiBlock webhookUrl = false := by decide
    simp [this]
  · simp [h]

/-- A URL of the admin pay route has `commissions` as its segment 3, the one the handler
takes for the commission id. -/
theorem isAdminPayUrl_segment {parts : List String} (h : isAdminPayUrl parts = true) :
    parts[3]? = some "commissions" := by
  unfold isAdminPayUrl at h
  split at h
  · simp only [Bool.and_eq_true, decide_eq_true_eq] at h
    obtain ⟨⟨⟨⟨-, -⟩, -⟩, h4⟩, -⟩ := h
    simp [h4]
  · cases h

theorem order_commission_id_ne (orderId : String) : "c_" ++ orderId ≠ "commissions" := by
  intro h
  have hd := congrArg String.data h
  rw [String.data_append] at hd
  have h1 : "c_".data = ['c', '_'] := rfl
  have h2 : "commissions".data = ['c', 'o', 'm', 'm', 'i', 's', 's', 'i', 'o', 'n', 's'] := rfl
  rw [h1, h2] at hd
  simp only [List.cons_append, List.cons.injEq] at hd
  exact absurd hd.2.1 (by decide)

theorem fromOrder_id {c : Commission} (h : c.fromOrder = true) : c.id ≠ "commissions" := by
  unfold Commission.fromOrder at h
  simp only [Bool.and_eq_true, decide_eq_true_eq] at h
  rw [h.1]
  exact order_commission_id_ne _

theorem fromOrder_status {c : Commission} (h : c.fromOrder = true) :
    c.status = "pending" ∨ c.status = "payable" := by
  unfold Commission.fromOrder at h
  simp only [Bool.and_eq_true, Bool.or_eq_true, decide_eq_true_eq] at h
  exact h.2

theorem fromOrder_markCommissionPayable (now : Int) {c : Commission} (h : c.fromOrder = true) :
    (markCommissionPayable now c).fromOrder = true := by
  unfold Commission.fromOrder at h ⊢
  simp only [Bool.and_eq_true, decide_eq_true_eq] at h
  simp [markCommissionPayable, h.1]

theorem all_updateFirst {α : Type} (p q : α → Bool) (f : α → α)
    (hf : ∀ x, q x = true → q (f x) = true) :
    ∀ l : List α, l.all q = true → (updateFirst p f l).all q = true := by
  intro l
  induction l with
  | nil => intro h; exact h
  | cons x xs ih =>
    intro h
    simp only [List.all_cons, Bool.and_eq_true] at h
    by_cases hx : p x = true
    · simp only [updateFirst, hx, if_true, List.all_cons, Bool.and_eq_true]
      exact ⟨hf x h.1, h.2⟩
    · simp only [updateFirst, hx, Bool.false_eq_true, if_false, List.all_cons, Bool.and_eq_true]
      exact ⟨h.1, ih h.2⟩

/-- On a database whose commissions come from the order handler the admin pay action finds
no commission, whatever the URL of its route: the database is unchanged. -/
theorem adminPay_fromOrders {db : DB} (hdb : commissionsFromOrders db = true)
    (admin : Option User) {parts : List String} (now : Int) (h : isAdminPayUrl parts = true) :
    (adminPay db admin parts now).1 = db := by
  have hfind : db.commissions.find? (fun c => decide (some c.id = parts[3]?)) = none := by
    rw [List.find?_eq_none]
    intro c hc
    rw [isAdminPayUrl_segment h]
    have := fromOrder_id (List.all_eq_true.mp hdb c hc)
    simpa using this
  unfold adminPay
  cases admin with
  | none => rfl
  | some user =>
    by_cases hrole : user.role = "admin"
    · simp [hrole, hfind]
    · simp [hrole]

/-- The commissions after an order request: the same, or one more at the end, which has the
id `'c_' + orderId` and the status pending. -/
theorem postOrders_commissions_fromOrder (db : DB) (body : OrderBody) (now : Int) :
    (postOrders db body now).1.commissions = db.commissions ∨
    ∃ c, (postOrders db body now).1.commissions = db.commissions ++ [c] ∧
      c.fromOrder = true := by
  cases hpost : postOrders db body now with
  | mk db' r =>
    cases r with
    | failure status error =>
      rw [postOrders_failure_db hpost]
      exact Or.inl rfl
    | created o =>
      obtain ⟨db1, discount, happly, rfl⟩ := postOrders_created_db hpost
      rcases applyCoupon_ok_db happly with ⟨-, rfl⟩ | ⟨code, coupons, c, -, -, -, -, -, rfl⟩
      · exact Or.inr ⟨_, rfl, by simp [Commission.fromOrder]⟩
      · exact Or.inr ⟨_, rfl, by simp [Commission.fromOrder]⟩

/-- Every lifecycle request preserves the property that the stored commissions come from
the order handler. -/
theorem lifecycleStep_fromOrders {db : DB} (hdb : commissionsFromOrders db = true)
    (request : LifecycleRequest) (now : Int) :
    commissionsFromOrders (lifecycleStep db request now) = true := by
  cases request with
  | placeOrder body =>
    simp only [lifecycleStep]
    rcases postOrders_commissions_fromOrder db body now with h | ⟨c, h, hc⟩
    · unfold commissionsFromOrders at hdb ⊢
      rw [h]; exact hdb
    · unfold commissionsFromOrders at hdb ⊢
      rw [h, List.all_append, hdb]
      simp [hc]
  | simulatePayment orderId =>
    simp only [lifecycleStep]
    rcases simulatePayment_commissions db orderId now with h | ⟨p, h⟩
    · unfold commissionsFromOrders at hdb ⊢
      rw [h]; exact hdb
    · unfold commissionsFromOrders at hdb ⊢
      rw [h]
      exact all_updateFirst p _ _ (fun c hc => fromOrder_markCommissionPayable now hc) _ hdb
  | stripeWebhook event =>
    simp only [lifecycleStep, stripeWebhook_unreached]
    exact hdb
  | adminPay admin parts =>
    simp only [lifecycleStep]
    by_cases h : isAdminPayUrl parts = true
    · rw [if_pos h, adminPay_fromOrders hdb admin now h]
      exact hdb
    · rw [if_neg h]
      exact hdb

/-- The property holds in every database reached by lifecycle requests from one that has it,
in particular from the database `loadDB` creates. -/
theorem runLifecycle_fromOrders (requests : List (LifecycleRequest × Int)) :
    ∀ db : DB, commissionsFromOrders db = true →
      commissionsFromOrders (runLifecycle db requests) = true := by
  induction requests with
  | nil => intro db h; exact h
  | cons request rest ih =>
    intro db h
    exact ih _ (lifecycleStep_fromOrders h request.1 request.2)

theorem loadDBInitial_fromOrders (requests : List (LifecycleRequest × Int)) :
    commissionsFromOrders (runLifecycle loadDBInitial requests) = true :=
  runLifecycle_fromOrders requests loadDBInitial rfl

/-- What one lifecycle request does to a stored commission of a database whose commissions
come from the order handler: it stays at its position and is left as it was, or it is
marked payable by a payment simulation. -/
theorem lifecycleStep_commission {db : DB} (hdb : commissionsFromOrders db = true)
    (request : LifecycleRequest) (now : Int) (i : Nat) (c : Commission)
    (h : db.commissions[i]? = some c) :
    ∃ c', (lifecycleStep db request now).commissions[i]? = some c' ∧
      (c' = c ∨
       ((∃ orderId, request = .simulatePayment orderId) ∧ c' = markCommissionPayable now c)) := by
  cases request with
  | placeOrder body =>
    simp only [lifecycleStep]
    rcases postOrders_commissions db body now with h1 | ⟨extra, h1⟩
    · exact ⟨c, by rw [h1, h], Or.inl rfl⟩
    · exact ⟨c, by rw [h1]; exact getElem?_append_of_some _ _ _ _ h, Or.inl rfl⟩
  | simulatePayment orderId =>
    simp only [lifecycleStep]
    rcases simulatePayment_commissions db orderId now with h1 | ⟨p, h1⟩
    · exact ⟨c, by rw [h1, h], Or.inl rfl⟩
    · obtain ⟨c', hc', hor⟩ := getElem?_updateFirst p (markCommissionPayable now)
        db.commissions i c h
      refine ⟨c', by rw [h1, hc'], ?_⟩
      rcases hor with rfl | rfl
      · exact Or.inl rfl
      · exact Or.inr ⟨⟨_, rfl⟩, rfl⟩
  | stripeWebhook event =>
    simp only [lifecycleStep, stripeWebhook_unreached]
    exact ⟨c, h, Or.inl rfl⟩
  | adminPay admin parts =>
    simp only [lifecycleStep]
    by_cases hurl : isAdminPayUrl parts = true
    · rw [if_pos hurl, adminPay_fromOrders hdb admin now hurl]
      exact ⟨c, h, Or.inl rfl⟩
    · rw [if_neg hurl]
      exact ⟨c, h, Or.inl rfl⟩

/-- C21: under every sequence of order, payment-simulation, Stripe-webhook and admin pay
requests, on a database whose commissions come from the order handler (which the initial
database is and every request preserves), a stored commission keeps its position, id,
orderId and amount, and its status stays as it was or moves from pending to payable: it
never moves backward, and it never becomes paid, because the admin pay action finds no
commission and the webhook branch is not reached. -/
theorem C21_status_moves_forward (requests : List (LifecycleRequest × Int)) :
    ∀ (db : DB) (i : Nat) (c : Commission), commissionsFromOrders db = true →
      db.commissions[i]? = some c →
      ∃ c', (runLifecycle db requests).commissions[i]? = some c' ∧
        c'.id = c.id ∧ c'.orderId = c.orderId ∧ c'.amount = c.amount ∧
        (c'.status = c.status ∨ (c.status = "pending" ∧ c'.status = "payable")) ∧
        c'.status ≠ "paid" := by
  induction requests with
  | nil =>
    intro db i c hdb h
    refine ⟨c, h, rfl, rfl, rfl, Or.inl rfl, ?_⟩
    have hc := fromOrder_status (List.all_eq_true.mp hdb c (List.getElem?_mem h))
    rcases hc with hc | hc <;> rw [hc] <;> decide
  | cons request rest ih =>
    intro db i c hdb h
    have hc := fromOrder_status (List.all_eq_true.mp hdb c (List.getElem?_mem h))
    obtain ⟨c1, hc1, hstep⟩ := lifecycleStep_commission hdb request.1 request.2 i c h
    obtain ⟨c', hc', hid, horder, hamount, hstatus, hpaid⟩ :=
      ih (lifecycleStep db request.1 request.2) i c1
        (lifecycleStep_fromOrders hdb request.1 request.2) hc1
    refine ⟨c', hc', ?_, ?_, ?_, ?_, hpaid⟩
    · rcases hstep with rfl | ⟨-, rfl⟩
      · exact hid
      · exact hid
    · rcases hstep with rfl | ⟨-, rfl⟩
      · exact horder
      · exact horder
    · rcases hstep with rfl | ⟨-, rfl⟩
      · exact hamount
      · exact hamount
    · rcases hstep with rfl | ⟨-, rfl⟩
      · exact hstatus
      · have h1 : (markCommissionPayable request.2 c).status = "payable" := rfl
        rw [h1] at hstatus
        rcases hstatus with h2 | ⟨h2, -⟩
        · rcases hc with hc | hc
          · exact Or.inr ⟨hc, h2⟩
          · exact Or.inl (by rw [h2, hc])
        · exact absurd h2 (by decide)

/-- C21 (witness): the pending commission of order 5 over a payment simulation, an admin
pay request, a new order and a second payment simulation: it is still stored first, with
its id and amount, and it is payable. -/
theorem C21_status_moves_forward_witness :
    ∃ c', (runLifecycle (lifecycleDB "c_5" "pending")
        [(.simulatePayment (some "5"), 6),
         (.adminPay (some adminUser) (payUrl "c_5"), 7),
         (.placeOrder (orderBody [lineItem "p_1" 10 1] none), 8),
         (.simulatePayment (some "5"), 9)]).commissions[0]? = some c' ∧
      c'.id = "c_5" ∧ (c'.status = "pending" ∨ c'.status = "payable") ∧ c'.status ≠ "paid" := by
  obtain ⟨c', hc', hid, -, -, hstatus, hpaid⟩ := C21_status_moves_forward
    [(.simulatePayment (some "5"), 6),
     (.adminPay (some adminUser) (payUrl "c_5"), 7),
     (.placeOrder (orderBody [lineItem "p_1" 10 1] none), 8),
     (.simulatePayment (some "5"), 9)]
    (lifecycleDB "c_5" "pending") 0 (commissionOf "c_5" "pending") (by decide) rfl
  refine ⟨c', hc', hid, ?_, hpaid⟩
  rcases hstatus with h | ⟨-, h⟩
  · exact Or.inl h
  · exact Or.inr h

/-- The run of the C21 witness: the commission goes from pending to payable at the first
payment simulation and stays payable; the admin pay request for its id is answered 404. -/
theorem lifecycle_example :
    (runLifecycle (lifecycleDB "c_5" "pending")
        [(.simulatePayment (some "5"), 6),
         (.adminPay (some adminUser) (payUrl "c_5"), 7),
         (.placeOrder (orderBody [lineItem "p_1" 10 1] none), 8),
         (.simulatePayment (some "5"), 9)]).commissions.map (fun c => (c.id, c.status))
      = [("c_5", "payable"), ("c_8", "pending")] ∧
    isAdminPayUrl (payUrl "c_5") = true := by
  decide!

/-- C22: on a database whose commissions come from the order handler (which the initial
database is and every request preserves), every change of a stored commission's status made
by a handler is from pending to payable and is made by a payment simulation; the admin pay
action changes no commission, so it never takes a pending commission directly to paid, and
an order request and a Stripe webhook request change no status. -/
theorem C22_no_state_skipped (db : DB) (request : LifecycleRequest) (now : Int)
    (i : Nat) (c c' : Commission) (hdb : commissionsFromOrders db = true)
    (h : db.commissions[i]? = some c)
    (h' : (lifecycleStep db request now).commissions[i]? = some c') :
    (c'.status ≠ c.status →
      c.status = "pending" ∧ c'.status = "payable" ∧
        ∃ orderId, request = .simulatePayment orderId) ∧
    (∀ admin parts, request = .adminPay admin parts → c' = c) := by
  have hc := fromOrder_status (List.all_eq_true.mp hdb c (List.getElem?_mem h))
  obtain ⟨c1, hc1, hstep⟩ := lifecycleStep_commission hdb request now i c h
  rw [h'] at hc1
  cases hc1
  constructor
  · intro hchange
    rcases hstep with rfl | ⟨hreq, rfl⟩
    · exact absurd rfl hchange
    · refine ⟨?_, rfl, hreq⟩
      rcases hc with hc | hc
      · exact hc
      · exact absurd (by rw [hc]; rfl) hchange
  · intro admin parts hreq
    rcases hstep with rfl | ⟨⟨orderId, hsim⟩, -⟩
    · rfl
    · rw [hreq] at hsim
      cases hsim

/-- C22 (witness): simulating the payment of order 5 changes the status of its pending
commission, and the change is from pending to payable. -/
theorem C22_no_state_skipped_witness :
    (commissionOf "c_5" "pending").status = "pending" ∧
    ({ commissionOf "c_5" "pending" with status := "payable", payableAt := some 9 }
        : Commission).status = "payable" ∧
    ∃ orderId, LifecycleRequest.simulatePayment (some "5") = .simulatePayment orderId :=
  (C22_no_state_skipped (lifecycleDB "c_5" "pending") (.simulatePayment (some "5")) 9 0
    (commissionOf "c_5" "pending")
    { commissionOf "c_5" "pending" with status := "payable", payableAt := some 9 }
    (by decide) rfl (by decide!)).1 (by decide)

theorem map_code_updateFirst (p : Coupon → Bool) :
    ∀ l : List Coupon, (updateFirst p incrementUsedCount l).map (fun c => c.code)
      = l.map (fun c => c.code) := by
  intro l
  induction l with
  | nil => rfl
  | cons x xs ih =>
    by_cases hx : p x = true
    · simp [updateFirst, hx, incrementUsedCount]
    · simp [updateFirst, hx, ih]

/-- An order request leaves the stored coupon codes as they were. -/
theorem couponCodes_postOrders (db : DB) (body : OrderBody) (now : Int) :
    couponCodes (postOrders db body now).1 = couponCodes db := by
  unfold couponCodes
  rcases postOrders_coupons db body now with h | ⟨code, coupons, c, hcs, -, -, h⟩
  · rw [h]
  · rw [h, hcs]
    simp only [Option.getD_some]
    exact map_code_updateFirst _ _

/-- A coupon creation request leaves the stored codes as they were or appends the code it
asks for, whether or not a stored coupon already carries it. -/
theorem couponCodes_postCoupons (db : DB) (admin : Option User) (body : CouponBody)
    (now : Int) :
    couponCodes (postCoupons db admin body now).1 = couponCodes db ∨
    ∃ code, body.code = some code ∧
      couponCodes (postCoupons db admin body now).1 = couponCodes db ++ [code] := by
  unfold postCoupons
  cases admin with
  | none => exact Or.inl rfl
  | some user =>
    by_cases hrole : user.role = "admin"
    · cases hcode : body.code with
      | none => left; simp [hrole]
      | some code =>
        cases htype : body.discountType with
        | none => left; simp [hrole]
        | some discountType =>
          cases hamount : body.amount with
          | none => left; simp [hrole]
          | some amount =>
            by_cases hempty : code = "" ∨ discountType = ""
            · left; simp [hrole, hempty]
            · cases hcs : db.coupons with
              | none => left; simp [hrole, hempty, hcs]
              | some coupons =>
                right
                refine ⟨code, rfl, ?_⟩
                simp [hrole, hempty, hcs, couponCodes, newCoupon]
    · left
      simp [hrole]

theorem couponCodes_handle_sublist (db : DB) (request : Request × Int)
    (rest : List (Request × Int)) :
    (couponCodes (handle db request.1 request.2) ++ requestedCodes rest).Sublist
      (couponCodes db ++ requestedCodes (request :: rest)) := by
  obtain ⟨request, now⟩ := request
  cases request with
  | placeOrder body =>
    simp only [handle, requestedCodes, couponCodes_postOrders]
    exact List.Sublist.refl _
  | createCoupon admin body =>
    simp only [handle, requestedCodes]
    rcases couponCodes_postCoupons db admin body now with h | ⟨code, hcode, h⟩
    · rw [h]
      exact List.Sublist.append (List.Sublist.refl _) (List.sublist_append_right _ _)
    · rw [h, hcode]
      simp

/-- The stored codes after a sequence of requests are, in order, among the codes stored
before followed by the codes the creation requests ask for. -/
theorem couponCodes_runRequests_sublist (requests : List (Request × Int)) :
    ∀ db : DB, (couponCodes (runRequests db requests)).Sublist
      (couponCodes db ++ requestedCodes requests) := by
  induction requests with
  | nil => intro db; simp [runRequests, requestedCodes]
  | cons request rest ih =>
    intro db
    simp only [runRequests]
    exact (ih _).trans (couponCodes_handle_sublist db request rest)

/-- C26 (counterexample): on a database whose coupons array is empty, so that no two coupons
share a code, two `POST /api/coupons` requests for the code DUP are both accepted and leave
two stored coupons with the code DUP. -/
theorem C26_duplicate_code_counterexample :
    (couponCodes emptyCouponsDB).Nodup ∧
    couponCodes (runRequests emptyCouponsDB
        [(.createCoupon (some adminUser) (limitedCouponBody "DUP" 1), 1),
         (.createCoupon (some adminUser) (limitedCouponBody "DUP" 5), 2)])
      = ["DUP", "DUP"] := by
  decide!

/-- C26 (amended): starting from a database in which no two coupons share a code, no sequence
of `POST /api/orders` requests and of `POST /api/coupons` requests whose codes differ from
one another and from the stored codes produces two stored coupons with the same code. -/
theorem C26_fresh_codes_stay_unique (db : DB) (requests : List (Request × Int))
    (h : (couponCodes db ++ requestedCodes requests).Nodup) :
    (couponCodes (runRequests db requests)).Nodup :=
  List.Nodup.sublist (couponCodes_runRequests_sublist requests db) h

/-- C26 (witness): two coupons with different codes are created and one of them is used. -/
theorem C26_fresh_codes_stay_unique_witness :
    (couponCodes (runRequests emptyCouponsDB
        [(.createCoupon (some adminUser) (limitedCouponBody "ONCE" 1), 1),
         (.createCoupon (some adminUser) (limitedCouponBody "TWICE" 2), 2),
         (.placeOrder (orderBody [lineItem "p_1" 10 1] (some "ONCE")), 3)])).Nodup :=
  C26_fresh_codes_stay_unique emptyCouponsDB
    [(.createCoupon (some adminUser) (limitedCouponBody "ONCE" 1), 1),
     (.createCoupon (some adminUser) (limitedCouponBody "TWICE" 2), 2),
     (.placeOrder (orderBody [lineItem "p_1" 10 1] (some "ONCE")), 3)]
    (by decide)

/-! ## Binary64 rounding

`roundNearest` returns a nearest number of the binary64 grid; from this follow that it is
monotone, that it fixes the numbers of the grid, and the bounds on the rounding error. -/

theorem log2Fuel_spec : ∀ (fuel n : ℕ), n ≤ fuel → 0 < n →
    2 ^ log2Fuel fuel n ≤ n ∧ n < 2 ^ (log2Fuel fuel n + 1) := by
  intro fuel
  induction fuel with
  | zero => intro n h0 h1; omega
  | succ fuel ih =>
    intro n hle hpos
    unfold log2Fuel
    by_cases h2 : n < 2
    · simp only [h2, if_true]
      constructor <;> simp <;> omega
    · simp only [h2, if_false]
      obtain ⟨hl, hu⟩ := ih (n / 2) (by omega) (by omega)
      rw [pow_succ, pow_succ, pow_succ]
      rw [pow_succ] at hu
      constructor <;> omega

theorem floorLog2_spec {x : ℚ} (hx : x ≠ 0) :
    (2 : ℚ) ^ floorLog2 x ≤ |x| ∧ |x| < (2 : ℚ) ^ (floorLog2 x + 1) := by
  have hnum : x.num ≠ 0 := Rat.num_ne_zero.mpr hx
  have hden : 0 < x.den := x.den_pos
  obtain ⟨hn1, hn2⟩ := log2Fuel_spec x.num.natAbs x.num.natAbs (le_refl _)
    (Int.natAbs_pos.mpr hnum)
  obtain ⟨hd1, hd2⟩ := log2Fuel_spec x.den x.den (le_refl _) hden
  set a := log2Fuel x.num.natAbs x.num.natAbs with ha
  set b := log2Fuel x.den x.den with hb
  have hdq : (0 : ℚ) < x.den := by exact_mod_cast hden
  have hxeq : |x| = (x.num.natAbs : ℚ) / (x.den : ℚ) := by
    rw [Nat.cast_natAbs]
    conv_lhs => rw [← Rat.num_div_den x]
    rw [abs_div, abs_of_pos hdq, Int.cast_abs]
  have hn1q : (2 : ℚ) ^ a ≤ (x.num.natAbs : ℚ) := by exact_mod_cast hn1
  have hn2q : (x.num.natAbs : ℚ) < (2 : ℚ) ^ (a + 1) := by exact_mod_cast hn2
  have hd1q : (2 : ℚ) ^ b ≤ (x.den : ℚ) := by exact_mod_cast hd1
  have hd2q : (x.den : ℚ) < (2 : ℚ) ^ (b + 1) := by exact_mod_cast hd2
  have hpa : (0 : ℚ) < 2 ^ a := by positivity
  have hpb : (0 : ℚ) < 2 ^ b := by positivity
  have hl : (2 : ℚ) ^ ((a : ℤ) - (b : ℤ)) = 2 ^ a / 2 ^ b := by
    rw [zpow_sub₀ (by norm_num : (2 : ℚ) ≠ 0), zpow_natCast, zpow_natCast]
  have hlow : (2 : ℚ) ^ ((a : ℤ) - (b : ℤ) - 1) ≤ |x| := by
    rw [zpow_sub₀ (by norm_num : (2 : ℚ) ≠ 0), hl, zpow_one, hxeq, div_div, div_le_div_iff₀
      (by positivity) hdq]
    rw [pow_succ] at hd2q
    nlinarith
  have hup : |x| < (2 : ℚ) ^ ((a : ℤ) - (b : ℤ) + 1) := by
    rw [zpow_add₀ (by norm_num : (2 : ℚ) ≠ 0), hl, zpow_one, hxeq, div_mul_eq_mul_div,
      div_lt_div_iff₀ hdq hpb]
    rw [pow_succ] at hn2q
    nlinarith
  unfold floorLog2
  simp only [← ha, ← hb]
  by_cases hc : (2 : ℚ) ^ ((a : ℤ) - (b : ℤ)) ≤ |x|
  · rw [if_pos hc]
    exact ⟨hc, hup⟩
  · rw [if_neg hc]
    refine ⟨hlow, ?_⟩
    rw [sub_add_cancel]
    exact not_le.mp hc

theorem roundHalfEven_cases (y : ℚ) :
    roundHalfEven y = ⌊y⌋ ∨ roundHalfEven y = ⌊y⌋ + 1 := by
  unfold roundHalfEven
  split_ifs <;> simp

theorem roundHalfEven_nearest (y : ℚ) (n : ℤ) :
    |(roundHalfEven y : ℚ) - y| ≤ |(n : ℚ) - y| := by
  have hf1 := Int.floor_le y
  have hf2 := Int.lt_floor_add_one y
  have hn : (n : ℚ) ≤ ⌊y⌋ ∨ ((⌊y⌋ : ℤ) : ℚ) + 1 ≤ n := by
    rcases le_or_lt n ⌊y⌋ with h | h
    · left; exact_mod_cast h
    · right; exact_mod_cast h
  unfold roundHalfEven
  split_ifs with h1 h2 h3 <;> push_cast <;> rw [abs_le] <;>
    rcases hn with hn | hn
  all_goals first
    | (rw [abs_of_nonpos (by linarith)]; constructor <;> linarith)
    | (rw [abs_of_nonneg (by linarith)]; constructor <;> linarith)

theorem roundHalfEven_near (y : ℚ) : |(roundHalfEven y : ℚ) - y| ≤ 1 / 2 := by
  have hf1 := Int.floor_le y
  have hf2 := Int.lt_floor_add_one y
  unfold roundHalfEven
  split_ifs with h1 h2 h3 <;> push_cast <;> rw [abs_le] <;> constructor <;> linarith

theorem ulp_pos (x : ℚ) : 0 < ulp x := by
  unfold ulp; positivity

theorem binade_ge (x : ℚ) : -1022 ≤ binade x := le_max_right _ _

theorem abs_lt_binade {x : ℚ} (hx : x ≠ 0) : |x| < (2 : ℚ) ^ (binade x + 1) := by
  obtain ⟨-, h⟩ := floorLog2_spec hx
  refine lt_of_lt_of_le h ?_
  exact zpow_le_zpow_right₀ (by norm_num) (by unfold binade; have := le_max_left (floorLog2 x) (-1022); omega)

theorem binade_le_abs {x : ℚ} (hx : x ≠ 0) (h : binade x ≠ -1022) :
    (2 : ℚ) ^ binade x ≤ |x| := by
  obtain ⟨h1, -⟩ := floorLog2_spec hx
  have : binade x = floorLog2 x := by
    unfold binade at h ⊢
    rcases max_cases (floorLog2 x) (-1022) with ⟨h2, -⟩ | ⟨h2, -⟩
    · exact h2
    · exact absurd h2 h
  rw [this]; exact h1

theorem roundNearest_zero : roundNearest 0 = 0 := by
  simp [roundNearest, roundHalfEven]

/-- The rounded value is as near as any multiple of the unit in the last place. -/
theorem roundNearest_nearest_multiple (x : ℚ) (n : ℤ) :
    |roundNearest x - x| ≤ |(n : ℚ) * ulp x - x| := by
  have hu := ulp_pos x
  have h := roundHalfEven_nearest (x / ulp x) n
  have e1 : roundNearest x - x = ((roundHalfEven (x / ulp x) : ℚ) - x / ulp x) * ulp x := by
    unfold roundNearest; field_simp
  have e2 : (n : ℚ) * ulp x - x = ((n : ℚ) - x / ulp x) * ulp x := by field_simp
  rw [e1, e2, abs_mul, abs_mul, abs_of_pos hu]
  exact mul_le_mul_of_nonneg_right h hu.le

theorem roundNearest_near (x : ℚ) : |roundNearest x - x| ≤ ulp x / 2 := by
  have hu := ulp_pos x
  have h := roundHalfEven_near (x / ulp x)
  have e1 : roundNearest x - x = ((roundHalfEven (x / ulp x) : ℚ) - x / ulp x) * ulp x := by
    unfold roundNearest; field_simp
  rw [e1, abs_mul, abs_of_pos hu]
  nlinarith

theorem representable_neg {f : ℚ} (hf : Representable f) : Representable (-f) := by
  obtain ⟨m, k, hm, hk, rfl⟩ := hf
  exact ⟨-m, k, by rwa [abs_neg], hk, by push_cast; ring⟩

theorem representable_int_mul_zpow (m k : ℤ) (hm : |m| ≤ 2 ^ 53) (hk : -1074 ≤ k) :
    Representable (m * (2 : ℚ) ^ k) := ⟨m, k, hm, hk, rfl⟩

theorem representable_zpow (k : ℤ) (hk : -1074 ≤ k) : Representable ((2 : ℚ) ^ k) :=
  ⟨1, k, by norm_num, hk, by simp⟩

theorem representable_int (m : ℤ) (hm : |m| ≤ 2 ^ 53) : Representable (m : ℚ) :=
  ⟨m, 0, hm, by norm_num, by simp⟩

theorem representable_zero : Representable 0 := by
  simpa using representable_int 0 (by norm_num)

theorem representable_one : Representable 1 := by
  simpa using representable_int 1 (by norm_num)

/-- The rounded value is a nearest number of the grid. -/
theorem roundNearest_nearest (x : ℚ) {f : ℚ} (hf : Representable f) :
    |roundNearest x - x| ≤ |f - x| := by
  by_cases hx : x = 0
  · subst hx; simp [roundNearest_zero]
  obtain ⟨m, k, hm, hk, rfl⟩ := hf
  have h2 : (2 : ℚ) ≠ 0 := by norm_num
  by_cases hk2 : binade x - 52 ≤ k
  · -- the number is a multiple of the unit in the last place
    obtain ⟨j, hj⟩ : ∃ j : ℕ, k - (binade x - 52) = j :=
      ⟨(k - (binade x - 52)).toNat, (Int.toNat_of_nonneg (by omega)).symm⟩
    have hmul : (m : ℚ) * (2 : ℚ) ^ k = ((m * 2 ^ j : ℤ) : ℚ) * ulp x := by
      have hk3 : k = (j : ℤ) + (binade x - 52) := by omega
      unfold ulp
      rw [hk3, zpow_add₀ h2, zpow_natCast]
      push_cast
      ring
    rw [hmul]
    exact roundNearest_nearest_multiple x _
  · -- the number is at most the lower end of the binade of x
    have he : binade x ≠ -1022 := by omega
    have hlow := binade_le_abs hx he
    have hfle : |(m : ℚ) * (2 : ℚ) ^ k| ≤ (2 : ℚ) ^ binade x := by
      have hmq : |(m : ℚ)| ≤ 2 ^ 53 := by exact_mod_cast hm
      have hkq : (2 : ℚ) ^ k ≤ (2 : ℚ) ^ (binade x - 53) :=
        zpow_le_zpow_right₀ (by norm_num) (by omega)
      have hpos : (0 : ℚ) < (2 : ℚ) ^ k := by positivity
      have hsplit : (2 : ℚ) ^ binade x = 2 ^ 53 * (2 : ℚ) ^ (binade x - 53) := by
        rw [zpow_sub₀ h2]
        norm_num
        ring
      rw [abs_mul, abs_of_pos hpos, hsplit]
      exact mul_le_mul hmq hkq hpos.le (by norm_num)
    have hend : (2 : ℚ) ^ binade x = ((2 ^ 52 : ℤ) : ℚ) * ulp x := by
      unfold ulp
      rw [zpow_sub₀ h2]
      norm_num
      ring
    rcases lt_or_gt_of_ne hx with hneg | hpos
    · have h1 := roundNearest_nearest_multiple x (-(2 ^ 52))
      have hx' : |x| = -x := abs_of_neg hneg
      have e1 : ((-(2 ^ 52) : ℤ) : ℚ) * ulp x = -(2 : ℚ) ^ binade x := by
        rw [hend]; push_cast; ring
      have h3 : |-(2 : ℚ) ^ binade x - x| = -(2 : ℚ) ^ binade x - x :=
        abs_of_nonneg (by linarith)
      rw [e1, h3] at h1
      have := neg_abs_le ((m : ℚ) * (2 : ℚ) ^ k)
      calc |roundNearest x - x| ≤ -(2 : ℚ) ^ binade x - x := h1
        _ ≤ (m : ℚ) * (2 : ℚ) ^ k - x := by linarith
        _ ≤ |(m : ℚ) * (2 : ℚ) ^ k - x| := le_abs_self _
    · have h1 := roundNearest_nearest_multiple x (2 ^ 52)
      have hx' : |x| = x := abs_of_pos hpos
      have h3 : |(2 : ℚ) ^ binade x - x| = -((2 : ℚ) ^ binade x - x) :=
        abs_of_nonpos (by linarith)
      rw [← hend, h3] at h1
      have := le_abs_self ((m : ℚ) * (2 : ℚ) ^ k)
      calc |roundNearest x - x| ≤ -((2 : ℚ) ^ binade x - x) := h1
        _ ≤ -((m : ℚ) * (2 : ℚ) ^ k - x) := by linarith
        _ ≤ |(m : ℚ) * (2 : ℚ) ^ k - x| := neg_le_abs _

theorem roundNearest_representable (x : ℚ) : Representable (roundNearest x) := by
  refine ⟨roundHalfEven (x / ulp x), binade x - 52, ?_, by have := binade_ge x; omega, rfl⟩
  by_cases hx : x = 0
  · subst hx; simp [roundHalfEven]
  have hu := ulp_pos x
  have hlt := abs_lt_binade hx
  have hsplit : (2 : ℚ) ^ (binade x + 1) = 2 ^ 53 * ulp x := by
    unfold ulp
    rw [zpow_sub₀ (by norm_num : (2 : ℚ) ≠ 0), zpow_add₀ (by norm_num : (2 : ℚ) ≠ 0)]
    norm_num
    ring
  rw [hsplit] at hlt
  have hy : |x / ulp x| < 2 ^ 53 := by
    rw [abs_div, abs_of_pos hu, div_lt_iff₀ hu]
    exact hlt
  obtain ⟨hy1, hy2⟩ := abs_lt.mp hy
  have hf1 : ⌊x / ulp x⌋ < 2 ^ 53 := by
    rw [Int.floor_lt]; exact_mod_cast hy2
  have hf2 : -(2 ^ 53) ≤ ⌊x / ulp x⌋ := by
    rw [Int.le_floor]; push_cast; exact hy1.le
  rw [abs_le]
  rcases roundHalfEven_cases (x / ulp x) with h | h <;> rw [h] <;> constructor <;> omega

theorem roundNearest_of_representable {f : ℚ} (hf : Representable f) : roundNearest f = f := by
  have h := roundNearest_nearest f hf
  rw [sub_self, abs_zero] at h
  have := abs_nonneg (roundNearest f - f)
  have h0 : |roundNearest f - f| = 0 := le_antisymm h this
  exact sub_eq_zero.mp (abs_eq_zero.mp h0)

/-- Rounding to nearest is monotone. -/
theorem roundNearest_mono {x y : ℚ} (h : x ≤ y) : roundNearest x ≤ roundNearest y := by
  by_contra hlt
  push_neg at hlt
  have h1 := roundNearest_nearest x (roundNearest_representable y)
  have h2 := roundNearest_nearest y (roundNearest_representable x)
  have hx : roundNearest y + roundNearest x ≤ 2 * x := by
    by_contra hc
    push_neg at hc
    have : |roundNearest y - x| < roundNearest x - x := by
      rw [abs_lt]; constructor <;> linarith
    have := le_abs_self (roundNearest x - x)
    linarith
  have hy : 2 * y ≤ roundNearest y + roundNearest x := by
    by_contra hc
    push_neg at hc
    have : |roundNearest x - y| < y - roundNearest y := by
      rw [abs_lt]; constructor <;> linarith
    have := neg_le_abs (roundNearest y - y)
    linarith
  have hxy : x = y := by linarith
  subst hxy
  exact lt_irrefl _ hlt

theorem roundNearest_nonneg {x : ℚ} (h : 0 ≤ x) : 0 ≤ roundNearest x := by
  have := roundNearest_mono h
  rwa [roundNearest_zero] at this

theorem roundNearest_nonpos {x : ℚ} (h : x ≤ 0) : roundNearest x ≤ 0 := by
  have := roundNearest_mono h
  rwa [roundNearest_zero] at this

/-- The rounding error of a result below `2 ^ (K + 1)` in absolute value is at most
`2 ^ (K - 53)`. -/
theorem roundNearest_error {x : ℚ} {K : ℤ} (hK : -1022 ≤ K)
    (hb : |roundNearest x| < (2 : ℚ) ^ (K + 1)) : |roundNearest x - x| ≤ (2 : ℚ) ^ (K - 53) := by
  by_cases hx : x = 0
  · subst hx; simp [roundNearest_zero]; positivity
  have he : binade x ≤ K := by
    by_contra hc
    push_neg at hc
    have hne : binade x ≠ -1022 := by omega
    have hlow := binade_le_abs hx hne
    have hpow : (2 : ℚ) ^ (K + 1) ≤ (2 : ℚ) ^ binade x :=
      zpow_le_zpow_right₀ (by norm_num) (by omega)
    have hrep : Representable ((2 : ℚ) ^ (K + 1)) := representable_zpow _ (by omega)
    rcases lt_or_gt_of_ne hx with hneg | hpos
    · rw [abs_of_neg hneg] at hlow
      have h1 : roundNearest x ≤ roundNearest (-(2 : ℚ) ^ (K + 1)) :=
        roundNearest_mono (by linarith)
      rw [roundNearest_of_representable (representable_neg hrep)] at h1
      have := neg_abs_le (roundNearest x)
      linarith
    · rw [abs_of_pos hpos] at hlow
      have h1 : roundNearest ((2 : ℚ) ^ (K + 1)) ≤ roundNearest x :=
        roundNearest_mono (by linarith)
      rw [roundNearest_of_representable hrep] at h1
      have := le_abs_self (roundNearest x)
      linarith
  have hnear := roundNearest_near x
  have hulp : ulp x / 2 ≤ (2 : ℚ) ^ (K - 53) := by
    have : ulp x / 2 = (2 : ℚ) ^ (binade x - 53) := by
      unfold ulp
      rw [zpow_sub₀ (by norm_num : (2 : ℚ) ≠ 0), zpow_sub₀ (by norm_num : (2 : ℚ) ≠ 0)]
      norm_num
      ring
    rw [this]
    exact zpow_le_zpow_right₀ (by norm_num) (by omega)
  linarith

/-- The relative rounding error in the normal range is at most `2 ^ -53`. -/
theorem roundNearest_relative_error {x : ℚ} (hx : (2 : ℚ) ^ (-1022 : ℤ) ≤ |x|) :
    |roundNearest x - x| ≤ |x| / 2 ^ 53 := by
  have hx0 : x ≠ 0 := by
    intro h
    rw [h, abs_zero] at hx
    have : (0 : ℚ) < (2 : ℚ) ^ (-1022 : ℤ) := by positivity
    linarith
  have hlow : (2 : ℚ) ^ binade x ≤ |x| := by
    by_cases he : binade x = -1022
    · rw [he]; exact hx
    · exact binade_le_abs hx0 he
  have hnear := roundNearest_near x
  have : ulp x / 2 = (2 : ℚ) ^ binade x / 2 ^ 53 := by
    unfold ulp
    rw [zpow_sub₀ (by norm_num : (2 : ℚ) ≠ 0)]
    norm_num
    ring
  rw [this] at hnear
  have : (2 : ℚ) ^ binade x / 2 ^ 53 ≤ |x| / 2 ^ 53 :=
    div_le_div_of_nonneg_right hlow (by positivity)
  linarith

/-- Below the normal range the rounding error is at most `2 ^ -1075`. -/
theorem roundNearest_subnormal_error {x : ℚ} (hx : |x| < (2 : ℚ) ^ (-1022 : ℤ)) :
    |roundNearest x - x| ≤ (2 : ℚ) ^ (-1075 : ℤ) := by
  by_cases hx0 : x = 0
  · subst hx0; simp [roundNearest_zero]; positivity
  have he : binade x = -1022 := by
    by_contra hne
    have := binade_le_abs hx0 hne
    have hge := binade_ge x
    have : (2 : ℚ) ^ (-1022 : ℤ) ≤ (2 : ℚ) ^ binade x :=
      zpow_le_zpow_right₀ (by norm_num) hge
    linarith
  have hnear := roundNearest_near x
  have : ulp x / 2 = (2 : ℚ) ^ (-1075 : ℤ) := by
    unfold ulp
    rw [he]
    rw [show (-1022 - 52 : ℤ) = -1075 + 1 by norm_num, zpow_add₀ (by norm_num : (2 : ℚ) ≠ 0)]
    norm_num
  rw [this] at hnear
  exact hnear

/-! ## Binary64 operations and the handler on doubles -/

theorem add64_fin (a b : ℚ) : Binary64.add (fin a) (fin b) = round64 (a + b) := rfl

theorem sub64_fin (a b : ℚ) : Binary64.sub (fin a) (fin b) = round64 (a - b) := by
  simp [Binary64.sub, JSNum.sub, JSNum.neg, JSNum.add, JSNum.round, sub_eq_add_neg]

theorem mul64_fin (a b : ℚ) : Binary64.mul (fin a) (fin b) = round64 (a * b) := rfl

theorem div64_fin (a : ℚ) {b : ℚ} (hb : b ≠ 0) :
    Binary64.div (fin a) (fin b) = round64 (a / b) := by
  simp [Binary64.div, JSNum.div, hb, JSNum.round]

theorem toFixed2_64_nonneg {a : ℚ} (h : 0 ≤ a) :
    Binary64.toFixed2 (fin a) = round64 (halfUp2 a) := by
  unfold Binary64.toFixed2
  rw [JSNum.toFixed2_fin_nonneg h]
  rfl

theorem round64_eq_fin {x f : ℚ} (h : round64 x = fin f) :
    f = roundNearest x ∧ -(2 : ℚ) ^ (1024 : ℕ) < f ∧ f < (2 : ℚ) ^ (1024 : ℕ) := by
  unfold round64 at h
  split_ifs at h with h1 h2
  cases h
  exact ⟨rfl, not_le.mp h2, not_le.mp h1⟩

theorem round64_of_abs_le {x : ℚ} {K : ℕ} (hK : K ≤ 1023) (h : |roundNearest x| ≤ (2 : ℚ) ^ K) :
    round64 x = fin (roundNearest x) := by
  have hpow : (2 : ℚ) ^ K < (2 : ℚ) ^ (1024 : ℕ) :=
    pow_lt_pow_right₀ (by norm_num) (by omega)
  obtain ⟨h1, h2⟩ := abs_le.mp h
  unfold round64
  rw [if_neg (by linarith), if_neg (by linarith)]

theorem representable_of_round64 {x f : ℚ} (h : round64 x = fin f) : Representable f := by
  rw [(round64_eq_fin h).1]
  exact roundNearest_representable x

theorem add64_eq_fin {a b : JSNum} {c : ℚ} (h : Binary64.add a b = fin c) :
    ∃ x y, a = fin x ∧ b = fin y ∧ round64 (x + y) = fin c := by
  cases a <;> cases b <;> simp [Binary64.add, JSNum.add, JSNum.round] at h
  exact ⟨_, _, rfl, rfl, h⟩

theorem representable_two_pow (K : ℕ) : Representable ((2 : ℚ) ^ K) := by
  have := representable_zpow (K : ℤ) (by omega)
  rwa [zpow_natCast] at this

/-- A value between 0 and a number of the grid rounds to a value between them. -/
theorem roundNearest_between {x B : ℚ} (hB : Representable B) (h0 : 0 ≤ x) (hx : x ≤ B) :
    0 ≤ roundNearest x ∧ roundNearest x ≤ B := by
  refine ⟨roundNearest_nonneg h0, ?_⟩
  have := roundNearest_mono hx
  rwa [roundNearest_of_representable hB] at this

/-- The rounding error of a result of absolute value at most `2 ^ K` is at most
`2 ^ K / 2 ^ 53`. -/
theorem roundNearest_error_of_le {x : ℚ} {K : ℕ} (h : |roundNearest x| ≤ (2 : ℚ) ^ K) :
    |roundNearest x - x| ≤ (2 : ℚ) ^ K / 2 ^ 53 := by
  have hlt : |roundNearest x| < (2 : ℚ) ^ ((K : ℤ) + 1) := by
    rw [zpow_add₀ (by norm_num : (2 : ℚ) ≠ 0), zpow_natCast, zpow_one]
    have : (0 : ℚ) < 2 ^ K := by positivity
    linarith
  have := roundNearest_error (K := (K : ℤ)) (by omega) hlt
  have e : (2 : ℚ) ^ (53 : ℤ) = (2 : ℚ) ^ (53 : ℕ) := by norm_num
  rwa [zpow_sub₀ (by norm_num : (2 : ℚ) ≠ 0), zpow_natCast, e] at this

/-- A value between 0 and a number of the grid that is at most `2 ^ K` rounds to a double
between them, with an error of at most `2 ^ K / 2 ^ 53`. -/
theorem round64_between {x B : ℚ} {K : ℕ} (hK : K ≤ 1023) (hB : Representable B)
    (hBK : B ≤ (2 : ℚ) ^ K) (h0 : 0 ≤ x) (hx : x ≤ B) :
    round64 x = fin (roundNearest x) ∧ 0 ≤ roundNearest x ∧ roundNearest x ≤ B ∧
      |roundNearest x - x| ≤ (2 : ℚ) ^ K / 2 ^ 53 := by
  obtain ⟨h1, h2⟩ := roundNearest_between hB h0 hx
  have habs : |roundNearest x| ≤ (2 : ℚ) ^ K := by
    rw [abs_of_nonneg h1]; linarith
  exact ⟨round64_of_abs_le hK habs, h1, h2, roundNearest_error_of_le habs⟩

theorem rate64_congr {db db1 : DB} (hp : db1.products = db.products)
    (hc : db1.config = db.config) (hk : db1.categories = db.categories) (item : Item) :
    Binary64.rate db1 item = Binary64.rate db item := by
  unfold Binary64.rate
  rw [hp, hc, hk]

theorem commissionAmount64_congr {db db1 : DB} (hp : db1.products = db.products)
    (hc : db1.config = db.config) (hk : db1.categories = db.categories)
    (items : List Item) (discount subtotal : JSNum) :
    Binary64.commissionAmount db1 items discount subtotal
      = Binary64.commissionAmount db items discount subtotal := by
  have : Binary64.commissionStep db1 discount subtotal
      = Binary64.commissionStep db discount subtotal := by
    funext acc item
    simp only [Binary64.commissionStep, rate64_congr hp hc hk]
  simp only [Binary64.commissionAmount, this]

theorem applyCoupon64_of_valid {db : DB} {body : OrderBody} {now : Int} {coupon : Coupon}
    (h : validCoupon db body now = some coupon) (s : JSNum) :
    ∃ db1, Binary64.applyCoupon db body s now = .ok (db1, Binary64.couponDiscount coupon s) ∧
      db1.products = db.products ∧ db1.config = db.config ∧ db1.categories = db.categories := by
  unfold validCoupon at h
  unfold Binary64.applyCoupon
  split at h
  · next code coupons hcode hcoupons =>
    rw [hcode, hcoupons]
    simp only
    split at h
    · simp at h
    · next hne =>
      simp only [hne, if_false]
      split at h
      · next c hfind =>
        rw [hfind]
        simp only
        split at h
        · simp at h
        · next hchk =>
          simp only [Bool.or_eq_true, not_or, Bool.not_eq_true] at hchk
          obtain ⟨⟨h1, h2⟩, h3⟩ := hchk
          cases h
          simp [h1, h2, h3]
      · simp at h
  · simp at h

theorem applyCoupon64_error {db : DB} {body : OrderBody} {now : Int} {s : JSNum} {r : Response}
    (h : Binary64.applyCoupon db body s now = .error r) : ∃ st e, r = .failure st e := by
  unfold Binary64.applyCoupon at h
  cases hc : body.couponCode with
  | none => simp [hc] at h
  | some code =>
    cases hcs : db.coupons with
    | none =>
      simp only [hc, hcs] at h
      split_ifs at h
      cases h; exact ⟨_, _, rfl⟩
    | some coupons =>
      simp only [hc, hcs] at h
      cases hf : coupons.find? (fun c => decide (c.code = code)) with
      | none =>
        simp only [hf] at h
        split_ifs at h
        cases h; exact ⟨_, _, rfl⟩
      | some c =>
        simp only [hf] at h
        split_ifs at h <;> cases h <;> exact ⟨_, _, rfl⟩

theorem applyCoupon64_ok {db db1 : DB} {body : OrderBody} {now : Int} {s discount : JSNum}
    (h : Binary64.applyCoupon db body s now = .ok (db1, discount)) :
    (db1.products = db.products ∧ db1.config = db.config ∧ db1.categories = db.categories) ∧
    ((validCoupon db body now = none ∧ discount = fin 0 ∧ db1 = db) ∨
      ∃ c, validCoupon db body now = some c ∧ discount = Binary64.couponDiscount c s) := by
  unfold Binary64.applyCoupon at h
  unfold validCoupon
  cases hc : body.couponCode with
  | none =>
    simp only [hc, Except.ok.injEq, Prod.mk.injEq] at h
    obtain ⟨rfl, rfl⟩ := h
    simp
  | some code =>
    cases hcs : db.coupons with
    | none =>
      simp only [hc, hcs] at h
      split_ifs at h
      simp only [Except.ok.injEq, Prod.mk.injEq] at h
      obtain ⟨rfl, rfl⟩ := h
      simp
    | some coupons =>
      simp only [hc, hcs] at h
      cases hf : coupons.find? (fun c => decide (c.code = code)) with
      | none =>
        simp only [hf] at h
        split_ifs at h with h0
        simp only [Except.ok.injEq, Prod.mk.injEq] at h
        obtain ⟨rfl, rfl⟩ := h
        simp [h0]
      | some c =>
        simp only [hf] at h
        split_ifs at h with h0 h1 h2 h3
        · simp only [Except.ok.injEq, Prod.mk.injEq] at h
          obtain ⟨rfl, rfl⟩ := h
          simp [h0]
        · simp only [Except.ok.injEq, Prod.mk.injEq] at h
          obtain ⟨rfl, rfl⟩ := h
          refine ⟨⟨rfl, rfl, rfl⟩, Or.inr ⟨c, ?_, rfl⟩⟩
          simp [h0, h1, h2, h3, hf]

/-- What every order accepted by the handler on doubles carries: the handler's subtotal,
total and commission, and a discount that is `0` without a coupon and the coupon's discount
with one. -/
theorem postOrders64_created {db db' : DB} {body : OrderBody} {now : Int} {o : Order}
    (h : Binary64.postOrders db body now = (db', .created o)) :
    o.items = body.items.getD [] ∧ o.subtotal = Binary64.subtotal o.items ∧
    o.total = Binary64.toFixed2 (Binary64.sub o.subtotal o.discount) ∧
    o.commissionAmount = Binary64.commissionAmount db o.items o.discount o.subtotal ∧
    ((validCoupon db body now = none ∧ o.discount = fin 0) ∨
      ∃ c, validCoupon db body now = some c ∧
        o.discount = Binary64.couponDiscount c o.subtotal) := by
  unfold Binary64.postOrders at h
  simp only at h
  split at h
  · next r happly =>
    obtain ⟨st, e, rfl⟩ := applyCoupon64_error happly
    simp at h
  · next db1 discount happly =>
    simp only [Prod.mk.injEq, Response.created.injEq] at h
    obtain ⟨-, rfl⟩ := h
    obtain ⟨⟨hp, hcfg, hk⟩, hd⟩ := applyCoupon64_ok happly
    refine ⟨rfl, rfl, rfl, commissionAmount64_congr hp hcfg hk _ _ _, ?_⟩
    rcases hd with ⟨hv, hd, -⟩ | ⟨c, hv, hd⟩
    · exact Or.inl ⟨hv, hd⟩
    · exact Or.inr ⟨c, hv, hd⟩

theorem postOrders64_of_valid {db : DB} {body : OrderBody} {now : Int} {c : Coupon}
    (h : validCoupon db body now = some c) :
    ∃ db' o, Binary64.postOrders db body now = (db', .created o) ∧
      o.items = body.items.getD [] ∧ o.subtotal = Binary64.subtotal (body.items.getD []) ∧
      o.discount = Binary64.couponDiscount c o.subtotal ∧
      o.total = Binary64.toFixed2 (Binary64.sub o.subtotal o.discount) ∧
      o.commissionAmount = Binary64.commissionAmount db o.items o.discount o.subtotal := by
  obtain ⟨db1, happly, hp, hcfg, hk⟩ :=
    applyCoupon64_of_valid h (Binary64.subtotal (body.items.getD []))
  unfold Binary64.postOrders
  simp only [happly]
  exact ⟨_, _, rfl, rfl, rfl, rfl, rfl, commissionAmount64_congr hp hcfg hk _ _ _⟩

/-! ## Error analysis of the commission loop

For values up to `2 ^ 30` every operation on doubles has an error of at most `2 ^ -23`. -/

theorem representable_of_mul64 {a b : JSNum} {t : ℚ} (h : Binary64.mul a b = fin t) :
    Representable t := by
  cases a with
  | fin x =>
    cases b with
    | fin y => exact representable_of_round64 h
    | nan => cases h
    | pinf =>
      simp only [Binary64.mul, JSNum.mul, JSNum.infTimes] at h
      split_ifs at h <;> cases h
    | ninf =>
      simp only [Binary64.mul, JSNum.mul, JSNum.infTimes] at h
      split_ifs at h <;> cases h
  | nan => cases b <;> cases h
  | pinf =>
    cases b with
    | fin y =>
      simp only [Binary64.mul, JSNum.mul, JSNum.infTimes] at h
      split_ifs at h <;> cases h
    | nan => cases h
    | pinf => cases h
    | ninf => cases h
  | ninf =>
    cases b with
    | fin y =>
      simp only [Binary64.mul, JSNum.mul, JSNum.infTimes] at h
      split_ifs at h <;> cases h
    | nan => cases h
    | pinf => cases h
    | ninf => cases h

theorem foldl_add64_acc_fin (f : Item → JSNum) (items : List Item) :
    ∀ (acc : JSNum) (S : ℚ), items.foldl (fun s it => Binary64.add s (f it)) acc = fin S →
      ∃ a, acc = fin a := by
  induction items with
  | nil => intro acc S h; exact ⟨S, h⟩
  | cons x xs ih =>
    intro acc S h
    rw [List.foldl_cons] at h
    obtain ⟨a', ha'⟩ := ih _ _ h
    obtain ⟨a, t, hacc, -, -⟩ := add64_eq_fin ha'
    exact ⟨a, hacc⟩

theorem foldl_add64_items_fin (f : Item → JSNum) (items : List Item) :
    ∀ (acc : JSNum) (S : ℚ), items.foldl (fun s it => Binary64.add s (f it)) acc = fin S →
      ∀ it ∈ items, ∃ t, f it = fin t := by
  induction items with
  | nil => intro acc S _ it hit; simp at hit
  | cons x xs ih =>
    intro acc S h it hit
    rw [List.foldl_cons] at h
    rcases List.mem_cons.mp hit with rfl | hmem
    · obtain ⟨a', ha'⟩ := foldl_add64_acc_fin f xs _ _ h
      obtain ⟨a, t, -, ht, -⟩ := add64_eq_fin ha'
      exact ⟨t, ht⟩
    · exact ih _ _ h it hmem

/-- The running sum of non-negative item totals grows: the final sum is at least the
sum it starts from, and it is a double. -/
theorem foldl_add64_ge (items : List Item) :
    ∀ (s0 Sf : ℚ), (∀ it ∈ items, ∃ t, Binary64.itemTotal it = fin t ∧ 0 ≤ t) →
      Representable s0 →
      items.foldl (fun s it => Binary64.add s (Binary64.itemTotal it)) (fin s0) = fin Sf →
      s0 ≤ Sf ∧ Representable Sf := by
  induction items with
  | nil =>
    intro s0 Sf _ hrep h
    simp only [List.foldl_nil, JSNum.fin.injEq] at h
    subst h
    exact ⟨le_refl _, hrep⟩
  | cons x xs ih =>
    intro s0 Sf hT hrep h
    obtain ⟨t, ht, ht0⟩ := hT x (List.mem_cons_self _ _)
    rw [List.foldl_cons, ht, add64_fin] at h
    obtain ⟨s1, hs1⟩ := foldl_add64_acc_fin _ xs _ _ h
    rw [hs1] at h
    obtain ⟨h1, h2⟩ := ih s1 Sf (fun it hit => hT it (List.mem_cons_of_mem _ hit))
      (representable_of_round64 hs1) h
    refine ⟨?_, h2⟩
    have hmono : roundNearest s0 ≤ roundNearest (s0 + t) := roundNearest_mono (by linarith)
    rw [roundNearest_of_representable hrep, ← (round64_eq_fin hs1).1] at hmono
    linarith

/-- The value one iteration of the commission loop adds: it lies between 0 and the item
total, and it differs from `(1 - discount / subtotal) * itemTotal * rate` by at most
`4 * 2 ^ -23`. -/
theorem stepTerm_bounds {q ρ t r : ℚ} (hq0 : 0 ≤ q) (hq1 : q ≤ 1)
    (hqρ : |q - ρ| ≤ 1 / 2 ^ 53) (ht0 : 0 ≤ t) (ht : t ≤ 2 ^ 30) (hrep : Representable t)
    (hr0 : 0 ≤ r) (hr1 : r ≤ 1) :
    Binary64.mul (Binary64.sub (fin t) (Binary64.mul (fin q) (fin t))) (fin r)
      = fin (Binary64.stepTerm q t r) ∧
    Representable (Binary64.stepTerm q t r) ∧
    0 ≤ Binary64.stepTerm q t r ∧ Binary64.stepTerm q t r ≤ t ∧
    |Binary64.stepTerm q t r - (1 - ρ) * t * r| ≤ 4 / 2 ^ 23 := by
  have hK : (30 : ℕ) ≤ 1023 := by norm_num
  -- the item discount
  obtain ⟨hp, hp0, hp1, hpe⟩ := round64_between hK hrep ht
    (mul_nonneg hq0 ht0) (mul_le_of_le_one_left ht0 hq1)
  -- the net item total
  obtain ⟨hn, hn0, hn1, hne⟩ := round64_between hK hrep ht
    (sub_nonneg.mpr hp1) (by linarith : t - roundNearest (q * t) ≤ t)
  have hnrep := roundNearest_representable (t - roundNearest (q * t))
  have hnb : roundNearest (t - roundNearest (q * t)) ≤ 2 ^ 30 := by linarith
  -- the commission of the item
  obtain ⟨hc, hc0, hc1, hce⟩ := round64_between hK hnrep hnb
    (mul_nonneg hn0 hr0) (mul_le_of_le_one_right hn0 hr1)
  refine ⟨?_, roundNearest_representable _, hc0, by unfold Binary64.stepTerm; linarith, ?_⟩
  · rw [mul64_fin, hp, sub64_fin, hn, mul64_fin, hc]
    rfl
  · unfold Binary64.stepTerm
    set p := roundNearest (q * t) with hpdef
    set n := roundNearest (t - p) with hndef
    set c := roundNearest (n * r) with hcdef
    have hE : (2 : ℚ) ^ 30 / 2 ^ 53 = 1 / 2 ^ 23 := by norm_num
    rw [hE] at hpe hne hce
    have key : c - (1 - ρ) * t * r
        = (c - n * r) + r * (n - (t - p)) - r * (p - q * t) - r * t * (q - ρ) := by ring
    have b1 : |r * (n - (t - p))| ≤ 1 / 2 ^ 23 := by
      rw [abs_mul, abs_of_nonneg hr0]
      calc r * |n - (t - p)| ≤ 1 * |n - (t - p)| :=
            mul_le_mul_of_nonneg_right hr1 (abs_nonneg _)
        _ ≤ 1 / 2 ^ 23 := by rw [one_mul]; exact hne
    have b2 : |r * (p - q * t)| ≤ 1 / 2 ^ 23 := by
      rw [abs_mul, abs_of_nonneg hr0]
      calc r * |p - q * t| ≤ 1 * |p - q * t| :=
            mul_le_mul_of_nonneg_right hr1 (abs_nonneg _)
        _ ≤ 1 / 2 ^ 23 := by rw [one_mul]; exact hpe
    have b3 : |r * t * (q - ρ)| ≤ 1 / 2 ^ 23 := by
      rw [abs_mul, abs_of_nonneg (mul_nonneg hr0 ht0)]
      have h1 : r * t ≤ 2 ^ 30 := by nlinarith
      calc r * t * |q - ρ| ≤ 2 ^ 30 * (1 / 2 ^ 53) :=
            mul_le_mul h1 hqρ (abs_nonneg _) (by norm_num)
        _ = 1 / 2 ^ 23 := by norm_num
    rw [key]
    have t1 := abs_le.mp hce
    have t2 := abs_le.mp b1
    have t3 := abs_le.mp b2
    have t4 := abs_le.mp b3
    rw [abs_le]
    constructor <;> linarith [t1.1, t1.2, t2.1, t2.2, t3.1, t3.2, t4.1, t4.2]

/-- The commission loop on doubles, for non-negative item totals, rates between 0 and 1 and
a subtotal of at most `2 ^ 30`: the accumulated commission is a double between the value it
starts from and the subtotal, the subtotal differs from the exact sum of the item totals by
at most `2 ^ -23` per item, and the accumulated commission differs from the exact sum of
`(1 - discount / subtotal) * itemTotal * rate` by at most `5 * 2 ^ -23` per item. -/
theorem commission_fold64 (db : DB) {S d q : ℚ} (hq : Binary64.div (fin d) (fin S) = fin q)
    (hq0 : 0 ≤ q) (hq1 : q ≤ 1) (hqρ : |q - d / S| ≤ 1 / 2 ^ 53) (items : List Item) :
    ∀ (s0 a0 Sf : ℚ),
      (∀ it ∈ items, ∃ t, Binary64.itemTotal it = fin t ∧ 0 ≤ t ∧ Representable t) →
      (∀ it ∈ items, ∃ r, Binary64.rate db it = fin r ∧ 0 ≤ r ∧ r ≤ 1) →
      Representable s0 → Representable a0 → 0 ≤ a0 → a0 ≤ s0 →
      items.foldl (fun s it => Binary64.add s (Binary64.itemTotal it)) (fin s0) = fin Sf →
      Sf ≤ 2 ^ 30 →
      ∃ af, items.foldl (Binary64.commissionStep db (fin d) (fin S)) (fin a0) = fin af ∧
        Representable af ∧ a0 ≤ af ∧ af ≤ Sf ∧
        |Sf - (s0 + (items.map (fun it => (Binary64.itemTotal it).toRat)).sum)|
          ≤ items.length / 2 ^ 23 ∧
        |af - (a0 + (items.map (fun it => (1 - d / S) * (Binary64.itemTotal it).toRat
              * (Binary64.rate db it).toRat)).sum)| ≤ 5 * items.length / 2 ^ 23 := by
  induction items with
  | nil =>
    intro s0 a0 Sf _ _ _ ha hpos hle h _
    simp only [List.foldl_nil, JSNum.fin.injEq] at h
    subst h
    exact ⟨a0, rfl, ha, le_refl _, hle, by simp, by simp⟩
  | cons x xs ih =>
    intro s0 a0 Sf hT hR hs0 ha0 hpos hle h hSf
    obtain ⟨t, ht, ht0, htrep⟩ := hT x (List.mem_cons_self _ _)
    obtain ⟨r, hr, hr0, hr1⟩ := hR x (List.mem_cons_self _ _)
    have hT' : ∀ it ∈ xs, ∃ t, Binary64.itemTotal it = fin t ∧ 0 ≤ t ∧ Representable t :=
      fun it hit => hT it (List.mem_cons_of_mem _ hit)
    have hR' : ∀ it ∈ xs, ∃ r, Binary64.rate db it = fin r ∧ 0 ≤ r ∧ r ≤ 1 :=
      fun it hit => hR it (List.mem_cons_of_mem _ hit)
    rw [List.foldl_cons, ht, add64_fin] at h
    obtain ⟨s1, hs1⟩ := foldl_add64_acc_fin _ xs _ _ h
    rw [hs1] at h
    have hs1eq := (round64_eq_fin hs1).1
    have hs1rep := representable_of_round64 hs1
    obtain ⟨hs1Sf, -⟩ := foldl_add64_ge xs s1 Sf
      (fun it hit => by obtain ⟨t', h1, h2, -⟩ := hT' it hit; exact ⟨t', h1, h2⟩) hs1rep h
    -- the running subtotal grows
    have hs0s1 : s0 ≤ s1 := by
      have := roundNearest_mono (by linarith : s0 ≤ s0 + t)
      rwa [roundNearest_of_representable hs0, ← hs1eq] at this
    have hts1 : t ≤ s1 := by
      have := roundNearest_mono (by linarith : t ≤ s0 + t)
      rwa [roundNearest_of_representable htrep, ← hs1eq] at this
    have hs1abs : |roundNearest (s0 + t)| ≤ (2 : ℚ) ^ 30 := by
      rw [← hs1eq, abs_of_nonneg (by linarith)]; linarith
    have hs1err := roundNearest_error_of_le hs1abs
    rw [← hs1eq] at hs1err
    -- the commission of the item
    obtain ⟨hstep, hcrep, hc0, hc1, hcerr⟩ :=
      stepTerm_bounds (ρ := d / S) hq0 hq1 hqρ ht0 (by linarith : t ≤ 2 ^ 30) htrep hr0 hr1
    set c := Binary64.stepTerm q t r with hcdef
    have hstepeq : Binary64.commissionStep db (fin d) (fin S) (fin a0) x
        = round64 (a0 + c) := by
      unfold Binary64.commissionStep
      simp only [hr, ht, hq, hstep]
      rfl
    -- the running commission
    have ha1_nonneg : 0 ≤ roundNearest (a0 + c) := roundNearest_nonneg (by linarith)
    have ha1_le : roundNearest (a0 + c) ≤ s1 := by
      rw [hs1eq]; exact roundNearest_mono (by linarith)
    have ha0a1 : a0 ≤ roundNearest (a0 + c) := by
      have := roundNearest_mono (by linarith : a0 ≤ a0 + c)
      rwa [roundNearest_of_representable ha0] at this
    have ha1abs : |roundNearest (a0 + c)| ≤ (2 : ℚ) ^ 30 := by
      rw [abs_of_nonneg ha1_nonneg]; linarith
    have ha1 : round64 (a0 + c) = fin (roundNearest (a0 + c)) :=
      round64_of_abs_le (by norm_num) ha1abs
    have ha1err := roundNearest_error_of_le ha1abs
    obtain ⟨af, hfold, hafrep, ha1af, hafSf, herrS, herrA⟩ :=
      ih s1 (roundNearest (a0 + c)) Sf hT' hR' hs1rep (roundNearest_representable _)
        ha1_nonneg ha1_le h hSf
    refine ⟨af, ?_, hafrep, by linarith, hafSf, ?_, ?_⟩
    · rw [List.foldl_cons, hstepeq, ha1]
      exact hfold
    · simp only [List.map_cons, List.sum_cons, List.length_cons, ht, JSNum.toRat_fin]
      push_cast
      have hE : (2 : ℚ) ^ 30 / 2 ^ 53 = 1 / 2 ^ 23 := by norm_num
      rw [hE] at hs1err
      have t1 := abs_le.mp herrS
      have t2 := abs_le.mp hs1err
      rw [abs_le]
      constructor <;> linarith [t1.1, t1.2, t2.1, t2.2]
    · simp only [List.map_cons, List.sum_cons, List.length_cons, ht, hr, JSNum.toRat_fin]
      push_cast
      have hE : (2 : ℚ) ^ 30 / 2 ^ 53 = 1 / 2 ^ 23 := by norm_num
      rw [hE] at ha1err
      have t1 := abs_le.mp herrA
      have t2 := abs_le.mp ha1err
      have t3 := abs_le.mp hcerr
      rw [abs_le]
      constructor <;> linarith [t1.1, t1.2, t2.1, t2.2, t3.1, t3.2]

theorem itemTotal64_nonneg {it : Item} {p q t : ℚ} (hp : it.price = some (fin p))
    (hq : it.qty = some (fin q)) (hp0 : 0 ≤ p) (hq0 : 0 ≤ q)
    (ht : Binary64.itemTotal it = fin t) : 0 ≤ t ∧ Representable t := by
  refine ⟨?_, representable_of_mul64 ht⟩
  unfold Binary64.itemTotal at ht
  rw [hp, hq] at ht
  have key : ∀ a b : ℚ, 0 ≤ a → 0 ≤ b → Binary64.mul (fin a) (fin b) = fin t → 0 ≤ t := by
    intro a b ha hb h
    rw [mul64_fin] at h
    rw [(round64_eq_fin h).1]
    exact roundNearest_nonneg (mul_nonneg ha hb)
  by_cases hpz : p = 0 <;> by_cases hqz : q = 0 <;>
    simp only [JSNum.orElse, JSNum.truthy, hpz, hqz, ne_eq, not_true_eq_false, decide_False,
      decide_True, not_false_eq_true, Bool.false_eq_true, if_false, if_true] at ht
  · exact key 0 1 (le_refl _) (by norm_num) ht
  · exact key 0 q (le_refl _) hq0 ht
  · exact key p 1 hp0 (by norm_num) ht
  · exact key p q hp0 hq0 ht

theorem foldl_add64_representable (f : Item → JSNum) (items : List Item) :
    ∀ (acc : JSNum) (S : ℚ), (∀ a, acc = fin a → Representable a) →
      items.foldl (fun s it => Binary64.add s (f it)) acc = fin S → Representable S := by
  induction items with
  | nil => intro acc S hacc h; exact hacc S h
  | cons x xs ih =>
    intro acc S _ h
    rw [List.foldl_cons] at h
    refine ih _ S ?_ h
    intro a ha
    obtain ⟨u, v, -, -, huv⟩ := add64_eq_fin ha
    exact representable_of_round64 huv

theorem subtotal64_representable {items : List Item} {S : ℚ}
    (h : Binary64.subtotal items = fin S) : Representable S :=
  foldl_add64_representable _ items (fin 0) S
    (fun a ha => by cases ha; exact representable_zero) h

/-- The item totals of an order with a finite subtotal and non-negative prices and
quantities are non-negative doubles. -/
theorem itemTotals64_of_subtotal {items : List Item} {S : ℚ}
    (hS : Binary64.subtotal items = fin S)
    (hitems : ∀ it ∈ items,
      ∃ p q : ℚ, it.price = some (fin p) ∧ it.qty = some (fin q) ∧ 0 ≤ p ∧ 0 ≤ q) :
    ∀ it ∈ items, ∃ t, Binary64.itemTotal it = fin t ∧ 0 ≤ t ∧ Representable t := by
  intro it hit
  obtain ⟨t, ht⟩ := foldl_add64_items_fin Binary64.itemTotal items (fin 0) S hS it hit
  obtain ⟨p, q, hp, hq, hp0, hq0⟩ := hitems it hit
  obtain ⟨h1, h2⟩ := itemTotal64_nonneg hp hq hp0 hq0 ht
  exact ⟨t, ht, h1, h2⟩

/-- The share `discount / subtotal` on doubles, for `0 <= discount <= subtotal`: a double
between 0 and 1 within `2 ^ -53` of the exact quotient. -/
theorem div64_share {d S : ℚ} (hS : 0 < S) (hd0 : 0 ≤ d) (hd1 : d ≤ S) :
    ∃ q, Binary64.div (fin d) (fin S) = fin q ∧ 0 ≤ q ∧ q ≤ 1 ∧ |q - d / S| ≤ 1 / 2 ^ 53 := by
  obtain ⟨h1, h2, h3, h4⟩ := round64_between (K := 0) (by norm_num) representable_one
    (by norm_num) (div_nonneg hd0 hS.le) ((div_le_one hS).mpr hd1)
  refine ⟨roundNearest (d / S), ?_, h2, h3, ?_⟩
  · rw [div64_fin d hS.ne', h1]
  · simpa using h4

theorem halfUp2_le_two_pow {a : ℚ} (h : a ≤ 2 ^ 30) : halfUp2 a ≤ 2 ^ 30 := by
  have := halfUp2_mono h
  have e : ((2 : ℚ) ^ 30) = ((107374182400 : ℤ) : ℚ) / 100 := by norm_num
  rw [e, halfUp2_of_int_cents] at this
  rw [e]
  exact this

/-- The order's commission on doubles, for a subtotal `0 < S <= 2 ^ 30`, a discount
`0 <= d <= S`, non-negative item totals and rates between 0 and 1: the accumulated value `a`
before the final rounding lies between 0 and `S`, `commissionAmount` is the double nearest to
its rounding to cents, and the errors of the two sums are bounded per item. -/
theorem commissionAmount64_analysis (db : DB) (items : List Item) {S d : ℚ}
    (hS : Binary64.subtotal items = fin S) (hpos : 0 < S) (hle : S ≤ 2 ^ 30)
    (hd0 : 0 ≤ d) (hd1 : d ≤ S)
    (hitems : ∀ it ∈ items,
      ∃ p q : ℚ, it.price = some (fin p) ∧ it.qty = some (fin q) ∧ 0 ≤ p ∧ 0 ≤ q)
    (hrates : ∀ it ∈ items, ∃ r : ℚ, Binary64.rate db it = fin r ∧ 0 ≤ r ∧ r ≤ 1) :
    ∃ a, Binary64.commissionAmount db items (fin d) (fin S) = round64 (halfUp2 a) ∧
      round64 (halfUp2 a) = fin (roundNearest (halfUp2 a)) ∧
      0 ≤ a ∧ a ≤ S ∧
      |roundNearest (halfUp2 a) - halfUp2 a| ≤ 1 / 2 ^ 23 ∧
      |S - (items.map (fun it => (Binary64.itemTotal it).toRat)).sum|
        ≤ items.length / 2 ^ 23 ∧
      |a - (items.map (fun it => (1 - d / S) * (Binary64.itemTotal it).toRat
            * (Binary64.rate db it).toRat)).sum| ≤ 5 * items.length / 2 ^ 23 := by
  obtain ⟨q, hq, hq0, hq1, hqρ⟩ := div64_share hpos hd0 hd1
  obtain ⟨a, hfold, -, ha0, haS, herrS, herrA⟩ :=
    commission_fold64 db hq hq0 hq1 hqρ items 0 0 S (itemTotals64_of_subtotal hS hitems) hrates
      representable_zero representable_zero (le_refl _) (le_refl _) hS hle
  rw [zero_add] at herrS herrA
  obtain ⟨h1, -, -, h4⟩ := round64_between (K := 30) (by norm_num) (representable_two_pow 30)
    (le_refl _) (halfUp2_nonneg ha0) (halfUp2_le_two_pow (by linarith))
  refine ⟨a, ?_, h1, ha0, haS, ?_, herrS, herrA⟩
  · unfold Binary64.commissionAmount
    rw [hfold, toFixed2_64_nonneg ha0]
  · have hE : (2 : ℚ) ^ 30 / 2 ^ 53 = 1 / 2 ^ 23 := by norm_num
    rwa [hE] at h4

/-! ## Claims on the arithmetic of the handler

The claims on the values of discount, total and commission are settled on the handler with
binary64 arithmetic, `Binary64.postOrders`. -/

theorem exampleOrder_created :
    Binary64.postOrders Binary64.shop
        (orderBody [Binary64.lineItem "p_1" (49999 / 100) 1] (some "TEN")) 5
      = ((Binary64.postOrders Binary64.shop
            (orderBody [Binary64.lineItem "p_1" (49999 / 100) 1] (some "TEN")) 5).1,
         .created Binary64.exampleOrder) := by
  decide!

/-- C3 (counterexample): the 10% coupon on the subtotal 10.75 (one line of that price).
S * A / 100 is 1.075 and rounds half-up to 1.08, but the product of the doubles 10.75 and
10 / 100 is a double just below 1.075 and the handler stores the discount 1.07. And the
100% coupon on the subtotal 0.125: the product 0.125 rounds to 0.13, which exceeds the
subtotal, so the stored discount is the subtotal 0.125. -/
theorem C3_binary_product_counterexample :
    validCoupon Binary64.shop (orderBody [lineItem "p_1" (43 / 4) 1] (some "TEN")) 0
      = some (plainCoupon "TEN" "percentage" 10) ∧
    (Binary64.postOrders Binary64.shop
        (orderBody [lineItem "p_1" (43 / 4) 1] (some "TEN")) 0).2.pricing?
      = some (fin (43 / 4), Binary64.num (107 / 100), Binary64.num (968 / 100),
          Binary64.num (97 / 100)) ∧
    halfUp2 (43 / 4 * 10 / 100) = 108 / 100 ∧
    Binary64.num (107 / 100) ≠ Binary64.num (108 / 100) ∧
    (Binary64.postOrders Binary64.shop
        (orderBody [lineItem "p_1" (1 / 8) 1] (some "ALL")) 0).2.pricing?
      = some (fin (1 / 8), fin (1 / 8), fin 0, fin 0) ∧
    halfUp2 (1 / 8 * 100 / 100) = 13 / 100 := by
  decide!

/-- C3 (amended): for every valid percentage coupon of amount A with 0 <= A <= 100 and
every subtotal 0 <= S <= 2^30, the order is accepted by the handler on doubles with a
discount d that lies between 0 and S, is S itself or a whole number of cents (the double
nearest to n / 100), and differs from S * A / 100 by at most half a cent plus 3 * 2^-23. -/
theorem C3_percentage_discount_binary64 (db : DB) (body : OrderBody) (now : Int) (c : Coupon)
    (S A : ℚ) (hv : validCoupon db body now = some c) (hp : c.discountType = "percentage")
    (hA : c.amount = fin A) (hA0 : 0 ≤ A) (hA1 : A ≤ 100)
    (hS : Binary64.subtotal (body.items.getD []) = fin S) (hS0 : 0 ≤ S) (hle : S ≤ 2 ^ 30) :
    ∃ db' o d, Binary64.postOrders db body now = (db', .created o) ∧ o.discount = fin d ∧
      0 ≤ d ∧ d ≤ S ∧ (d = S ∨ ∃ n : ℤ, fin d = Binary64.num (n / 100)) ∧
      |d - S * A / 100| ≤ 1 / 200 + 3 / 2 ^ 23 := by
  obtain ⟨db', o, hpost, -, hsub, hdisc, -, -⟩ := postOrders64_of_valid hv
  rw [hS] at hsub
  have hSrep := subtotal64_representable hS
  have hE : (2 : ℚ) ^ 30 / 2 ^ 53 = 1 / 2 ^ 23 := by norm_num
  -- the fraction A / 100
  obtain ⟨hq, hq0, hq1, hqe⟩ := round64_between (K := 0) (by norm_num) representable_one
    (by norm_num) (by positivity : (0 : ℚ) ≤ A / 100) (by linarith : A / 100 ≤ 1)
  set q := roundNearest (A / 100) with hqdef
  -- the product
  obtain ⟨hprod, hp0, hp1, hpe⟩ := round64_between (K := 30) (by norm_num) hSrep hle
    (mul_nonneg hS0 hq0) (mul_le_of_le_one_right hS0 hq1)
  set p := roundNearest (S * q) with hpdef
  -- its rounding to cents
  obtain ⟨hcents, hc0, -, hce⟩ := round64_between (K := 30) (by norm_num)
    (representable_two_pow 30) (le_refl _) (halfUp2_nonneg hp0)
    (halfUp2_le_two_pow (by linarith))
  set d0 := roundNearest (halfUp2 p) with hd0def
  rw [hE] at hpe hce
  have hrounded : Binary64.toFixed2 (Binary64.mul (fin S) (Binary64.div (fin A) (fin 100)))
      = fin d0 := by
    rw [div64_fin A (by norm_num : (100 : ℚ) ≠ 0), hq, mul64_fin, hprod,
      toFixed2_64_nonneg hp0, hcents]
  have hnear := halfUp2_near p
  have hqe' : |S * (q - A / 100)| ≤ 1 / 2 ^ 23 := by
    rw [abs_mul, abs_of_nonneg hS0]
    calc S * |q - A / 100| ≤ 2 ^ 30 * (2 ^ 0 / 2 ^ 53) :=
          mul_le_mul hle hqe (abs_nonneg _) (by norm_num)
      _ = 1 / 2 ^ 23 := by norm_num
  have hx : S * A / 100 ≤ S := by
    have : S * A / 100 = S * (A / 100) := by ring
    rw [this]
    exact mul_le_of_le_one_right hS0 (by linarith)
  have t1 := abs_le.mp hce
  have t2 := abs_le.mp hnear
  have t3 := abs_le.mp hpe
  have t4 := abs_le.mp hqe'
  have key : d0 - S * A / 100
      = (d0 - halfUp2 p) + (halfUp2 p - p) + (p - S * q) + S * (q - A / 100) := by ring
  have hd0x : |d0 - S * A / 100| ≤ 1 / 200 + 3 / 2 ^ 23 := by
    rw [key, abs_le]
    constructor <;> linarith [t1.1, t1.2, t2.1, t2.2, t3.1, t3.2, t4.1, t4.2]
  have hdeq : o.discount = if S < d0 then fin S else fin d0 := by
    rw [hdisc, hsub]
    unfold Binary64.couponDiscount
    simp only [if_pos hp, hA, hrounded, JSNum.gt, JSNum.lt, decide_eq_true_eq]
  by_cases hgt : S < d0
  · rw [if_pos hgt] at hdeq
    refine ⟨db', o, S, hpost, hdeq, hS0, le_refl _, Or.inl rfl, ?_⟩
    have := abs_le.mp hd0x
    rw [abs_le]
    constructor <;> linarith [this.1, this.2]
  · rw [if_neg hgt] at hdeq
    refine ⟨db', o, d0, hpost, hdeq, hc0, not_lt.mp hgt, Or.inr ⟨⌊p * 100 + 1 / 2⌋, ?_⟩, hd0x⟩
    rw [← hcents]
    rfl

/-- C3 (witness): amount 10 on the subtotal 499.99: the order of the example, whose
discount is 50.00. -/
theorem C3_percentage_discount_binary64_witness :
    Binary64.exampleOrder.discount = fin 50 ∧
    ∃ db' o d, Binary64.postOrders Binary64.shop
        (orderBody [Binary64.lineItem "p_1" (49999 / 100) 1] (some "TEN")) 5
        = (db', .created o) ∧ o.discount = fin d ∧
      0 ≤ d ∧ d ≤ (Binary64.num (49999 / 100)).toRat ∧
      (d = (Binary64.num (49999 / 100)).toRat ∨ ∃ n : ℤ, fin d = Binary64.num (n / 100)) ∧
      |d - (Binary64.num (49999 / 100)).toRat * 10 / 100| ≤ 1 / 200 + 3 / 2 ^ 23 :=
  ⟨rfl,
   C3_percentage_discount_binary64 Binary64.shop
    (orderBody [Binary64.lineItem "p_1" (49999 / 100) 1] (some "TEN")) 5
    (plainCoupon "TEN" "percentage" 10) (Binary64.num (49999 / 100)).toRat 10
    (by decide!) rfl rfl (by norm_num) (by norm_num) (by decide!) (by decide!) (by decide!)⟩

/-- C4 (counterexample): one line of 0.625 with the fixed coupon of 0.06. The stored
subtotal is 0.625 and the stored discount is the double nearest to 0.06, which lies below
0.06; their difference, a little above 0.565, rounds to 0.57. The handler stores the total
0.56, and 0.56 is more than half a cent away from that difference: the difference of the two
doubles is itself rounded to a double, which lies below 0.565. -/
theorem C4_binary_difference_counterexample :
    (Binary64.postOrders Binary64.shop
        (orderBody [lineItem "p_1" (5 / 8) 1] (some "SIX")) 0).2.pricing?
      = some (fin (5 / 8), Binary64.num (6 / 100), Binary64.num (56 / 100),
          Binary64.num (6 / 100)) ∧
    halfUp2 (5 / 8 - (Binary64.num (6 / 100)).toRat) = 57 / 100 ∧
    Binary64.num (56 / 100) ≠ Binary64.num (57 / 100) ∧
    1 / 200 < |(56 / 100 : ℚ) - (5 / 8 - (Binary64.num (6 / 100)).toRat)| := by
  decide!

/-- C4 (amended): every order accepted by the handler on doubles has total =
`+(subtotal - discount).toFixed(2)` on the subtotal and discount stored in the same order;
when their difference is at most 2^30 in absolute value the total is a whole number of
cents (the double nearest to n / 100) within half a cent plus 2^-23 of the difference; and
when subtotal and discount are themselves whole numbers of cents a >= b >= 0 (the
doubles nearest to a / 100 and b / 100, up to 2^30) the total is exactly the double nearest
to (a - b) / 100. -/
theorem C4_total_binary64 (db db' : DB) (body : OrderBody) (now : Int) (o : Order)
    (h : Binary64.postOrders db body now = (db', .created o)) :
    o.total = Binary64.toFixed2 (Binary64.sub o.subtotal o.discount) ∧
    (∀ s d : ℚ, o.subtotal = fin s → o.discount = fin d → |s - d| ≤ 2 ^ 30 →
      ∃ n : ℤ, o.total = Binary64.num (n / 100) ∧
        |(n : ℚ) / 100 - (s - d)| ≤ 1 / 200 + 1 / 2 ^ 23) ∧
    (∀ a b : ℤ, 0 ≤ b → b ≤ a → (a : ℚ) / 100 ≤ 2 ^ 30 →
      o.subtotal = Binary64.num (a / 100) → o.discount = Binary64.num (b / 100) →
      o.total = Binary64.num ((a - b : ℤ) / 100)) := by
  obtain ⟨-, -, htotal, -, -⟩ := postOrders64_created h
  have hE : (2 : ℚ) ^ 30 / 2 ^ 53 = 1 / 2 ^ 23 := by norm_num
  have hrep30 := representable_two_pow 30
  refine ⟨htotal, ?_, ?_⟩
  · intro s d hs hd hdiff
    obtain ⟨hlo, hhi⟩ := abs_le.mp hdiff
    have hw1 : -(2 : ℚ) ^ 30 ≤ roundNearest (s - d) := by
      have := roundNearest_mono hlo
      rwa [roundNearest_of_representable (representable_neg hrep30)] at this
    have hw2 : roundNearest (s - d) ≤ (2 : ℚ) ^ 30 := by
      have := roundNearest_mono hhi
      rwa [roundNearest_of_representable hrep30] at this
    have hwabs : |roundNearest (s - d)| ≤ (2 : ℚ) ^ 30 := abs_le.mpr ⟨hw1, hw2⟩
    have hw := round64_of_abs_le (K := 30) (by norm_num) hwabs
    have hwerr := roundNearest_error_of_le hwabs
    rw [hE] at hwerr
    set w := roundNearest (s - d) with hwdef
    rw [hs, hd, sub64_fin, hw] at htotal
    have t1 := abs_le.mp hwerr
    by_cases hneg : w < 0
    · refine ⟨-⌊-w * 100 + 1 / 2⌋, ?_, ?_⟩
      · rw [htotal]
        unfold Binary64.toFixed2 Binary64.num
        simp only [JSNum.toFixed2, nearestCents, if_pos hneg, JSNum.round]
        congr 1
      · have hnear := halfUp2_near (-w)
        unfold halfUp2 at hnear
        have t2 := abs_le.mp hnear
        push_cast
        rw [abs_le]
        constructor <;> linarith [t1.1, t1.2, t2.1, t2.2]
    · have h0 : 0 ≤ w := not_lt.mp hneg
      refine ⟨⌊w * 100 + 1 / 2⌋, ?_, ?_⟩
      · rw [htotal, toFixed2_64_nonneg h0]; rfl
      · have hnear := halfUp2_near w
        unfold halfUp2 at hnear
        have t2 := abs_le.mp hnear
        rw [abs_le]
        constructor <;> linarith [t1.1, t1.2, t2.1, t2.2]
  · intro a b hb hba ha hs hd
    have hbq : (0 : ℚ) ≤ (b : ℚ) / 100 := by
      have : (0 : ℚ) ≤ (b : ℚ) := by exact_mod_cast hb
      positivity
    have hbaq : (b : ℚ) / 100 ≤ (a : ℚ) / 100 := by
      have : (b : ℚ) ≤ (a : ℚ) := by exact_mod_cast hba
      linarith
    -- the stored subtotal and discount
    obtain ⟨hsv, hs0, hs1, hserr⟩ := round64_between (K := 30) (by norm_num) hrep30
      (le_refl _) (by linarith : (0 : ℚ) ≤ (a : ℚ) / 100) ha
    obtain ⟨hdv, hd0, hd1, hderr⟩ := round64_between (K := 30) (by norm_num) hrep30
      (le_refl _) hbq (by linarith : (b : ℚ) / 100 ≤ 2 ^ 30)
    have hds : roundNearest ((b : ℚ) / 100) ≤ roundNearest ((a : ℚ) / 100) :=
      roundNearest_mono hbaq
    set s := roundNearest ((a : ℚ) / 100) with hsdef
    set d := roundNearest ((b : ℚ) / 100) with hddef
    -- their difference
    obtain ⟨hw, hw0, hw1, hwerr⟩ := round64_between (K := 30) (by norm_num)
      (roundNearest_representable ((a : ℚ) / 100)) hs1 (sub_nonneg.mpr hds)
      (by linarith : s - d ≤ s)
    set w := roundNearest (s - d) with hwdef
    rw [hE] at hserr hderr hwerr
    have t1 := abs_le.mp hserr
    have t2 := abs_le.mp hderr
    have t3 := abs_le.mp hwerr
    have hfloor : ⌊w * 100 + 1 / 2⌋ = a - b := by
      rw [Int.floor_eq_iff]
      push_cast
      constructor <;> linarith [t1.1, t1.2, t2.1, t2.2, t3.1, t3.2]
    unfold Binary64.num at hs hd
    rw [hs, hd, hsv, hdv, sub64_fin, hw, toFixed2_64_nonneg hw0] at htotal
    rw [htotal]
    unfold halfUp2 Binary64.num
    rw [hfloor]

/-- C4 (witness): the order of the example stores subtotal 499.99 and discount 50.00, which
are 49999 and 5000 cents, and its total is 449.99. -/
theorem C4_total_binary64_witness :
    Binary64.exampleOrder.total = Binary64.num ((49999 - 5000 : ℤ) / 100) ∧
    Binary64.num ((49999 - 5000 : ℤ) / 100) = Binary64.num (44999 / 100) :=
  ⟨(C4_total_binary64 Binary64.shop
      (Binary64.postOrders Binary64.shop
        (orderBody [Binary64.lineItem "p_1" (49999 / 100) 1] (some "TEN")) 5).1
      (orderBody [Binary64.lineItem "p_1" (49999 / 100) 1] (some "TEN")) 5 Binary64.exampleOrder
      exampleOrder_created).2.2 49999 5000 (by norm_num) (by norm_num) (by norm_num)
      (by decide!) (by decide!),
   by decide!⟩

/-- C9 (counterexample): one line of price 10.75 at the rate 0.1, without a coupon. The
subtotal is 10.75 and the discount 0, so (subtotal - discount) * r rounded to 2 decimals is
1.08, for the stored rate (the double nearest to 0.1) as for the exact 0.1; the handler
stores the commission 1.07, because the product of the two doubles rounds to a double just
below 1.075. -/
theorem C9_binary_product_counterexample :
    (Binary64.postOrders Binary64.shop (orderBody [lineItem "p_1" (43 / 4) 1] none) 0).2.pricing?
      = some (fin (43 / 4), fin 0, fin (43 / 4), Binary64.num (107 / 100)) ∧
    Binary64.rate Binary64.shop (lineItem "p_1" (43 / 4) 1) = Binary64.num (1 / 10) ∧
    halfUp2 ((43 / 4 - 0) * (Binary64.num (1 / 10)).toRat) = 108 / 100 ∧
    halfUp2 ((43 / 4 - 0) * (1 / 10)) = 108 / 100 ∧
    Binary64.num (107 / 100) ≠ Binary64.num (108 / 100) := by
  decide!

/-- C9 (amended): for every order accepted by the handler on doubles with a subtotal
0 < S <= 2^30, a discount 0 <= d <= S, non-negative prices and quantities, and line items
that all resolve to the same rate r with 0 <= r <= 1, the commissionAmount differs from
(S - d) * r by at most half a cent plus 2^-23 for each of the 6 n + 1 roundings that matter,
n being the number of line items. -/
theorem C9_uniform_rate_commission_binary64 (db db' : DB) (body : OrderBody) (now : Int)
    (o : Order) (S d r : ℚ) (h : Binary64.postOrders db body now = (db', .created o))
    (hS : o.subtotal = fin S) (hpos : 0 < S) (hle : S ≤ 2 ^ 30)
    (hd : o.discount = fin d) (hd0 : 0 ≤ d) (hd1 : d ≤ S)
    (hitems : ∀ it ∈ o.items,
      ∃ p q : ℚ, it.price = some (fin p) ∧ it.qty = some (fin q) ∧ 0 ≤ p ∧ 0 ≤ q)
    (hr : ∀ it ∈ o.items, Binary64.rate db it = fin r) (hr0 : 0 ≤ r) (hr1 : r ≤ 1) :
    ∃ c, o.commissionAmount = fin c ∧
      |c - (S - d) * r| ≤ 1 / 200 + (6 * o.items.length + 1) / 2 ^ 23 := by
  obtain ⟨-, hsub, -, hcomm, -⟩ := postOrders64_created h
  rw [hS] at hsub
  obtain ⟨a, hca, hfin, ha0, haS, herr, herrS, herrA⟩ :=
    commissionAmount64_analysis db o.items hsub.symm hpos hle hd0 hd1 hitems
      (fun it hit => ⟨r, hr it hit, hr0, hr1⟩)
  refine ⟨roundNearest (halfUp2 a), by rw [hcomm, hS, hd, hca, hfin], ?_⟩
  have hmap : (o.items.map (fun it => (1 - d / S) * (Binary64.itemTotal it).toRat
        * (Binary64.rate db it).toRat))
      = o.items.map (fun it => (1 - d / S) * r * (Binary64.itemTotal it).toRat) := by
    apply List.map_congr_left
    intro it hit
    rw [hr it hit, JSNum.toRat_fin]; ring
  rw [hmap, List.sum_map_mul_left] at herrA
  set T := (o.items.map (fun it => (Binary64.itemTotal it).toRat)).sum with hT
  have hρ0 : 0 ≤ 1 - d / S := by
    have : d / S ≤ 1 := (div_le_one hpos).mpr hd1
    linarith
  have hρ1 : 1 - d / S ≤ 1 := by
    have : 0 ≤ d / S := div_nonneg hd0 hpos.le
    linarith
  have hκ0 : 0 ≤ (1 - d / S) * r := mul_nonneg hρ0 hr0
  have hκ1 : (1 - d / S) * r ≤ 1 := by nlinarith
  have hexact : (S - d) * r = (1 - d / S) * r * S := by
    field_simp
  have hdiff : |(1 - d / S) * r * (S - T)| ≤ o.items.length / 2 ^ 23 := by
    rw [abs_mul, abs_of_nonneg hκ0]
    calc (1 - d / S) * r * |S - T| ≤ 1 * |S - T| :=
          mul_le_mul_of_nonneg_right hκ1 (abs_nonneg _)
      _ ≤ o.items.length / 2 ^ 23 := by rw [one_mul]; exact herrS
  have hnear := halfUp2_near a
  have key : roundNearest (halfUp2 a) - (S - d) * r
      = (roundNearest (halfUp2 a) - halfUp2 a) + (halfUp2 a - a)
        + (a - (1 - d / S) * r * T) - (1 - d / S) * r * (S - T) := by
    rw [hexact]; ring
  rw [key]
  have t1 := abs_le.mp herr
  have t2 := abs_le.mp hnear
  have t3 := abs_le.mp herrA
  have t4 := abs_le.mp hdiff
  rw [abs_le]
  constructor <;> linarith [t1.1, t1.2, t2.1, t2.2, t3.1, t3.2, t4.1, t4.2]

/-- C9 (witness): subtotal 499.99, the 10% coupon (discount 50.00) and r = 0.1: the
commission 45.00 is within the bound of (499.99 - 50) * 0.1. -/
theorem C9_uniform_rate_commission_binary64_witness :
    ∃ c, Binary64.exampleOrder.commissionAmount = fin c ∧
      |c - ((Binary64.num (49999 / 100)).toRat - 50) * (Binary64.num (1 / 10)).toRat|
        ≤ 1 / 200 + (6 * Binary64.exampleOrder.items.length + 1) / 2 ^ 23 :=
  C9_uniform_rate_commission_binary64 Binary64.shop
    (Binary64.postOrders Binary64.shop
      (orderBody [Binary64.lineItem "p_1" (49999 / 100) 1] (some "TEN")) 5).1
    (orderBody [Binary64.lineItem "p_1" (49999 / 100) 1] (some "TEN")) 5 Binary64.exampleOrder
    (Binary64.num (49999 / 100)).toRat 50 (Binary64.num (1 / 10)).toRat
    exampleOrder_created (by decide!) (by decide!) (by decide!) rfl (by norm_num) (by decide!)
    (by
      intro it hit
      simp only [Binary64.exampleOrder, List.mem_singleton] at hit
      subst hit
      exact ⟨(Binary64.num (49999 / 100)).toRat, 1, by decide!, by decide!, by decide!,
        by norm_num⟩)
    (by
      intro it hit
      simp only [Binary64.exampleOrder, List.mem_singleton] at hit
      subst hit
      decide!)
    (by decide!) (by decide!)

/-- C30 (counterexample): two lines of 1.27 and 0.945 in a category whose rate is 1, with
the 10% coupon. Every quantity is as the claim asks (subtotal 2.215 > 0, prices and
quantities non-negative, rate 1, discount 0.22 between 0 and the subtotal), yet the stored
commissionAmount 2.00 exceeds the stored total 1.99: the difference 2.215 - 0.22 of the
doubles lands just below 1.995 and the commission sum just above it. -/
theorem C30_commission_above_total_counterexample :
    (Binary64.postOrders Binary64.shop
        (orderBody [Binary64.lineItem "p_3" (127 / 100) 1, Binary64.lineItem "p_3" (945 / 1000) 1]
          (some "TEN")) 0).2.pricing?
      = some (Binary64.num (2215 / 1000), Binary64.num (22 / 100), Binary64.num (199 / 100),
          fin 2) ∧
    Binary64.rate Binary64.shop (Binary64.lineItem "p_3" (127 / 100) 1) = fin 1 ∧
    (Binary64.num (199 / 100)).lt (fin 2) = true ∧
    (fin 0).lt (Binary64.num (22 / 100)) = true ∧
    (Binary64.num (22 / 100)).lt (Binary64.num (2215 / 1000)) = true := by
  decide!

/-- C30 (amended): for every order accepted by the handler on doubles with a subtotal
0 < S <= 2^30, a discount 0 <= d <= S, at most 10000 line items with non-negative prices
and quantities, and rates between 0 and 1: commissionAmount and total are whole numbers of
cents kc and kt (the doubles nearest to kc / 100 and kt / 100) with 0 <= kc <= kt + 1, so
the commission exceeds the total by at most one cent; without a discount kc <= kt. -/
theorem C30_commission_within_total_binary64 (db db' : DB) (body : OrderBody) (now : Int)
    (o : Order) (S d : ℚ) (h : Binary64.postOrders db body now = (db', .created o))
    (hS : o.subtotal = fin S) (hpos : 0 < S) (hle : S ≤ 2 ^ 30)
    (hd : o.discount = fin d) (hd0 : 0 ≤ d) (hd1 : d ≤ S)
    (hlen : o.items.length ≤ 10000)
    (hitems : ∀ it ∈ o.items,
      ∃ p q : ℚ, it.price = some (fin p) ∧ it.qty = some (fin q) ∧ 0 ≤ p ∧ 0 ≤ q)
    (hrates : ∀ it ∈ o.items, ∃ r : ℚ, Binary64.rate db it = fin r ∧ 0 ≤ r ∧ r ≤ 1) :
    ∃ kc kt : ℤ, o.commissionAmount = Binary64.num (kc / 100) ∧
      o.total = Binary64.num (kt / 100) ∧ 0 ≤ kc ∧ kc ≤ kt + 1 ∧ (d = 0 → kc ≤ kt) := by
  obtain ⟨-, hsub, htotal, hcomm, -⟩ := postOrders64_created h
  rw [hS] at hsub
  have hSrep := subtotal64_representable hsub.symm
  obtain ⟨a, hca, -, ha0, haS, -, herrS, herrA⟩ :=
    commissionAmount64_analysis db o.items hsub.symm hpos hle hd0 hd1 hitems hrates
  -- the difference subtotal - discount on doubles
  obtain ⟨hw, hw0, hw1, hwerr⟩ := round64_between (K := 30) (by norm_num) hSrep hle
    (sub_nonneg.mpr hd1) (by linarith : S - d ≤ S)
  have hE : (2 : ℚ) ^ 30 / 2 ^ 53 = 1 / 2 ^ 23 := by norm_num
  rw [hE] at hwerr
  set w := roundNearest (S - d) with hwdef
  refine ⟨⌊a * 100 + 1 / 2⌋, ⌊w * 100 + 1 / 2⌋, ?_, ?_, ?_, ?_, ?_⟩
  · rw [hcomm, hS, hd, hca]; rfl
  · rw [htotal, hS, hd, sub64_fin, hw, toFixed2_64_nonneg hw0]; rfl
  · exact Int.floor_nonneg.mpr (by positivity)
  · -- the accumulated commission is at most the exact net total plus the rounding errors
    set T := (o.items.map (fun it => (Binary64.itemTotal it).toRat)).sum with hT
    have hρ0 : 0 ≤ 1 - d / S := by
      have : d / S ≤ 1 := (div_le_one hpos).mpr hd1
      linarith
    have hρ1 : 1 - d / S ≤ 1 := by
      have : 0 ≤ d / S := div_nonneg hd0 hpos.le
      linarith
    have hTs := itemTotals64_of_subtotal hsub.symm hitems
    have hsum : (o.items.map (fun it => (1 - d / S) * (Binary64.itemTotal it).toRat
          * (Binary64.rate db it).toRat)).sum ≤ (1 - d / S) * T := by
      rw [hT, ← List.sum_map_mul_left]
      apply List.sum_le_sum
      intro it hit
      obtain ⟨t, ht, ht0, -⟩ := hTs it hit
      obtain ⟨r, hr, hr0, hr1⟩ := hrates it hit
      rw [ht, hr, JSNum.toRat_fin, JSNum.toRat_fin]
      exact mul_le_of_le_one_right (mul_nonneg hρ0 ht0) hr1
    have hexact : S - d = (1 - d / S) * S := by field_simp
    have hTS : (1 - d / S) * (T - S) ≤ o.items.length / 2 ^ 23 := by
      have h1 : T - S ≤ o.items.length / 2 ^ 23 := by
        have := (abs_le.mp herrS).1
        linarith
      have h2 : (0 : ℚ) ≤ o.items.length / 2 ^ 23 := by positivity
      by_cases hneg : T - S ≤ 0
      · have : (1 - d / S) * (T - S) ≤ 0 := mul_nonpos_of_nonneg_of_nonpos hρ0 hneg
        linarith
      · push_neg at hneg
        calc (1 - d / S) * (T - S) ≤ 1 * (T - S) :=
              mul_le_mul_of_nonneg_right hρ1 hneg.le
          _ ≤ o.items.length / 2 ^ 23 := by rw [one_mul]; exact h1
    have hlenq : (o.items.length : ℚ) ≤ 10000 := by exact_mod_cast hlen
    have haw : a * 100 + 1 / 2 ≤ w * 100 + 1 / 2 + 1 := by
      have t1 := (abs_le.mp herrA).2
      have t2 := (abs_le.mp hwerr).1
      have hmul : (1 - d / S) * T = (1 - d / S) * (T - S) + (S - d) := by
        rw [hexact]; ring
      have : a - w ≤ (6 * (o.items.length : ℚ) + 1) / 2 ^ 23 := by
        rw [hmul] at hsum
        linarith
      have hsmall : (6 * (o.items.length : ℚ) + 1) / 2 ^ 23 ≤ 1 / 100 := by
        rw [div_le_iff₀ (by positivity)]
        norm_num
        linarith
      linarith
    calc ⌊a * 100 + 1 / 2⌋ ≤ ⌊w * 100 + 1 / 2 + 1⌋ := Int.floor_le_floor haw
      _ = ⌊w * 100 + 1 / 2⌋ + 1 := Int.floor_add_one _
  · intro hd00
    subst hd00
    have hwS : w = S := by
      rw [hwdef, sub_zero]
      exact roundNearest_of_representable hSrep
    rw [hwS]
    exact Int.floor_le_floor (by linarith)

/-- C30 (witness): the order of 499.99 with the 10% coupon at the rate 0.1: the commission
is 4500 cents, the total 44999 cents. -/
theorem C30_commission_within_total_binary64_witness :
    ∃ kc kt : ℤ, Binary64.exampleOrder.commissionAmount = Binary64.num (kc / 100) ∧
      Binary64.exampleOrder.total = Binary64.num (kt / 100) ∧ 0 ≤ kc ∧ kc ≤ kt + 1 ∧
      ((50 : ℚ) = 0 → kc ≤ kt) :=
  C30_commission_within_total_binary64 Binary64.shop
    (Binary64.postOrders Binary64.shop
      (orderBody [Binary64.lineItem "p_1" (49999 / 100) 1] (some "TEN")) 5).1
    (orderBody [Binary64.lineItem "p_1" (49999 / 100) 1] (some "TEN")) 5 Binary64.exampleOrder
    (Binary64.num (49999 / 100)).toRat 50
    exampleOrder_created (by decide!) (by decide!) (by decide!) rfl (by norm_num) (by decide!)
    (by decide)
    (by
      intro it hit
      simp only [Binary64.exampleOrder, List.mem_singleton] at hit
      subst hit
      exact ⟨(Binary64.num (49999 / 100)).toRat, 1, by decide!, by decide!, by decide!,
        by norm_num⟩)
    (by
      intro it hit
      simp only [Binary64.exampleOrder, List.mem_singleton] at hit
      subst hit
      exact ⟨(Binary64.num (1 / 10)).toRat, by decide!, by decide!, by decide!⟩)

end Puppeteers
